import Mathlib

/-!
Camera stabilisation module (`flight/Modules/CameraStab/camerastab.c`): a
shallow embedding of the periodic callback `attitudeUpdated` and of the helper
`bound`, followed by theorems about them.

Modelling conventions.

* The callback is embedded twice.  In the exact embedding (`timeDelta`,
  `lowPass`, `channelBody`, `channelLoop`, `attitudeUpdated`) a C `float` that
  holds a number is an exact rational (`ℚ`): rounding and the finite exponent
  range are idealised away.  The only operation of the module that can leave
  the numbers from numeric operands is the division by the configured
  `OutputRange`, so the quotient (and the command computed from it) is a
  `FloatVal`, which adds the IEEE results of a division by zero.
* In the binary32 embedding of the state update (`timeDelta32`, `lowPass32`,
  `channelBody32`, `channelLoop32`, `stateUpdate32`) the result of every
  `float` operation of lines 144-173 is rounded by `round32`: round to nearest,
  ties to even, 24 significant bits, subnormal spacing `2 ^ (-149)`, each
  operation rounded on its own (no fused multiply-add, no wider intermediate
  format).  Overflow to an infinity is not modelled; theorems over this
  embedding that depend on it carry a bound on the magnitudes.  Properties of
  order and of bounds of the filter and of the integration are stated over this
  embedding, because rounding can break them.
* Arrays indexed by a channel are total functions `Nat → _`.
* Tick counts (`portTickType`, unsigned) are natural numbers; the module only
  subtracts them when the minuend is the larger one.
* The callback returns `none` when `PIOS_Assert(0)` halts the module, and
  otherwise the new module state with the list of values written to the
  `CameraDesired` object, in the order of the writes.
* An update is a call of the callback for the event of the attitude object,
  the only event the module registers the callback for.
-/

namespace CameraStab

/-! Definitions: the data model, the operations of the source, the notions the
theorems are stated with, and the concrete configurations of the examples. -/

/-- The nominal sample period `SAMPLE_PERIOD_MS` of the source. -/
def SAMPLE_PERIOD_MS : Nat := 10

/-- Value of a float expression: a number, or one of the IEEE results of a
division by zero. -/
inductive FloatVal where
  | nan
  | ninf
  | fin (q : ℚ)
  | pinf
deriving DecidableEq

/-- IEEE ordering of float values: the infinities are below and above every
number, and every comparison with `nan` is false. -/
def FloatVal.lt : FloatVal → FloatVal → Prop
  | .ninf, .fin _ => True
  | .ninf, .pinf => True
  | .fin a, .fin b => a < b
  | .fin _, .pinf => True
  | _, _ => False

instance : LT FloatVal := ⟨FloatVal.lt⟩

instance FloatVal.decLt : DecidableRel ((· < ·) : FloatVal → FloatVal → Prop) := fun a b =>
  match a, b with
  | .ninf, .fin _ => isTrue trivial
  | .ninf, .pinf => isTrue trivial
  | .fin x, .fin y => inferInstanceAs (Decidable (x < y))
  | .fin _, .pinf => isTrue trivial
  | .nan, _ => isFalse (fun h => by cases h)
  | .pinf, _ => isFalse (fun h => by cases h)
  | .ninf, .nan => isFalse (fun h => by cases h)
  | .ninf, .ninf => isFalse (fun h => by cases h)
  | .fin _, .nan => isFalse (fun h => by cases h)
  | .fin _, .ninf => isFalse (fun h => by cases h)

/-- Unary minus of a float value. -/
def FloatVal.neg : FloatVal → FloatVal
  | .nan => .nan
  | .ninf => .pinf
  | .fin q => .fin (-q)
  | .pinf => .ninf

instance : Neg FloatVal := ⟨FloatVal.neg⟩

/-- The C expression `a / b` on floats holding the numbers `a` and `b`: the
exact quotient when `b` is not zero; dividing by (positive) zero gives an
infinity of the sign of `a`, and `0 / 0` is not a number. -/
def fdiv (a b : ℚ) : FloatVal :=
  if b = 0 then
    if a > 0 then .pinf else if a < 0 then .ninf else .nan
  else .fin (a / b)

/-- A float value is a number of the interval `[-1, 1]`. -/
def FloatVal.inUnit : FloatVal → Prop
  | .fin q => -1 ≤ q ∧ q ≤ 1
  | _ => False

instance FloatVal.decInUnit : DecidablePred FloatVal.inUnit := fun v =>
  match v with
  | .fin q => inferInstanceAs (Decidable (-1 ≤ q ∧ q ≤ 1))
  | .nan => isFalse (fun h => h)
  | .ninf => isFalse (fun h => h)
  | .pinf => isFalse (fun h => h)

/-- Constants that the source takes from headers outside `camerastab.c`:
the FreeRTOS tick conversion factor and the element count and element indices
generated for the `CameraStabSettings` object.  The tick factor is a divisor in
the source and the loop counter is a `uint8_t`, hence the two side conditions. -/
structure Header where
  portTICK_RATE_MS : Nat
  INPUT_NUMELEM : Nat
  INPUT_ROLL : Nat
  INPUT_PITCH : Nat
  INPUT_YAW : Nat
  OUTPUTRANGE_ROLL : Nat
  OUTPUTRANGE_PITCH : Nat
  OUTPUTRANGE_YAW : Nat
  tick_pos : 0 < portTICK_RATE_MS
  numelem_lt : INPUT_NUMELEM < 256

/-- Modelled from the spec: the generated enumeration `CAMERASTABSETTINGS_INPUT_*`
is not in the source file; the spec gives the input source selector of a
channel as "none / external accessory index".  `ACCESSORY k` stands for the
selector whose distance to `CAMERASTABSETTINGS_INPUT_ACCESSORY0` is `k`. -/
inductive InputSel where
  | NONE
  | ACCESSORY (k : Nat)
deriving DecidableEq

/-- Modelled from the spec: the generated enumeration
`CAMERASTABSETTINGS_STABILIZATIONMODE_*` is not in the source file; the spec
names the modes Attitude and AxisLock, and the source has a `default:` branch
for every other stored value. -/
inductive StabMode where
  | ATTITUDE
  | AXISLOCK
  | OTHER (raw : Nat)
deriving DecidableEq

/-- The settings object `CameraStabSettingsData` as far as the callback reads
it.  `ResponseTime` is an integer count of milliseconds that the source casts
to `float`; `MaxAxisLockRate` is a single value shared by all channels. -/
structure CameraStabSettingsData where
  Input : Nat → InputSel
  InputRange : Nat → ℚ
  InputRate : Nat → ℚ
  StabilizationMode : Nat → StabMode
  OutputRange : Nat → ℚ
  ResponseTime : Nat → Nat
  MaxAxisLockRate : ℚ

/-- The module state `struct CameraStab_data`. -/
structure CameraStab_data where
  lastSysTime : Nat
  inputs : Nat → ℚ
  inputs_filtered : Nat → ℚ

/-- The object an event refers to: the attitude object or some other one. -/
inductive UAVObjHandle where
  | AttitudeActual
  | Other (n : Nat)
deriving DecidableEq

/-- The event passed to the callback (only the field the callback reads). -/
structure UAVObjEvent where
  obj : UAVObjHandle

/-- What one call of the callback reads from outside the module: the settings
(`CameraStabSettingsGet`), the tick count (`xTaskGetTickCount`), the accessory
instances (`AccessoryDesiredInstGet` succeeds with `AccessoryVal` exactly where
this is `some`), and the three attitude angles. -/
structure Readings where
  cameraStab : CameraStabSettingsData
  thisSysTime : Nat
  AccessoryDesiredInstGet : Nat → Option ℚ
  Roll : ℚ
  Pitch : ℚ
  Yaw : ℚ

/-- The output axes, one per `CameraDesired*Set` call. -/
inductive Axis where
  | Roll
  | Pitch
  | Yaw
deriving DecidableEq

/-- The source function `bound`, lines 195-200. -/
def bound {α : Type} [LT α] [DecidableRel ((· < ·) : α → α → Prop)] [Neg α]
    (val limit : α) : α :=
  if val > limit then limit
  else if val < -limit then -limit
  else val

/-- The state after `memset(csd, 0, ...)` and the tick assignment of
`CameraStabInitialize` (lines 103-105), for the tick count `now`. -/
def initialData (now : Nat) : CameraStab_data :=
  { lastSysTime := now, inputs := fun _ => 0, inputs_filtered := fun _ => 0 }

/-- The time delta `dT` of lines 143-146: the tick difference divided (as
unsigned integers) by `portTICK_RATE_MS` when the tick count advanced, and
`SAMPLE_PERIOD_MS / 1000` otherwise. -/
def timeDelta (H : Header) (thisSysTime lastSysTime : Nat) : ℚ :=
  if thisSysTime > lastSysTime then
    (((thisSysTime - lastSysTime) / H.portTICK_RATE_MS : Nat) : ℚ)
  else
    (SAMPLE_PERIOD_MS : ℚ) / 1000

/-- The low-pass step of lines 167-173 for channel `i`.  The divisor `rt + dT`
is positive wherever it is used: `rt` is a non-zero count there and `dT` is
never negative. -/
def lowPass (cameraStab : CameraStabSettingsData) (dT : ℚ) (i : Nat)
    (csd : CameraStab_data) : CameraStab_data :=
  let rt : ℚ := (cameraStab.ResponseTime i : ℚ)
  if rt ≠ 0 then
    let filtered := (rt / (rt + dT)) * csd.inputs_filtered i + (dT / (rt + dT)) * csd.inputs i
    { csd with inputs_filtered := Function.update csd.inputs_filtered i filtered }
  else
    { csd with inputs_filtered := Function.update csd.inputs_filtered i (csd.inputs i) }

/-- The body of the channel loop, lines 151-175, for channel `i`; `none` is the
halt of `PIOS_Assert(0)`. -/
def channelBody (cameraStab : CameraStabSettingsData) (accessory : Nat → Option ℚ)
    (dT : ℚ) (i : Nat) (csd : CameraStab_data) : Option CameraStab_data :=
  match cameraStab.Input i with
  | .NONE => some csd
  | .ACCESSORY k =>
    match accessory k with
    | none => some csd
    | some AccessoryVal =>
      match cameraStab.StabilizationMode i with
      | .ATTITUDE =>
        let input := AccessoryVal * cameraStab.InputRange i
        some (lowPass cameraStab dT i { csd with inputs := Function.update csd.inputs i input })
      | .AXISLOCK =>
        let input_rate := AccessoryVal * cameraStab.InputRate i
        if |input_rate| > cameraStab.MaxAxisLockRate then
          let input := bound (csd.inputs i + input_rate * dT / 1000) (cameraStab.InputRange i)
          some (lowPass cameraStab dT i { csd with inputs := Function.update csd.inputs i input })
        else
          some (lowPass cameraStab dT i csd)
      | .OTHER _ => none

/-- The loop `for (i = 0; i < NUMELEM; i++)` of line 150, started at channel `i`
with `remaining` iterations to go. -/
def channelLoop (cameraStab : CameraStabSettingsData) (accessory : Nat → Option ℚ)
    (dT : ℚ) : Nat → Nat → CameraStab_data → Option CameraStab_data
  | _, 0, csd => some csd
  | i, remaining + 1, csd =>
    match channelBody cameraStab accessory dT i csd with
    | none => none
    | some csd1 => channelLoop cameraStab accessory dT (i + 1) remaining csd1

/-- The callback `attitudeUpdated`, lines 132-193. -/
def attitudeUpdated (H : Header) (ev : UAVObjEvent) (r : Readings)
    (csd : CameraStab_data) : Option (CameraStab_data × List (Axis × FloatVal)) :=
  if ev.obj ≠ UAVObjHandle.AttitudeActual then some (csd, [])
  else
    let cameraStab := r.cameraStab
    let dT := timeDelta H r.thisSysTime csd.lastSysTime
    let csd0 : CameraStab_data := { csd with lastSysTime := r.thisSysTime }
    match channelLoop cameraStab r.AccessoryDesiredInstGet dT 0 H.INPUT_NUMELEM csd0 with
    | none => none
    | some csd1 =>
      some (csd1,
        [ (Axis.Roll, bound (fdiv (r.Roll + csd1.inputs_filtered H.INPUT_ROLL)
              (cameraStab.OutputRange H.OUTPUTRANGE_ROLL)) (FloatVal.fin 1)),
          (Axis.Pitch, bound (fdiv (r.Pitch + csd1.inputs_filtered H.INPUT_PITCH)
              (cameraStab.OutputRange H.OUTPUTRANGE_PITCH)) (FloatVal.fin 1)),
          (Axis.Yaw, bound (fdiv (r.Yaw + csd1.inputs_filtered H.INPUT_YAW)
              (cameraStab.OutputRange H.OUTPUTRANGE_YAW)) (FloatVal.fin 1)) ])

/-- The raw value of channel `i` after the loop body, as a function of what the
body reads for that channel. -/
def rawAfter (cs : CameraStabSettingsData) (a dT : ℚ) (i : Nat) (x : ℚ) : ℚ :=
  match cs.StabilizationMode i with
  | .ATTITUDE => a * cs.InputRange i
  | .AXISLOCK =>
    if |a * cs.InputRate i| > cs.MaxAxisLockRate then
      bound (x + a * cs.InputRate i * dT / 1000) (cs.InputRange i)
    else x
  | .OTHER _ => x

/-- The filtered value of channel `i` after the low-pass step applied to the
previous filtered value `f` and the raw value `x`. -/
def filteredAfter (cs : CameraStabSettingsData) (dT : ℚ) (i : Nat) (f x : ℚ) : ℚ :=
  if cs.ResponseTime i = 0 then x
  else ((cs.ResponseTime i : ℚ) / ((cs.ResponseTime i : ℚ) + dT)) * f
    + (dT / ((cs.ResponseTime i : ℚ) + dT)) * x

/-- Channel `i` is processed by the loop body with accessory value `a`: its
source is configured, the accessory instance is available and the mode is one
of the two known ones. -/
def Processed (cs : CameraStabSettingsData) (accessory : Nat → Option ℚ) (i : Nat)
    (a : ℚ) : Prop :=
  ∃ k, cs.Input i = InputSel.ACCESSORY k ∧ accessory k = some a ∧
    (cs.StabilizationMode i = StabMode.ATTITUDE ∨ cs.StabilizationMode i = StabMode.AXISLOCK)

/-- Channel `i` is skipped by the loop body: no source is configured, or the
accessory instance is not available. -/
def Skipped (cs : CameraStabSettingsData) (accessory : Nat → Option ℚ) (i : Nat) : Prop :=
  cs.Input i = InputSel.NONE ∨ ∃ k, cs.Input i = InputSel.ACCESSORY k ∧ accessory k = none

/-- The channel loop as `attitudeUpdated` runs it on the state `csd` with the
readings `r`. -/
def loopOf (H : Header) (r : Readings) (csd : CameraStab_data) : Option CameraStab_data :=
  channelLoop r.cameraStab r.AccessoryDesiredInstGet
    (timeDelta H r.thisSysTime csd.lastSysTime) 0 H.INPUT_NUMELEM
    { csd with lastSysTime := r.thisSysTime }

/-- The three writes to the `CameraDesired` object, from the state `c` after
the loop. -/
def commandsOf (H : Header) (r : Readings) (c : CameraStab_data) : List (Axis × FloatVal) :=
  [ (Axis.Roll, bound (fdiv (r.Roll + c.inputs_filtered H.INPUT_ROLL)
        (r.cameraStab.OutputRange H.OUTPUTRANGE_ROLL)) (FloatVal.fin 1)),
    (Axis.Pitch, bound (fdiv (r.Pitch + c.inputs_filtered H.INPUT_PITCH)
        (r.cameraStab.OutputRange H.OUTPUTRANGE_PITCH)) (FloatVal.fin 1)),
    (Axis.Yaw, bound (fdiv (r.Yaw + c.inputs_filtered H.INPUT_YAW)
        (r.cameraStab.OutputRange H.OUTPUTRANGE_YAW)) (FloatVal.fin 1)) ]

/-- The attitude angle the callback reads for an output axis. -/
def Readings.attitude (r : Readings) : Axis → ℚ
  | .Roll => r.Roll
  | .Pitch => r.Pitch
  | .Yaw => r.Yaw

/-- The index of the filtered input the callback adds for an output axis. -/
def Header.inputIndex (H : Header) : Axis → Nat
  | .Roll => H.INPUT_ROLL
  | .Pitch => H.INPUT_PITCH
  | .Yaw => H.INPUT_YAW

/-- The index of the output range the callback divides by for an output axis. -/
def Header.rangeIndex (H : Header) : Axis → Nat
  | .Roll => H.OUTPUTRANGE_ROLL
  | .Pitch => H.OUTPUTRANGE_PITCH
  | .Yaw => H.OUTPUTRANGE_YAW

/-- A header like the one of the flight firmware: a 1 kHz tick and the three
channels Roll, Pitch, Yaw. -/
def stdHeader : Header :=
  { portTICK_RATE_MS := 1, INPUT_NUMELEM := 3, INPUT_ROLL := 0, INPUT_PITCH := 1,
    INPUT_YAW := 2, OUTPUTRANGE_ROLL := 0, OUTPUTRANGE_PITCH := 1, OUTPUTRANGE_YAW := 2,
    tick_pos := by decide, numelem_lt := by decide }

/-- The event the module registers its callback for. -/
def attitudeEvent : UAVObjEvent := { obj := UAVObjHandle.AttitudeActual }

/-- Settings with no input source on any channel and the output range `range`
on every axis. -/
def idleSettings (range : ℚ) : CameraStabSettingsData :=
  { Input := fun _ => InputSel.NONE,
    InputRange := fun _ => 20,
    InputRate := fun _ => 50,
    StabilizationMode := fun _ => StabMode.ATTITUDE,
    OutputRange := fun _ => range,
    ResponseTime := fun _ => 0,
    MaxAxisLockRate := 1 }

/-- Readings with the settings `cs`, the tick count `now`, accessory instance 0
at `a` (no other instance) and the same angle `att` on the three axes. -/
def readingsOf (cs : CameraStabSettingsData) (now : Nat) (a att : ℚ) : Readings :=
  { cameraStab := cs, thisSysTime := now,
    AccessoryDesiredInstGet := fun k => if k = 0 then some a else none,
    Roll := att, Pitch := att, Yaw := att }

/-- A module state with the same raw value `x` and filtered value `f` on every
channel. -/
def flatData (last : Nat) (x f : ℚ) : CameraStab_data :=
  { lastSysTime := last, inputs := fun _ => x, inputs_filtered := fun _ => f }

/-- Settings that drive channel 0 from accessory instance 0 in the mode `m`
with response time `rt`; the other channels have no source. -/
def channel0Settings (m : StabMode) (rt : Nat) : CameraStabSettingsData :=
  { Input := fun i => if i = 0 then InputSel.ACCESSORY 0 else InputSel.NONE,
    InputRange := fun _ => 20,
    InputRate := fun _ => 50,
    StabilizationMode := fun _ => m,
    OutputRange := fun _ => 20,
    ResponseTime := fun _ => rt,
    MaxAxisLockRate := 1 }

/-- Settings whose three channels all name accessory instance 3 as source. -/
def absentSourceSettings : CameraStabSettingsData :=
  { Input := fun _ => InputSel.ACCESSORY 3,
    InputRange := fun _ => 20,
    InputRate := fun _ => 50,
    StabilizationMode := fun _ => StabMode.AXISLOCK,
    OutputRange := fun _ => 20,
    ResponseTime := fun _ => 30,
    MaxAxisLockRate := 1 }

/-- Readings of cycle `n` of an example run: channel 0 in Attitude mode with
response time 10 ms, accessory value 0, tick count `10 * (n + 1)`. -/
def decayReadings (n : Nat) : Readings :=
  readingsOf (channel0Settings StabMode.ATTITUDE 10) (10 * (n + 1)) 0 0

/-- The states of the example run: it starts at tick 0 with filtered input 1 and
applies the callback once per cycle. -/
def decayRun : Nat → CameraStab_data
  | 0 => flatData 0 0 1
  | n + 1 =>
    match attitudeUpdated stdHeader attitudeEvent (decayReadings n) (decayRun n) with
    | some (c, _) => c
    | none => decayRun n

/-- The commands written in cycle `n` of the example run. -/
def decayOuts (n : Nat) : List (Axis × FloatVal) :=
  match attitudeUpdated stdHeader attitudeEvent (decayReadings n) (decayRun n) with
  | some (_, o) => o
  | none => []

/-- Channel `i` is processed with a stabilization mode outside Attitude and
AxisLock: its source is configured, the accessory instance is available, and
the stored mode is some other value. -/
def BadMode (cs : CameraStabSettingsData) (accessory : Nat → Option ℚ) (i : Nat) : Prop :=
  ∃ k a raw, cs.Input i = InputSel.ACCESSORY k ∧ accessory k = some a ∧
    cs.StabilizationMode i = StabMode.OTHER raw

/-- Readings of cycle `n` of a second example run: channel 0 in AxisLock mode
with response time 30 ms, accessory value 1 (rate 50 per second), one second of
ticks per cycle. -/
def sweepReadings (n : Nat) : Readings :=
  readingsOf (channel0Settings StabMode.AXISLOCK 30) (1000 * (n + 1)) 1 0

/-- The states of the second example run: it starts from the zeroed state at
tick 0 and applies the callback once per cycle. -/
def sweepRun : Nat → CameraStab_data
  | 0 => initialData 0
  | n + 1 =>
    match attitudeUpdated stdHeader attitudeEvent (sweepReadings n) (sweepRun n) with
    | some (c, _) => c
    | none => sweepRun n

/-- The commands written in cycle `n` of the second example run. -/
def sweepOuts (n : Nat) : List (Axis × FloatVal) :=
  match attitudeUpdated stdHeader attitudeEvent (sweepReadings n) (sweepRun n) with
  | some (_, o) => o
  | none => []

/-- The elapsed time of a cycle in seconds, as the statements about the
integration name it: when the tick count advanced, the tick difference divided
by `portTICK_RATE_MS` (the elapsed milliseconds when that factor is 1) over
1000, and the nominal sample period over 1000 otherwise. -/
def deltaSeconds (H : Header) (thisSysTime lastSysTime : Nat) : ℚ :=
  if thisSysTime > lastSysTime then
    (((thisSysTime - lastSysTime) / H.portTICK_RATE_MS : Nat) : ℚ) / 1000
  else
    (SAMPLE_PERIOD_MS : ℚ) / 1000

/-- The accessory value the loop body obtains for channel `i`: none when the
channel has no source or the accessory instance is not available. -/
def accessoryOf (cs : CameraStabSettingsData) (accessory : Nat → Option ℚ) (i : Nat) :
    Option ℚ :=
  match cs.Input i with
  | .NONE => none
  | .ACCESSORY k => accessory k

/-- Settings with two driven channels: channel 0 in AxisLock mode as in
`channel0Settings`, channel 1 in Attitude mode with other ranges, both from
accessory instance 0; channel 2 has no source. -/
def twoChannelSettings : CameraStabSettingsData :=
  { Input := fun i => if i = 2 then InputSel.NONE else InputSel.ACCESSORY 0,
    InputRange := fun i => if i = 0 then 20 else 5,
    InputRate := fun i => if i = 0 then 50 else 7,
    StabilizationMode := fun i => if i = 0 then StabMode.AXISLOCK else StabMode.ATTITUDE,
    OutputRange := fun _ => 45,
    ResponseTime := fun i => if i = 0 then 30 else 0,
    MaxAxisLockRate := 1 }

/-- A module state that agrees with `flatData _ 3 8` on channel 0 and differs
from it on the other channels. -/
def unevenData : CameraStab_data :=
  { lastSysTime := 90,
    inputs := fun j => if j = 0 then 3 else 11,
    inputs_filtered := fun j => if j = 0 then 8 else -4 }

/-- Nearest integer of a number, the even one of the two when it lies half way
between them. -/
def roundEven (y : ℚ) : ℤ :=
  if y - ⌊y⌋ < 1 / 2 then ⌊y⌋
  else if 1 / 2 < y - ⌊y⌋ then ⌊y⌋ + 1
  else if ⌊y⌋ % 2 = 0 then ⌊y⌋
  else ⌊y⌋ + 1

/-- Exponent of the binary32 spacing at the magnitude `x > 0`: 24 significant
bits, and the fixed spacing `2 ^ (-149)` of the subnormal numbers below
`2 ^ (-126)`. -/
def ulpExp (x : ℚ) : ℤ := max (Int.log 2 x) (-126) - 23

/-- Binary32 rounding of a positive number: the nearest multiple of the spacing,
ties to even. -/
def roundMag (x : ℚ) : ℚ := (roundEven (x / 2 ^ ulpExp x) : ℚ) * 2 ^ ulpExp x

/-- Binary32 rounding of a number (round to nearest, ties to even, sign and
magnitude); results beyond the largest binary32 number are not cut off. -/
def round32 (x : ℚ) : ℚ :=
  if x = 0 then 0 else if 0 < x then roundMag x else -roundMag (-x)

/-- The time delta of lines 143-146 as a binary32 value: the integer quotient
of the tick difference converted to `float`, or the rounded quotient
`10.0f / 1000.0f`. -/
def timeDelta32 (H : Header) (thisSysTime lastSysTime : Nat) : ℚ :=
  if thisSysTime > lastSysTime then
    round32 (((thisSysTime - lastSysTime) / H.portTICK_RATE_MS : Nat) : ℚ)
  else
    round32 ((SAMPLE_PERIOD_MS : ℚ) / 1000)

/-- The low-pass step of lines 167-173 with the result of every `float`
operation rounded to binary32. -/
def lowPass32 (cameraStab : CameraStabSettingsData) (dT : ℚ) (i : Nat)
    (csd : CameraStab_data) : CameraStab_data :=
  let rt : ℚ := round32 (cameraStab.ResponseTime i : ℚ)
  if rt ≠ 0 then
    let filtered := round32
      (round32 (round32 (rt / round32 (rt + dT)) * csd.inputs_filtered i)
        + round32 (round32 (dT / round32 (rt + dT)) * csd.inputs i))
    { csd with inputs_filtered := Function.update csd.inputs_filtered i filtered }
  else
    { csd with inputs_filtered := Function.update csd.inputs_filtered i (csd.inputs i) }

/-- The body of the channel loop, lines 151-175, with the result of every
`float` operation rounded to binary32; `none` is the halt of `PIOS_Assert(0)`. -/
def channelBody32 (cameraStab : CameraStabSettingsData) (accessory : Nat → Option ℚ)
    (dT : ℚ) (i : Nat) (csd : CameraStab_data) : Option CameraStab_data :=
  match cameraStab.Input i with
  | .NONE => some csd
  | .ACCESSORY k =>
    match accessory k with
    | none => some csd
    | some AccessoryVal =>
      match cameraStab.StabilizationMode i with
      | .ATTITUDE =>
        let input := round32 (AccessoryVal * cameraStab.InputRange i)
        some (lowPass32 cameraStab dT i
          { csd with inputs := Function.update csd.inputs i input })
      | .AXISLOCK =>
        let input_rate := round32 (AccessoryVal * cameraStab.InputRate i)
        if |input_rate| > cameraStab.MaxAxisLockRate then
          let input := bound
            (round32 (csd.inputs i + round32 (round32 (input_rate * dT) / 1000)))
            (cameraStab.InputRange i)
          some (lowPass32 cameraStab dT i
            { csd with inputs := Function.update csd.inputs i input })
        else
          some (lowPass32 cameraStab dT i csd)
      | .OTHER _ => none

/-- The loop of line 150 over `channelBody32`, started at channel `i` with
`remaining` iterations to go. -/
def channelLoop32 (cameraStab : CameraStabSettingsData) (accessory : Nat → Option ℚ)
    (dT : ℚ) : Nat → Nat → CameraStab_data → Option CameraStab_data
  | _, 0, csd => some csd
  | i, remaining + 1, csd =>
    match channelBody32 cameraStab accessory dT i csd with
    | none => none
    | some csd1 => channelLoop32 cameraStab accessory dT (i + 1) remaining csd1

/-- The state update of `attitudeUpdated` for the event of the attitude object,
lines 140-176, in binary32 arithmetic.  The commands of lines 178-192 do not
touch the state and are not part of it. -/
def stateUpdate32 (H : Header) (r : Readings) (csd : CameraStab_data) :
    Option CameraStab_data :=
  channelLoop32 r.cameraStab r.AccessoryDesiredInstGet
    (timeDelta32 H r.thisSysTime csd.lastSysTime) 0 H.INPUT_NUMELEM
    { csd with lastSysTime := r.thisSysTime }

/-- The raw value of channel `i` after `channelBody32`, as a function of what
the body reads for that channel. -/
def rawAfter32 (cs : CameraStabSettingsData) (a dT : ℚ) (i : Nat) (x : ℚ) : ℚ :=
  match cs.StabilizationMode i with
  | .ATTITUDE => round32 (a * cs.InputRange i)
  | .AXISLOCK =>
    if |round32 (a * cs.InputRate i)| > cs.MaxAxisLockRate then
      bound (round32 (x + round32 (round32 (round32 (a * cs.InputRate i) * dT) / 1000)))
        (cs.InputRange i)
    else x
  | .OTHER _ => x

/-- The filtered value of channel `i` after `lowPass32` applied to the previous
filtered value `f` and the raw value `x`. -/
def filteredAfter32 (cs : CameraStabSettingsData) (dT : ℚ) (i : Nat) (f x : ℚ) : ℚ :=
  if round32 (cs.ResponseTime i : ℚ) = 0 then x
  else round32
    (round32 (round32 (round32 (cs.ResponseTime i : ℚ) /
        round32 (round32 (cs.ResponseTime i : ℚ) + dT)) * f)
      + round32 (round32 (dT / round32 (round32 (cs.ResponseTime i : ℚ) + dT)) * x))

/-- The states of the first example run in binary32 arithmetic: it starts at
tick 0 with filtered input 1 and applies the state update once per cycle. -/
def decayRun32 : Nat → CameraStab_data
  | 0 => flatData 0 0 1
  | n + 1 =>
    match stateUpdate32 stdHeader (decayReadings n) (decayRun32 n) with
    | some c => c
    | none => decayRun32 n

/-- One cycle of an example run in binary32 arithmetic: the state after the
update, or the state before it if the update halts. -/
def stepOr32 (r : Readings) (csd : CameraStab_data) : CameraStab_data :=
  match stateUpdate32 stdHeader r csd with
  | some c => c
  | none => csd

/-- The states of the second example run in binary32 arithmetic: it starts from
the zeroed state at tick 0 and applies the state update once per cycle. -/
def sweepRun32 : Nat → CameraStab_data
  | 0 => initialData 0
  | n + 1 => stepOr32 (sweepReadings n) (sweepRun32 n)

/-! Auxiliary lemmas and the theorems for the claims. -/

theorem bound_rat (v L : ℚ) :
    bound v L = if L < v then L else if v < -L then -L else v := rfl

theorem bound_rat_mem (v L : ℚ) (hL : 0 ≤ L) : -L ≤ bound v L ∧ bound v L ≤ L := by
  rw [bound_rat]
  split_ifs with h1 h2
  · exact ⟨by linarith, le_refl _⟩
  · exact ⟨le_refl _, by linarith⟩
  · exact ⟨not_lt.mp h2, not_lt.mp h1⟩

theorem bound_rat_of_abs_le (v L : ℚ) (h : |v| ≤ L) : bound v L = v := by
  rw [bound_rat]
  have h1 := (abs_le.mp h).1
  have h2 := (abs_le.mp h).2
  rw [if_neg (not_lt.mpr h2), if_neg (not_lt.mpr h1)]

theorem lowPass_lastSysTime (cs : CameraStabSettingsData) (dT : ℚ) (i : Nat)
    (csd : CameraStab_data) : (lowPass cs dT i csd).lastSysTime = csd.lastSysTime := by
  simp only [lowPass]
  split_ifs <;> rfl

theorem lowPass_inputs (cs : CameraStabSettingsData) (dT : ℚ) (i : Nat)
    (csd : CameraStab_data) : (lowPass cs dT i csd).inputs = csd.inputs := by
  simp only [lowPass]
  split_ifs <;> rfl

theorem lowPass_filtered_same (cs : CameraStabSettingsData) (dT : ℚ) (i : Nat)
    (csd : CameraStab_data) :
    (lowPass cs dT i csd).inputs_filtered i =
      if cs.ResponseTime i = 0 then csd.inputs i
      else ((cs.ResponseTime i : ℚ) / ((cs.ResponseTime i : ℚ) + dT)) * csd.inputs_filtered i
        + (dT / ((cs.ResponseTime i : ℚ) + dT)) * csd.inputs i := by
  unfold lowPass
  by_cases h : cs.ResponseTime i = 0
  · simp [h]
  · have h2 : ((cs.ResponseTime i : ℚ)) ≠ 0 := by exact_mod_cast h
    simp [h, h2]

theorem lowPass_filtered_other (cs : CameraStabSettingsData) (dT : ℚ) (i j : Nat)
    (csd : CameraStab_data) (hj : j ≠ i) :
    (lowPass cs dT i csd).inputs_filtered j = csd.inputs_filtered j := by
  simp only [lowPass]
  split_ifs <;> simp [Function.update_noteq hj]

theorem channelBody_other (cs : CameraStabSettingsData) (acc : Nat → Option ℚ) (dT : ℚ)
    (i j : Nat) (csd c1 : CameraStab_data) (h : channelBody cs acc dT i csd = some c1)
    (hj : j ≠ i) :
    c1.inputs j = csd.inputs j ∧ c1.inputs_filtered j = csd.inputs_filtered j := by
  unfold channelBody at h
  split at h
  · cases h; exact ⟨rfl, rfl⟩
  · split at h
    · cases h; exact ⟨rfl, rfl⟩
    · split at h
      · cases h
        simp [lowPass_inputs, lowPass_filtered_other _ _ _ _ _ hj, Function.update_noteq hj]
      · simp only at h
        split_ifs at h
        · cases h
          simp [lowPass_inputs, lowPass_filtered_other _ _ _ _ _ hj, Function.update_noteq hj]
        · cases h
          simp [lowPass_inputs, lowPass_filtered_other _ _ _ _ _ hj]
      · cases h

theorem channelBody_lastSysTime (cs : CameraStabSettingsData) (acc : Nat → Option ℚ)
    (dT : ℚ) (i : Nat) (csd c1 : CameraStab_data)
    (h : channelBody cs acc dT i csd = some c1) : c1.lastSysTime = csd.lastSysTime := by
  unfold channelBody at h
  split at h
  · cases h; rfl
  · split at h
    · cases h; rfl
    · split at h
      · cases h; simp [lowPass_lastSysTime]
      · simp only at h
        split_ifs at h <;> cases h <;> simp [lowPass_lastSysTime]
      · cases h

theorem channelBody_skipped (cs : CameraStabSettingsData) (acc : Nat → Option ℚ) (dT : ℚ)
    (i : Nat) (csd : CameraStab_data) (h : Skipped cs acc i) :
    channelBody cs acc dT i csd = some csd := by
  unfold channelBody
  rcases h with h | ⟨k, hk, ha⟩
  · simp [h]
  · simp [hk, ha]

theorem channelBody_processed (cs : CameraStabSettingsData) (acc : Nat → Option ℚ) (dT : ℚ)
    (i : Nat) (a : ℚ) (csd : CameraStab_data) (h : Processed cs acc i a) :
    ∃ c1, channelBody cs acc dT i csd = some c1 ∧
      c1.inputs i = rawAfter cs a dT i (csd.inputs i) ∧
      c1.inputs_filtered i =
        filteredAfter cs dT i (csd.inputs_filtered i) (rawAfter cs a dT i (csd.inputs i)) := by
  obtain ⟨k, hk, ha, hm⟩ := h
  unfold channelBody rawAfter filteredAfter
  rcases hm with hm | hm
  · simp [hk, ha, hm, lowPass_inputs, lowPass_filtered_same]
  · simp only [hk, ha, hm]
    split_ifs with h1 h2 h2
    all_goals simp [lowPass_inputs, lowPass_filtered_same, h2]

theorem channelLoop_spec (cs : CameraStabSettingsData) (acc : Nat → Option ℚ) (dT : ℚ) :
    ∀ (remaining start : Nat) (csd csd' : CameraStab_data),
      channelLoop cs acc dT start remaining csd = some csd' →
      csd'.lastSysTime = csd.lastSysTime ∧
      (∀ i, (i < start ∨ start + remaining ≤ i) →
        csd'.inputs i = csd.inputs i ∧ csd'.inputs_filtered i = csd.inputs_filtered i) ∧
      (∀ i, start ≤ i → i < start + remaining →
        ∃ c0 c1, c0.inputs i = csd.inputs i ∧ c0.inputs_filtered i = csd.inputs_filtered i ∧
          channelBody cs acc dT i c0 = some c1 ∧
          c1.inputs i = csd'.inputs i ∧ c1.inputs_filtered i = csd'.inputs_filtered i) := by
  intro remaining
  induction remaining with
  | zero =>
    intro start csd csd' h
    simp only [channelLoop, Option.some.injEq] at h
    subst h
    refine ⟨rfl, fun i _ => ⟨rfl, rfl⟩, fun i h1 h2 => ?_⟩
    omega
  | succ n ih =>
    intro start csd csd' h
    simp only [channelLoop] at h
    cases hb : channelBody cs acc dT start csd with
    | none => simp [hb] at h
    | some c1 =>
      simp only [hb] at h
      obtain ⟨ht, hframe, hstep⟩ := ih (start + 1) c1 csd' h
      refine ⟨?_, ?_, ?_⟩
      · rw [ht, channelBody_lastSysTime cs acc dT start csd c1 hb]
      · intro i hi
        have hne : i ≠ start := by omega
        have h1 := hframe i (by omega)
        have h2 := channelBody_other cs acc dT start i csd c1 hb hne
        exact ⟨h1.1.trans h2.1, h1.2.trans h2.2⟩
      · intro i hlo hhi
        by_cases hi : i = start
        · subst hi
          have h1 := hframe i (Or.inl (Nat.lt_succ_self i))
          exact ⟨csd, c1, rfl, rfl, hb, h1.1.symm, h1.2.symm⟩
        · obtain ⟨c0, c2, e1, e2, e3, e4, e5⟩ := hstep i (by omega) (by omega)
          have h2 := channelBody_other cs acc dT start i csd c1 hb hi
          exact ⟨c0, c2, e1.trans h2.1, e2.trans h2.2, e3, e4, e5⟩

theorem attitudeUpdated_eq (H : Header) (ev : UAVObjEvent) (r : Readings)
    (csd : CameraStab_data) (hev : ev.obj = UAVObjHandle.AttitudeActual) :
    attitudeUpdated H ev r csd = (loopOf H r csd).map (fun c => (c, commandsOf H r c)) := by
  unfold attitudeUpdated loopOf commandsOf
  simp only [hev, ne_eq, not_true_eq_false, if_false]
  cases channelLoop r.cameraStab r.AccessoryDesiredInstGet
    (timeDelta H r.thisSysTime csd.lastSysTime) 0 H.INPUT_NUMELEM
    { csd with lastSysTime := r.thisSysTime } <;> rfl

theorem attitudeUpdated_some (H : Header) (ev : UAVObjEvent) (r : Readings)
    (csd csd' : CameraStab_data) (outs : List (Axis × FloatVal))
    (hev : ev.obj = UAVObjHandle.AttitudeActual)
    (h : attitudeUpdated H ev r csd = some (csd', outs)) :
    loopOf H r csd = some csd' ∧ outs = commandsOf H r csd' := by
  rw [attitudeUpdated_eq H ev r csd hev] at h
  cases hl : loopOf H r csd with
  | none => simp [hl] at h
  | some c =>
    simp only [hl, Option.map_some', Option.some.injEq, Prod.mk.injEq] at h
    obtain ⟨h1, h2⟩ := h
    subst h1
    exact ⟨rfl, h2.symm⟩

theorem loopOf_processed (H : Header) (r : Readings) (csd csd' : CameraStab_data)
    (h : loopOf H r csd = some csd') (i : Nat) (hi : i < H.INPUT_NUMELEM) (a : ℚ)
    (hp : Processed r.cameraStab r.AccessoryDesiredInstGet i a) :
    csd'.inputs i =
        rawAfter r.cameraStab a (timeDelta H r.thisSysTime csd.lastSysTime) i (csd.inputs i) ∧
      csd'.inputs_filtered i =
        filteredAfter r.cameraStab (timeDelta H r.thisSysTime csd.lastSysTime) i
          (csd.inputs_filtered i)
          (rawAfter r.cameraStab a (timeDelta H r.thisSysTime csd.lastSysTime) i
            (csd.inputs i)) := by
  obtain ⟨_, _, hstep⟩ := channelLoop_spec _ _ _ _ _ _ _ h
  obtain ⟨c0, c1, e1, e2, e3, e4, e5⟩ := hstep i (Nat.zero_le i) (by omega)
  obtain ⟨c2, f1, f2, f3⟩ := channelBody_processed r.cameraStab r.AccessoryDesiredInstGet
    (timeDelta H r.thisSysTime csd.lastSysTime) i a c0 hp
  rw [e3] at f1
  cases f1
  rw [← e4, ← e5, f2, f3, e1, e2]
  exact ⟨rfl, rfl⟩

theorem loopOf_skipped (H : Header) (r : Readings) (csd csd' : CameraStab_data)
    (h : loopOf H r csd = some csd') (i : Nat)
    (hs : Skipped r.cameraStab r.AccessoryDesiredInstGet i) :
    csd'.inputs i = csd.inputs i ∧ csd'.inputs_filtered i = csd.inputs_filtered i := by
  obtain ⟨_, hframe, hstep⟩ := channelLoop_spec _ _ _ _ _ _ _ h
  by_cases hi : i < H.INPUT_NUMELEM
  · obtain ⟨c0, c1, e1, e2, e3, e4, e5⟩ := hstep i (Nat.zero_le i) (by omega)
    rw [channelBody_skipped _ _ _ _ _ hs] at e3
    cases e3
    exact ⟨e4.symm.trans e1, e5.symm.trans e2⟩
  · exact hframe i (Or.inr (by omega))

theorem loopOf_lastSysTime (H : Header) (r : Readings) (csd csd' : CameraStab_data)
    (h : loopOf H r csd = some csd') : csd'.lastSysTime = r.thisSysTime := by
  obtain ⟨ht, _, _⟩ := channelLoop_spec _ _ _ _ _ _ _ h
  exact ht

theorem timeDelta_nonneg (H : Header) (t l : Nat) : 0 ≤ timeDelta H t l := by
  unfold timeDelta SAMPLE_PERIOD_MS
  split_ifs
  · exact Nat.cast_nonneg _
  · norm_num

theorem FloatVal.fin_lt_fin (a b : ℚ) : (FloatVal.fin a < FloatVal.fin b) ↔ a < b := Iff.rfl

theorem FloatVal.neg_fin (a : ℚ) : -(FloatVal.fin a) = FloatVal.fin (-a) := rfl

theorem fdiv_eq_nan (a b : ℚ) : fdiv a b = FloatVal.nan ↔ b = 0 ∧ a = 0 := by
  unfold fdiv
  constructor
  · intro h
    split_ifs at h with h1 h2 h3
    exact ⟨h1, le_antisymm (not_lt.mp h2) (not_lt.mp h3)⟩
  · rintro ⟨h1, h2⟩
    simp [h1, h2]

theorem bound_one_inUnit (v : FloatVal) (hv : v ≠ FloatVal.nan) :
    (bound v (FloatVal.fin 1)).inUnit := by
  cases v with
  | nan => exact absurd rfl hv
  | ninf =>
    have h1 : ¬ (FloatVal.fin 1 < FloatVal.ninf) := fun h => by cases h
    have h2 : FloatVal.ninf < -(FloatVal.fin 1) := trivial
    simp only [bound, gt_iff_lt, if_neg h1, if_pos h2]
    show -1 ≤ (-1 : ℚ) ∧ (-1 : ℚ) ≤ 1
    norm_num
  | pinf =>
    have h1 : FloatVal.fin 1 < FloatVal.pinf := trivial
    simp only [bound, gt_iff_lt, if_pos h1]
    show -1 ≤ (1 : ℚ) ∧ (1 : ℚ) ≤ 1
    norm_num
  | fin q =>
    simp only [bound, gt_iff_lt, FloatVal.neg_fin, FloatVal.fin_lt_fin]
    split_ifs with h1 h2
    · show -1 ≤ (1 : ℚ) ∧ (1 : ℚ) ≤ 1
      norm_num
    · show -1 ≤ (-1 : ℚ) ∧ (-1 : ℚ) ≤ 1
      norm_num
    · exact ⟨not_lt.mp h2, not_lt.mp h1⟩

theorem mem_commandsOf (H : Header) (r : Readings) (c : CameraStab_data) (ax : Axis)
    (v : FloatVal) :
    (ax, v) ∈ commandsOf H r c ↔
      v = bound (fdiv (r.attitude ax + c.inputs_filtered (H.inputIndex ax))
        (r.cameraStab.OutputRange (H.rangeIndex ax))) (FloatVal.fin 1) := by
  cases ax <;>
    simp [commandsOf, Readings.attitude, Header.inputIndex, Header.rangeIndex]

theorem commandsOf_axes (H : Header) (r : Readings) (c : CameraStab_data) :
    (commandsOf H r c).map Prod.fst = [Axis.Roll, Axis.Pitch, Axis.Yaw] := rfl

theorem idle_update (range : ℚ) (now : Nat) (a att : ℚ) (csd : CameraStab_data) :
    attitudeUpdated stdHeader attitudeEvent (readingsOf (idleSettings range) now a att) csd =
      some ({ csd with lastSysTime := now },
        commandsOf stdHeader (readingsOf (idleSettings range) now a att)
          { csd with lastSysTime := now }) := rfl

/-- C1: for every value `v` and every limit `L ≥ 0`, `bound v L` is `L` when
`v > L`, `-L` when `v < -L` and `v` otherwise; so the result lies in `[-L, L]`
and equals `v` whenever `|v| ≤ L`. -/
theorem bound_spec (v L : ℚ) (hL : 0 ≤ L) :
    (v > L → bound v L = L) ∧ (v < -L → bound v L = -L) ∧
      (¬ v > L → ¬ v < -L → bound v L = v) ∧
      (-L ≤ bound v L ∧ bound v L ≤ L) ∧ (|v| ≤ L → bound v L = v) := by
  refine ⟨?_, ?_, ?_, bound_rat_mem v L hL, bound_rat_of_abs_le v L⟩
  · intro h
    rw [bound_rat, if_pos h]
  · intro h
    have h1 : ¬ L < v := by
      intro h2
      linarith
    rw [bound_rat, if_neg h1, if_pos h]
  · intro h1 h2
    rw [bound_rat, if_neg h1, if_neg h2]

/-- Instance of C1: the value 30 with the limit 20 is cut to 20, and the result
is within the limit. -/
theorem bound_spec_witness :
    (0 : ℚ) ≤ 20 ∧ bound (30 : ℚ) 20 = 20 ∧ bound (30 : ℚ) 20 ≤ 20 :=
  ⟨by norm_num, (bound_spec 30 20 (by norm_num)).1 (by norm_num),
    (bound_spec 30 20 (by norm_num)).2.2.2.1.2⟩

/-- C2, refuted as stated: with an output range of 0 and a zero attitude plus
filtered input, the update completes and the Roll command it writes is the
quotient `0 / 0`, which `bound` passes through and which is not in `[-1, 1]`. -/
theorem outputs_unit_counterexample :
    ∃ csd' outs,
      attitudeUpdated stdHeader attitudeEvent (readingsOf (idleSettings 0) 10 0 0)
        (initialData 0) = some (csd', outs) ∧
      (Axis.Roll, FloatVal.nan) ∈ outs ∧ ¬ FloatVal.nan.inUnit := by
  refine ⟨_, _, idle_update 0 10 0 0 (initialData 0), ?_, fun h => h⟩
  rw [mem_commandsOf]
  simp [bound, fdiv, readingsOf, idleSettings, initialData, Readings.attitude,
    Header.inputIndex, Header.rangeIndex, stdHeader]
  decide

/-- C2, amended: every completed update for the attitude event writes exactly
one command for each of Roll, Pitch and Yaw, and the command of an axis lies in
`[-1, 1]` unless the output range of the axis is 0 while its attitude plus
filtered input is 0. -/
theorem outputs_one_per_axis_in_unit (H : Header) (ev : UAVObjEvent) (r : Readings)
    (csd csd' : CameraStab_data) (outs : List (Axis × FloatVal))
    (hev : ev.obj = UAVObjHandle.AttitudeActual)
    (h : attitudeUpdated H ev r csd = some (csd', outs)) :
    (∀ ax, (outs.map Prod.fst).count ax = 1) ∧
      ∀ ax v, (ax, v) ∈ outs →
        ¬ (r.cameraStab.OutputRange (H.rangeIndex ax) = 0 ∧
            r.attitude ax + csd'.inputs_filtered (H.inputIndex ax) = 0) →
        v.inUnit := by
  obtain ⟨_, ho⟩ := attitudeUpdated_some H ev r csd csd' outs hev h
  subst ho
  refine ⟨?_, ?_⟩
  · intro ax
    rw [commandsOf_axes]
    cases ax <;> decide
  · intro ax v hv hne
    rw [mem_commandsOf] at hv
    subst hv
    apply bound_one_inUnit
    intro hnan
    exact hne ((fdiv_eq_nan _ _).mp hnan)

/-- Instance of C2: an idle update with attitude 10, filtered input 5 and
output range 15 writes one Roll command, and each Roll command it writes lies
in `[-1, 1]`. -/
theorem outputs_one_per_axis_in_unit_witness :
    attitudeEvent.obj = UAVObjHandle.AttitudeActual ∧
      ((commandsOf stdHeader (readingsOf (idleSettings 15) 10 0 10)
          { flatData 0 0 5 with lastSysTime := 10 }).map Prod.fst).count Axis.Roll = 1 ∧
      (bound (fdiv (10 + 5) 15) (FloatVal.fin 1)).inUnit :=
  ⟨rfl,
    (outputs_one_per_axis_in_unit stdHeader attitudeEvent (readingsOf (idleSettings 15) 10 0 10)
      (flatData 0 0 5) _ _ rfl (idle_update 15 10 0 10 (flatData 0 0 5))).1 Axis.Roll,
    (outputs_one_per_axis_in_unit stdHeader attitudeEvent (readingsOf (idleSettings 15) 10 0 10)
      (flatData 0 0 5) _ _ rfl (idle_update 15 10 0 10 (flatData 0 0 5))).2 Axis.Roll _
      (by simp [commandsOf, readingsOf, idleSettings, flatData, stdHeader])
      (by simp [readingsOf, idleSettings, Header.rangeIndex, stdHeader])⟩

theorem channelLoop_completes (cs : CameraStabSettingsData) (acc : Nat → Option ℚ) (dT : ℚ) :
    ∀ (remaining start : Nat) (csd : CameraStab_data),
      (∀ i, start ≤ i → i < start + remaining →
        Skipped cs acc i ∨ ∃ a, Processed cs acc i a) →
      ∃ csd', channelLoop cs acc dT start remaining csd = some csd' := by
  intro remaining
  induction remaining with
  | zero =>
    intro start csd _
    exact ⟨csd, rfl⟩
  | succ n ih =>
    intro start csd hall
    have hb : ∃ c1, channelBody cs acc dT start csd = some c1 := by
      rcases hall start (le_refl _) (by omega) with hs | ⟨a, hp⟩
      · exact ⟨csd, channelBody_skipped cs acc dT start csd hs⟩
      · obtain ⟨c1, e, _⟩ := channelBody_processed cs acc dT start a csd hp
        exact ⟨c1, e⟩
    obtain ⟨c1, hc1⟩ := hb
    obtain ⟨c2, hc2⟩ := ih (start + 1) c1 (fun i h1 h2 => hall i (by omega) (by omega))
    refine ⟨c2, ?_⟩
    simp only [channelLoop, hc1]
    exact hc2

theorem attitudeUpdated_completes (H : Header) (ev : UAVObjEvent) (r : Readings)
    (csd : CameraStab_data) (hev : ev.obj = UAVObjHandle.AttitudeActual)
    (hall : ∀ i, i < H.INPUT_NUMELEM →
      Skipped r.cameraStab r.AccessoryDesiredInstGet i ∨
        ∃ a, Processed r.cameraStab r.AccessoryDesiredInstGet i a) :
    ∃ csd' outs, attitudeUpdated H ev r csd = some (csd', outs) := by
  obtain ⟨c, hc⟩ := channelLoop_completes r.cameraStab r.AccessoryDesiredInstGet
    (timeDelta H r.thisSysTime csd.lastSysTime) H.INPUT_NUMELEM 0
    { csd with lastSysTime := r.thisSysTime } (fun i _ h2 => hall i (by omega))
  refine ⟨c, commandsOf H r c, ?_⟩
  rw [attitudeUpdated_eq H ev r csd hev]
  unfold loopOf
  rw [hc]
  rfl

theorem channel0_processed (m : StabMode) (rt now : Nat) (a att : ℚ)
    (hm : m = StabMode.ATTITUDE ∨ m = StabMode.AXISLOCK) :
    Processed (readingsOf (channel0Settings m rt) now a att).cameraStab
      (readingsOf (channel0Settings m rt) now a att).AccessoryDesiredInstGet 0 a :=
  ⟨0, rfl, rfl, hm⟩

theorem channel0_completes (m : StabMode) (rt now : Nat) (a att : ℚ) (csd : CameraStab_data)
    (hm : m = StabMode.ATTITUDE ∨ m = StabMode.AXISLOCK) :
    ∃ csd' outs, attitudeUpdated stdHeader attitudeEvent
      (readingsOf (channel0Settings m rt) now a att) csd = some (csd', outs) := by
  apply attitudeUpdated_completes _ _ _ _ rfl
  intro i _
  by_cases hi : i = 0
  · subst hi
    exact Or.inr ⟨a, channel0_processed m rt now a att hm⟩
  · exact Or.inl (Or.inl (by simp [readingsOf, channel0Settings, hi]))

/-- C3: the commands a completed update writes are, axis by axis,
`bound ((attitude + filtered_input) / output_range) 1.0` over the filtered input
of the state the update leaves behind, which for a processed channel is the
result of this cycle's filter step.  The command of an axis is the clamped
quotient: 1 when the quotient is above 1, -1 when it is below -1 and the
quotient itself in between (for a zero output range: 1, -1 or not a number,
by the sign of the dividend).  With attitude 10, filtered input 5 and output
range 15 the command is 1.0; with 0, 0 and 100 it is 0.0. -/
theorem command_formula (H : Header) (ev : UAVObjEvent) (r : Readings)
    (csd csd' : CameraStab_data) (outs : List (Axis × FloatVal))
    (hev : ev.obj = UAVObjHandle.AttitudeActual)
    (h : attitudeUpdated H ev r csd = some (csd', outs)) :
    outs =
        [ (Axis.Roll, bound (fdiv (r.Roll + csd'.inputs_filtered H.INPUT_ROLL)
            (r.cameraStab.OutputRange H.OUTPUTRANGE_ROLL)) (FloatVal.fin 1)),
          (Axis.Pitch, bound (fdiv (r.Pitch + csd'.inputs_filtered H.INPUT_PITCH)
            (r.cameraStab.OutputRange H.OUTPUTRANGE_PITCH)) (FloatVal.fin 1)),
          (Axis.Yaw, bound (fdiv (r.Yaw + csd'.inputs_filtered H.INPUT_YAW)
            (r.cameraStab.OutputRange H.OUTPUTRANGE_YAW)) (FloatVal.fin 1)) ] ∧
      (∀ ax a, H.inputIndex ax < H.INPUT_NUMELEM →
        Processed r.cameraStab r.AccessoryDesiredInstGet (H.inputIndex ax) a →
        csd'.inputs_filtered (H.inputIndex ax) =
          filteredAfter r.cameraStab (timeDelta H r.thisSysTime csd.lastSysTime)
            (H.inputIndex ax) (csd.inputs_filtered (H.inputIndex ax))
            (csd'.inputs (H.inputIndex ax))) ∧
      (∀ ax, ∃ v, (ax, v) ∈ outs ∧ (∀ w, (ax, w) ∈ outs → w = v) ∧
        ∀ n d, n = r.attitude ax + csd'.inputs_filtered (H.inputIndex ax) →
          d = r.cameraStab.OutputRange (H.rangeIndex ax) →
          (d ≠ 0 → 1 < n / d → v = FloatVal.fin 1) ∧
          (d ≠ 0 → n / d < -1 → v = FloatVal.fin (-1)) ∧
          (d ≠ 0 → -1 ≤ n / d → n / d ≤ 1 → v = FloatVal.fin (n / d)) ∧
          (d = 0 → 0 < n → v = FloatVal.fin 1) ∧
          (d = 0 → n < 0 → v = FloatVal.fin (-1)) ∧
          (d = 0 → n = 0 → v = FloatVal.nan)) ∧
      (∀ ax, r.attitude ax = 10 → csd'.inputs_filtered (H.inputIndex ax) = 5 →
        r.cameraStab.OutputRange (H.rangeIndex ax) = 15 → (ax, FloatVal.fin 1) ∈ outs) ∧
      (∀ ax, r.attitude ax = 0 → csd'.inputs_filtered (H.inputIndex ax) = 0 →
        r.cameraStab.OutputRange (H.rangeIndex ax) = 100 → (ax, FloatVal.fin 0) ∈ outs) := by
  obtain ⟨hl, ho⟩ := attitudeUpdated_some H ev r csd csd' outs hev h
  subst ho
  refine ⟨rfl, ?_, ?_, ?_, ?_⟩
  · intro ax a hi hp
    obtain ⟨e1, e2⟩ := loopOf_processed H r csd csd' hl _ hi a hp
    rw [e2, e1]
  · intro ax
    refine ⟨_, (mem_commandsOf H r csd' ax _).mpr rfl,
      fun w hw => (mem_commandsOf H r csd' ax w).mp hw, ?_⟩
    intro n d hn hd
    rw [← hn, ← hd]
    refine ⟨?_, ?_, ?_, ?_, ?_, ?_⟩
    · intro hd hq
      simp only [fdiv, if_neg hd, bound, gt_iff_lt, FloatVal.fin_lt_fin, if_pos hq]
    · intro hd hq
      have h1 : ¬ (1 : ℚ) < n / d := by linarith
      simp only [fdiv, if_neg hd, bound, gt_iff_lt, FloatVal.fin_lt_fin, FloatVal.neg_fin,
        if_neg h1, if_pos hq]
    · intro hd h1 h2
      simp only [fdiv, if_neg hd, bound, gt_iff_lt, FloatVal.fin_lt_fin, FloatVal.neg_fin,
        if_neg (not_lt.mpr h2), if_neg (not_lt.mpr h1)]
    · intro hd hn
      have h1 : FloatVal.fin 1 < FloatVal.pinf := trivial
      simp only [fdiv, if_pos hd, gt_iff_lt, if_pos hn, bound, if_pos h1]
    · intro hd hn
      have h0 : ¬ (0 : ℚ) < n := by linarith
      have h1 : ¬ (FloatVal.fin 1 < FloatVal.ninf) := fun h => by cases h
      have h2 : FloatVal.ninf < -(FloatVal.fin 1) := trivial
      simp only [fdiv, if_pos hd, gt_iff_lt, if_neg h0, if_pos hn, bound, if_neg h1, if_pos h2]
      rfl
    · intro hd hn
      have h0 : ¬ (0 : ℚ) < n := by linarith
      have h0' : ¬ n < (0 : ℚ) := by linarith
      have h1 : ¬ (FloatVal.fin 1 < FloatVal.nan) := fun h => by cases h
      have h2 : ¬ (FloatVal.nan < -(FloatVal.fin 1)) := fun h => by cases h
      simp only [fdiv, if_pos hd, gt_iff_lt, if_neg h0, if_neg h0', bound, if_neg h1, if_neg h2]
  · intro ax h1 h2 h3
    rw [mem_commandsOf, h1, h2, h3]
    norm_num [fdiv, bound, FloatVal.fin_lt_fin, FloatVal.neg_fin]
  · intro ax h1 h2 h3
    rw [mem_commandsOf, h1, h2, h3]
    norm_num [fdiv, bound, FloatVal.fin_lt_fin, FloatVal.neg_fin]

/-- Instance of C3: with channel 0 driven in Attitude mode by accessory value
1/4 (raw and filtered input 5 after the cycle, from the zeroed state) and output
range 20, the attitude 10 gives the Roll command (10 + 5) / 20 = 3/4, and the
attitude 40 gives the Roll command 1, the quotient 45/20 being cut. -/
theorem command_formula_witness :
    (∃ c o,
      attitudeUpdated stdHeader attitudeEvent
        (readingsOf (channel0Settings StabMode.ATTITUDE 0) 10 (1 / 4) 10) (initialData 0)
        = some (c, o) ∧ (Axis.Roll, FloatVal.fin (3 / 4)) ∈ o) ∧
      ∃ c o,
        attitudeUpdated stdHeader attitudeEvent
          (readingsOf (channel0Settings StabMode.ATTITUDE 0) 10 (1 / 4) 40) (initialData 0)
          = some (c, o) ∧ (Axis.Roll, FloatVal.fin 1) ∈ o := by
  constructor
  · obtain ⟨c, o, h⟩ := channel0_completes StabMode.ATTITUDE 0 10 (1 / 4) 10 (initialData 0)
      (Or.inl rfl)
    obtain ⟨hl, _⟩ := attitudeUpdated_some _ _ _ _ c o rfl h
    obtain ⟨_, e2⟩ := loopOf_processed stdHeader _ _ c hl 0 (by decide) (1 / 4)
      (channel0_processed StabMode.ATTITUDE 0 10 (1 / 4) 10 (Or.inl rfl))
    have hf : c.inputs_filtered 0 = 5 := by
      rw [e2]
      norm_num [filteredAfter, rawAfter, readingsOf, channel0Settings]
    obtain ⟨v, hv, _, hchar⟩ :=
      (command_formula stdHeader attitudeEvent _ _ c o rfl h).2.2.1 Axis.Roll
    have hq := (hchar (10 + c.inputs_filtered 0) 20 rfl rfl).2.2.1 (by norm_num)
      (by rw [hf]; norm_num) (by rw [hf]; norm_num)
    rw [hf] at hq
    have h34 : ((10 : ℚ) + 5) / 20 = 3 / 4 := by norm_num
    rw [h34] at hq
    exact ⟨c, o, h, hq ▸ hv⟩
  · obtain ⟨c, o, h⟩ := channel0_completes StabMode.ATTITUDE 0 10 (1 / 4) 40 (initialData 0)
      (Or.inl rfl)
    obtain ⟨hl, _⟩ := attitudeUpdated_some _ _ _ _ c o rfl h
    obtain ⟨_, e2⟩ := loopOf_processed stdHeader _ _ c hl 0 (by decide) (1 / 4)
      (channel0_processed StabMode.ATTITUDE 0 10 (1 / 4) 40 (Or.inl rfl))
    have hf : c.inputs_filtered 0 = 5 := by
      rw [e2]
      norm_num [filteredAfter, rawAfter, readingsOf, channel0Settings]
    obtain ⟨v, hv, _, hchar⟩ :=
      (command_formula stdHeader attitudeEvent _ _ c o rfl h).2.2.1 Axis.Roll
    have hq := (hchar (40 + c.inputs_filtered 0) 20 rfl rfl).1 (by norm_num)
      (by rw [hf]; norm_num)
    exact ⟨c, o, h, hq ▸ hv⟩

/-- C4, evaluated where the code departs from it: from the same state (last tick
100, channel 0 in AxisLock mode, rate 50 per second) an update at tick 100 (no
elapsed time) leaves the raw input 1/2000, while an update at tick 110, one
nominal sample period later, leaves 1/2. -/
theorem stalled_tick_differs_from_nominal :
    (attitudeUpdated stdHeader attitudeEvent
        (readingsOf (channel0Settings StabMode.AXISLOCK 0) 100 1 0) (flatData 100 0 0)).map
        (fun p => p.1.inputs 0) = some (1 / 2000) ∧
      (attitudeUpdated stdHeader attitudeEvent
        (readingsOf (channel0Settings StabMode.AXISLOCK 0) (100 + SAMPLE_PERIOD_MS) 1 0)
        (flatData 100 0 0)).map (fun p => p.1.inputs 0) = some (1 / 2) := by
  constructor
  · simp [attitudeUpdated, stdHeader, attitudeEvent, readingsOf, channel0Settings, flatData,
      channelLoop, channelBody, lowPass, timeDelta, SAMPLE_PERIOD_MS, bound_rat]
    norm_num
  · simp [attitudeUpdated, stdHeader, attitudeEvent, readingsOf, channel0Settings, flatData,
      channelLoop, channelBody, lowPass, timeDelta, SAMPLE_PERIOD_MS, bound_rat]
    norm_num

/-- C5, evaluated where the code departs from it: with the tick count behind the
last one (40 after 50), previous raw input 3 and input rate -50, the update
leaves the raw input 5999/2000, while the claimed value, integrating over the
nominal period of 10/1000 seconds, is 5/2. -/
theorem backward_tick_integration :
    (attitudeUpdated stdHeader attitudeEvent
        (readingsOf (channel0Settings StabMode.AXISLOCK 0) 40 (-1) 0) (flatData 50 3 3)).map
        (fun p => p.1.inputs 0) = some (5999 / 2000) ∧
      bound ((3 : ℚ) + (-1 * 50) * ((SAMPLE_PERIOD_MS : ℚ) / 1000)) 20 = 5 / 2 := by
  constructor
  · simp [attitudeUpdated, stdHeader, attitudeEvent, readingsOf, channel0Settings, flatData,
      channelLoop, channelBody, lowPass, timeDelta, SAMPLE_PERIOD_MS, bound_rat]
    norm_num
  · norm_num [bound_rat, SAMPLE_PERIOD_MS]

/-- When the tick count advanced, a channel processed in AxisLock mode with a
rate above the threshold integrates the rate over the tick difference divided
by `portTICK_RATE_MS` (the elapsed milliseconds when that factor is 1) and by
1000, and cuts the sum to the input range. -/
theorem axisLock_integrates_elapsed (H : Header) (ev : UAVObjEvent) (r : Readings)
    (csd csd' : CameraStab_data) (outs : List (Axis × FloatVal))
    (hev : ev.obj = UAVObjHandle.AttitudeActual)
    (h : attitudeUpdated H ev r csd = some (csd', outs))
    (i : Nat) (hi : i < H.INPUT_NUMELEM) (a : ℚ)
    (hp : Processed r.cameraStab r.AccessoryDesiredInstGet i a)
    (hm : r.cameraStab.StabilizationMode i = StabMode.AXISLOCK)
    (hrate : |a * r.cameraStab.InputRate i| > r.cameraStab.MaxAxisLockRate)
    (hadv : r.thisSysTime > csd.lastSysTime) :
    csd'.inputs i =
      bound (csd.inputs i + (a * r.cameraStab.InputRate i) *
        ((((r.thisSysTime - csd.lastSysTime) / H.portTICK_RATE_MS : Nat) : ℚ) / 1000))
        (r.cameraStab.InputRange i) := by
  obtain ⟨hl, _⟩ := attitudeUpdated_some H ev r csd csd' outs hev h
  obtain ⟨e1, _⟩ := loopOf_processed H r csd csd' hl i hi a hp
  rw [e1]
  simp only [rawAfter, hm, if_pos hrate, timeDelta, if_pos hadv, mul_div_assoc]

/-- C6: a channel processed in Attitude mode ends the cycle with the raw input
`accessory_value * input_range`, whatever the prior state and the time delta;
two updates with the same accessory value and input range agree on it. -/
theorem attitude_mode_memoryless (H : Header) (ev : UAVObjEvent) (r1 r2 : Readings)
    (csd1 csd2 csd1' csd2' : CameraStab_data) (outs1 outs2 : List (Axis × FloatVal))
    (hev : ev.obj = UAVObjHandle.AttitudeActual)
    (h1 : attitudeUpdated H ev r1 csd1 = some (csd1', outs1))
    (h2 : attitudeUpdated H ev r2 csd2 = some (csd2', outs2))
    (i : Nat) (hi : i < H.INPUT_NUMELEM) (a : ℚ)
    (hp1 : Processed r1.cameraStab r1.AccessoryDesiredInstGet i a)
    (hp2 : Processed r2.cameraStab r2.AccessoryDesiredInstGet i a)
    (hm1 : r1.cameraStab.StabilizationMode i = StabMode.ATTITUDE)
    (hm2 : r2.cameraStab.StabilizationMode i = StabMode.ATTITUDE)
    (hrange : r1.cameraStab.InputRange i = r2.cameraStab.InputRange i) :
    csd1'.inputs i = a * r1.cameraStab.InputRange i ∧ csd1'.inputs i = csd2'.inputs i := by
  obtain ⟨hl1, _⟩ := attitudeUpdated_some H ev r1 csd1 csd1' outs1 hev h1
  obtain ⟨hl2, _⟩ := attitudeUpdated_some H ev r2 csd2 csd2' outs2 hev h2
  obtain ⟨e1, _⟩ := loopOf_processed H r1 csd1 csd1' hl1 i hi a hp1
  obtain ⟨e2, _⟩ := loopOf_processed H r2 csd2 csd2' hl2 i hi a hp2
  simp only [rawAfter, hm1] at e1
  simp only [rawAfter, hm2] at e2
  rw [e1, e2, hrange]
  exact ⟨rfl, rfl⟩

/-- Instance of C6: two updates in Attitude mode with accessory value 1/2 and
input range 20, one from the zeroed state at tick 10 and one from a state with
raw input 7 at a tick that did not advance, both leave the raw input
`1/2 * 20`. -/
theorem attitude_mode_memoryless_witness :
    ∃ c1 o1 c2 o2,
      attitudeUpdated stdHeader attitudeEvent
        (readingsOf (channel0Settings StabMode.ATTITUDE 0) 10 (1 / 2) 0) (initialData 0)
        = some (c1, o1) ∧
      attitudeUpdated stdHeader attitudeEvent
        (readingsOf (channel0Settings StabMode.ATTITUDE 5) 30 (1 / 2) 3) (flatData 30 7 2)
        = some (c2, o2) ∧
      c1.inputs 0 = 1 / 2 * 20 ∧ c1.inputs 0 = c2.inputs 0 := by
  obtain ⟨c1, o1, h1⟩ := channel0_completes StabMode.ATTITUDE 0 10 (1 / 2) 0 (initialData 0)
    (Or.inl rfl)
  obtain ⟨c2, o2, h2⟩ := channel0_completes StabMode.ATTITUDE 5 30 (1 / 2) 3 (flatData 30 7 2)
    (Or.inl rfl)
  exact ⟨c1, o1, c2, o2, h1, h2,
    attitude_mode_memoryless stdHeader attitudeEvent _ _ _ _ c1 c2 o1 o2 rfl h1 h2 0
      (by decide) (1 / 2) (channel0_processed _ _ _ _ _ (Or.inl rfl))
      (channel0_processed _ _ _ _ _ (Or.inl rfl)) rfl rfl rfl⟩

/-- C7: a channel that is processed in a cycle and whose response time is 0
ends the cycle with its filtered input equal to its raw input. -/
theorem zero_response_time_bypass (H : Header) (ev : UAVObjEvent) (r : Readings)
    (csd csd' : CameraStab_data) (outs : List (Axis × FloatVal))
    (hev : ev.obj = UAVObjHandle.AttitudeActual)
    (h : attitudeUpdated H ev r csd = some (csd', outs))
    (i : Nat) (hi : i < H.INPUT_NUMELEM) (a : ℚ)
    (hp : Processed r.cameraStab r.AccessoryDesiredInstGet i a)
    (hrt : r.cameraStab.ResponseTime i = 0) :
    csd'.inputs_filtered i = csd'.inputs i := by
  obtain ⟨hl, _⟩ := attitudeUpdated_some H ev r csd csd' outs hev h
  obtain ⟨e1, e2⟩ := loopOf_processed H r csd csd' hl i hi a hp
  rw [e2, e1]
  simp only [filteredAfter, hrt, if_true]

/-- Instance of C7: an AxisLock update with response time 0 from a state whose
filtered input (8) differs from its raw input (3) ends with the two equal. -/
theorem zero_response_time_bypass_witness :
    ∃ c o,
      attitudeUpdated stdHeader attitudeEvent
        (readingsOf (channel0Settings StabMode.AXISLOCK 0) 25 1 0) (flatData 5 3 8)
        = some (c, o) ∧
      c.inputs_filtered 0 = c.inputs 0 := by
  obtain ⟨c, o, h⟩ := channel0_completes StabMode.AXISLOCK 0 25 1 0 (flatData 5 3 8)
    (Or.inr rfl)
  exact ⟨c, o, h,
    zero_response_time_bypass stdHeader attitudeEvent _ _ c o rfl h 0 (by decide) 1
      (channel0_processed _ _ _ _ _ (Or.inr rfl)) rfl⟩

/-- The convex blend in exact arithmetic (no rounding): for a channel processed in
a cycle with response time `rt > 0`, the time
delta `dT` is not negative, the weights `rt/(rt+dT)` and `dT/(rt+dT)` are not
negative and sum to 1, the new filtered input is the blend of the previous
filtered input and the cycle's raw input with these weights, and it lies
between the smaller and the larger of the two. -/
theorem lowPass_convex_blend (H : Header) (ev : UAVObjEvent) (r : Readings)
    (csd csd' : CameraStab_data) (outs : List (Axis × FloatVal))
    (hev : ev.obj = UAVObjHandle.AttitudeActual)
    (h : attitudeUpdated H ev r csd = some (csd', outs))
    (i : Nat) (hi : i < H.INPUT_NUMELEM) (a : ℚ)
    (hp : Processed r.cameraStab r.AccessoryDesiredInstGet i a)
    (rt : Nat) (hrt : r.cameraStab.ResponseTime i = rt) (hpos : 0 < rt)
    (dT : ℚ) (hdT : timeDelta H r.thisSysTime csd.lastSysTime = dT) :
    0 ≤ dT ∧ 0 ≤ (rt : ℚ) / (rt + dT) ∧ 0 ≤ dT / (rt + dT) ∧
      (rt : ℚ) / (rt + dT) + dT / (rt + dT) = 1 ∧
      csd'.inputs_filtered i =
        (rt : ℚ) / (rt + dT) * csd.inputs_filtered i + dT / (rt + dT) * csd'.inputs i ∧
      min (csd.inputs_filtered i) (csd'.inputs i) ≤ csd'.inputs_filtered i ∧
      csd'.inputs_filtered i ≤ max (csd.inputs_filtered i) (csd'.inputs i) := by
  obtain ⟨hl, _⟩ := attitudeUpdated_some H ev r csd csd' outs hev h
  obtain ⟨e1, e2⟩ := loopOf_processed H r csd csd' hl i hi a hp
  rw [← e1, hdT] at e2
  have hd : 0 ≤ dT := hdT ▸ timeDelta_nonneg H _ _
  have hr : (0 : ℚ) < rt := by exact_mod_cast hpos
  have hsum : (0 : ℚ) < rt + dT := by linarith
  have hw1 : 0 ≤ (rt : ℚ) / (rt + dT) := div_nonneg hr.le hsum.le
  have hw2 : 0 ≤ dT / (rt + dT) := div_nonneg hd hsum.le
  have hone : (rt : ℚ) / (rt + dT) + dT / (rt + dT) = 1 := by
    rw [← add_div, div_self hsum.ne']
  have hne : rt ≠ 0 := by omega
  simp only [filteredAfter, hrt, if_neg hne] at e2
  refine ⟨hd, hw1, hw2, hone, e2, ?_, ?_⟩
  · rw [e2]
    have hm1 := min_le_left (csd.inputs_filtered i) (csd'.inputs i)
    have hm2 := min_le_right (csd.inputs_filtered i) (csd'.inputs i)
    calc min (csd.inputs_filtered i) (csd'.inputs i)
        = ((rt : ℚ) / (rt + dT) + dT / (rt + dT)) *
            min (csd.inputs_filtered i) (csd'.inputs i) := by rw [hone, one_mul]
      _ = (rt : ℚ) / (rt + dT) * min (csd.inputs_filtered i) (csd'.inputs i) +
            dT / (rt + dT) * min (csd.inputs_filtered i) (csd'.inputs i) := by ring
      _ ≤ (rt : ℚ) / (rt + dT) * csd.inputs_filtered i + dT / (rt + dT) * csd'.inputs i :=
          add_le_add (mul_le_mul_of_nonneg_left hm1 hw1) (mul_le_mul_of_nonneg_left hm2 hw2)
  · rw [e2]
    have hm1 := le_max_left (csd.inputs_filtered i) (csd'.inputs i)
    have hm2 := le_max_right (csd.inputs_filtered i) (csd'.inputs i)
    calc (rt : ℚ) / (rt + dT) * csd.inputs_filtered i + dT / (rt + dT) * csd'.inputs i
        ≤ (rt : ℚ) / (rt + dT) * max (csd.inputs_filtered i) (csd'.inputs i) +
            dT / (rt + dT) * max (csd.inputs_filtered i) (csd'.inputs i) :=
          add_le_add (mul_le_mul_of_nonneg_left hm1 hw1) (mul_le_mul_of_nonneg_left hm2 hw2)
      _ = ((rt : ℚ) / (rt + dT) + dT / (rt + dT)) *
            max (csd.inputs_filtered i) (csd'.inputs i) := by ring
      _ = max (csd.inputs_filtered i) (csd'.inputs i) := by rw [hone, one_mul]

/-- Instance of `lowPass_convex_blend`: an Attitude update with response time 30 ms, 10 ms after the
last one, from filtered input 8 and with the new raw input between `min` and
`max` bounds the new filtered input by the two. -/
theorem lowPass_convex_blend_witness :
    ∃ c o,
      attitudeUpdated stdHeader attitudeEvent
        (readingsOf (channel0Settings StabMode.ATTITUDE 30) 15 1 0) (flatData 5 3 8)
        = some (c, o) ∧
      c.inputs_filtered 0 = (30 : ℚ) / (30 + 10) * 8 + 10 / (30 + 10) * c.inputs 0 ∧
      c.inputs_filtered 0 ≤ max 8 (c.inputs 0) := by
  obtain ⟨c, o, h⟩ := channel0_completes StabMode.ATTITUDE 30 15 1 0 (flatData 5 3 8)
    (Or.inl rfl)
  have hw := lowPass_convex_blend stdHeader attitudeEvent _ _ c o rfl h 0 (by decide) 1
    (channel0_processed _ _ _ _ _ (Or.inl rfl)) 30 rfl (by decide) 10
    (by simp [timeDelta, readingsOf, flatData, stdHeader])
  exact ⟨c, o, h, by simpa [flatData] using hw.2.2.2.2.1, by simpa [flatData] using hw.2.2.2.2.2.2⟩

/-- C10: a channel whose input source is "none", or whose accessory instance
cannot be fetched in this cycle, has the same raw and filtered input after a
completed update as before it. -/
theorem skipped_channel_unchanged (H : Header) (ev : UAVObjEvent) (r : Readings)
    (csd csd' : CameraStab_data) (outs : List (Axis × FloatVal))
    (hev : ev.obj = UAVObjHandle.AttitudeActual)
    (h : attitudeUpdated H ev r csd = some (csd', outs))
    (i : Nat)
    (hs : r.cameraStab.Input i = InputSel.NONE ∨
      ∃ k, r.cameraStab.Input i = InputSel.ACCESSORY k ∧ r.AccessoryDesiredInstGet k = none) :
    csd'.inputs i = csd.inputs i ∧ csd'.inputs_filtered i = csd.inputs_filtered i := by
  obtain ⟨hl, _⟩ := attitudeUpdated_some H ev r csd csd' outs hev h
  exact loopOf_skipped H r csd csd' hl i hs

/-- Instance of C10: with accessory instance 3 configured but not available, an
update leaves raw input 3 and filtered input 8 of channel 1 as they were. -/
theorem skipped_channel_unchanged_witness :
    ∃ c o,
      attitudeUpdated stdHeader attitudeEvent (readingsOf absentSourceSettings 15 1 0)
        (flatData 5 3 8) = some (c, o) ∧
      c.inputs 1 = 3 ∧ c.inputs_filtered 1 = 8 := by
  have hs : ∀ i, Skipped (readingsOf absentSourceSettings 15 1 0).cameraStab
      (readingsOf absentSourceSettings 15 1 0).AccessoryDesiredInstGet i :=
    fun i => Or.inr ⟨3, rfl, rfl⟩
  obtain ⟨c, o, h⟩ := attitudeUpdated_completes stdHeader attitudeEvent
    (readingsOf absentSourceSettings 15 1 0) (flatData 5 3 8) rfl (fun i _ => Or.inl (hs i))
  exact ⟨c, o, h,
    skipped_channel_unchanged stdHeader attitudeEvent _ _ c o rfl h 1 (Or.inr ⟨3, rfl, rfl⟩)⟩

/-- The convergence of the filter in exact arithmetic (no rounding): over
successive completed cycles that process a channel with response
time `rt > 0`, the same time delta `dT > 0` and the raw input held at `x`, the
filtered input satisfies `f (n+1) - x = rt/(rt+dT) * (f n - x)`; its distance to
`x` does not increase and tends to 0, and it stays on the side of `x` on which
it started. -/
theorem lowPass_converges (H : Header) (ev : UAVObjEvent) (r : Nat → Readings)
    (s : Nat → CameraStab_data) (outs : Nat → List (Axis × FloatVal))
    (hev : ev.obj = UAVObjHandle.AttitudeActual)
    (hrun : ∀ n, attitudeUpdated H ev (r n) (s n) = some (s (n + 1), outs n))
    (i : Nat) (hi : i < H.INPUT_NUMELEM) (a : Nat → ℚ)
    (hp : ∀ n, Processed (r n).cameraStab (r n).AccessoryDesiredInstGet i (a n))
    (rt : Nat) (hpos : 0 < rt) (hrt : ∀ n, (r n).cameraStab.ResponseTime i = rt)
    (dT : ℚ) (hdpos : 0 < dT)
    (hdT : ∀ n, timeDelta H (r n).thisSysTime (s n).lastSysTime = dT)
    (x : ℚ) (hraw : ∀ n, (s (n + 1)).inputs i = x) :
    (∀ n, (s (n + 1)).inputs_filtered i - x =
        (rt : ℚ) / (rt + dT) * ((s n).inputs_filtered i - x)) ∧
      (∀ n, |(s (n + 1)).inputs_filtered i - x| ≤ |(s n).inputs_filtered i - x|) ∧
      (∀ ε : ℚ, 0 < ε → ∃ N, ∀ n, N ≤ n → |(s n).inputs_filtered i - x| < ε) ∧
      ((s 0).inputs_filtered i ≤ x → ∀ n, (s n).inputs_filtered i ≤ x) ∧
      (x ≤ (s 0).inputs_filtered i → ∀ n, x ≤ (s n).inputs_filtered i) := by
  have hr : (0 : ℚ) < rt := by exact_mod_cast hpos
  have hsum : (0 : ℚ) < rt + dT := by linarith
  have hk0 : 0 < (rt : ℚ) / (rt + dT) := div_pos hr hsum
  have hk1 : (rt : ℚ) / (rt + dT) < 1 := by
    rw [div_lt_one hsum]
    linarith
  have hne : rt ≠ 0 := by omega
  have hrec : ∀ n, (s (n + 1)).inputs_filtered i - x =
      (rt : ℚ) / (rt + dT) * ((s n).inputs_filtered i - x) := by
    intro n
    obtain ⟨hl, _⟩ := attitudeUpdated_some H ev (r n) (s n) (s (n + 1)) (outs n) hev (hrun n)
    obtain ⟨e1, e2⟩ := loopOf_processed H (r n) (s n) (s (n + 1)) hl i hi (a n) (hp n)
    rw [← e1, hdT n, hraw n] at e2
    simp only [filteredAfter, hrt n, if_neg hne] at e2
    rw [e2]
    field_simp
    ring
  have hclosed : ∀ n, (s n).inputs_filtered i - x =
      ((rt : ℚ) / (rt + dT)) ^ n * ((s 0).inputs_filtered i - x) := by
    intro n
    induction n with
    | zero => simp
    | succ m ih => rw [hrec m, ih, pow_succ]; ring
  refine ⟨hrec, ?_, ?_, ?_, ?_⟩
  · intro n
    rw [hrec n, abs_mul, abs_of_pos hk0]
    exact mul_le_of_le_one_left (abs_nonneg _) hk1.le
  · intro ε hε
    have hden : (0 : ℚ) < |(s 0).inputs_filtered i - x| + 1 := by
      have := abs_nonneg ((s 0).inputs_filtered i - x)
      linarith
    obtain ⟨N, hN⟩ := exists_pow_lt_of_lt_one (div_pos hε hden) hk1
    refine ⟨N, fun n hn => ?_⟩
    rw [hclosed n, abs_mul, abs_of_pos (pow_pos hk0 n)]
    have hle : ((rt : ℚ) / (rt + dT)) ^ n ≤ ((rt : ℚ) / (rt + dT)) ^ N :=
      pow_le_pow_of_le_one hk0.le hk1.le hn
    have hlt : ((rt : ℚ) / (rt + dT)) ^ N * (|(s 0).inputs_filtered i - x| + 1) < ε :=
      (lt_div_iff₀ hden).mp hN
    have h1 : ((rt : ℚ) / (rt + dT)) ^ n * |(s 0).inputs_filtered i - x| ≤
        ((rt : ℚ) / (rt + dT)) ^ N * |(s 0).inputs_filtered i - x| :=
      mul_le_mul_of_nonneg_right hle (abs_nonneg _)
    have h2 : ((rt : ℚ) / (rt + dT)) ^ N * |(s 0).inputs_filtered i - x| ≤
        ((rt : ℚ) / (rt + dT)) ^ N * (|(s 0).inputs_filtered i - x| + 1) :=
      mul_le_mul_of_nonneg_left (by linarith) (pow_pos hk0 N).le
    linarith
  · intro h0 n
    have hc := hclosed n
    have hnp : ((rt : ℚ) / (rt + dT)) ^ n * ((s 0).inputs_filtered i - x) ≤ 0 :=
      mul_nonpos_of_nonneg_of_nonpos (pow_pos hk0 n).le (by linarith)
    linarith
  · intro h0 n
    have hc := hclosed n
    have hnn : 0 ≤ ((rt : ℚ) / (rt + dT)) ^ n * ((s 0).inputs_filtered i - x) :=
      mul_nonneg (pow_pos hk0 n).le (by linarith)
    linarith

theorem decayRun_step (n : Nat) :
    attitudeUpdated stdHeader attitudeEvent (decayReadings n) (decayRun n) =
      some (decayRun (n + 1), decayOuts n) := by
  obtain ⟨c, o, h⟩ := channel0_completes StabMode.ATTITUDE 10 (10 * (n + 1)) 0 0 (decayRun n)
    (Or.inl rfl)
  have h2 : attitudeUpdated stdHeader attitudeEvent (decayReadings n) (decayRun n) =
      some (c, o) := h
  simp only [decayRun, decayOuts, h2]

theorem decayRun_lastSysTime (n : Nat) : (decayRun n).lastSysTime = 10 * n := by
  cases n with
  | zero => rfl
  | succ m =>
    obtain ⟨hl, _⟩ := attitudeUpdated_some stdHeader attitudeEvent (decayReadings m)
      (decayRun m) (decayRun (m + 1)) (decayOuts m) rfl (decayRun_step m)
    exact loopOf_lastSysTime stdHeader _ _ _ hl

theorem decayRun_timeDelta (n : Nat) :
    timeDelta stdHeader (decayReadings n).thisSysTime (decayRun n).lastSysTime = 10 := by
  rw [decayRun_lastSysTime]
  have h1 : 10 * (n + 1) > 10 * n := by omega
  have h2 : (10 * (n + 1) - 10 * n) / 1 = 10 := by omega
  simp only [timeDelta, decayReadings, readingsOf, stdHeader, if_pos h1, h2]
  norm_num

theorem decayRun_raw (n : Nat) : (decayRun (n + 1)).inputs 0 = 0 := by
  obtain ⟨hl, _⟩ := attitudeUpdated_some stdHeader attitudeEvent (decayReadings n)
    (decayRun n) (decayRun (n + 1)) (decayOuts n) rfl (decayRun_step n)
  obtain ⟨e1, _⟩ := loopOf_processed stdHeader (decayReadings n) (decayRun n)
    (decayRun (n + 1)) hl 0 (by decide) 0
    (channel0_processed StabMode.ATTITUDE 10 (10 * (n + 1)) 0 0 (Or.inl rfl))
  rw [e1]
  simp [rawAfter, decayReadings, readingsOf, channel0Settings]

/-- Instance of `lowPass_converges`: in the example run (response time 10 ms, 10 ms per cycle,
raw input held at 0, filtered input starting at 1) the first cycle halves the
filtered input, and from some cycle on it stays within 1/1000 of the raw
input. -/
theorem lowPass_converges_witness :
    (decayRun 1).inputs_filtered 0 - 0 = (10 : ℚ) / (10 + 10) * (1 - 0) ∧
      ∃ N, ∀ n, N ≤ n → |(decayRun n).inputs_filtered 0 - 0| < 1 / 1000 :=
  ⟨(lowPass_converges stdHeader attitudeEvent decayReadings decayRun decayOuts rfl
      decayRun_step 0 (by decide) (fun _ => 0)
      (fun n => channel0_processed StabMode.ATTITUDE 10 (10 * (n + 1)) 0 0 (Or.inl rfl))
      10 (by decide) (fun _ => rfl) 10 (by norm_num) decayRun_timeDelta 0 decayRun_raw).1 0,
    (lowPass_converges stdHeader attitudeEvent decayReadings decayRun decayOuts rfl
      decayRun_step 0 (by decide) (fun _ => 0)
      (fun n => channel0_processed StabMode.ATTITUDE 10 (10 * (n + 1)) 0 0 (Or.inl rfl))
      10 (by decide) (fun _ => rfl) 10 (by norm_num) decayRun_timeDelta 0 decayRun_raw).2.2.1
      (1 / 1000) (by norm_num)⟩

theorem channelBody_none_iff (cs : CameraStabSettingsData) (acc : Nat → Option ℚ) (dT : ℚ)
    (i : Nat) (csd : CameraStab_data) :
    channelBody cs acc dT i csd = none ↔ BadMode cs acc i := by
  unfold channelBody BadMode
  constructor
  · intro h
    split at h
    · cases h
    · rename_i k hk
      split at h
      · cases h
      · rename_i a ha
        split at h
        · cases h
        · simp only at h
          split_ifs at h
        · rename_i raw hraw
          exact ⟨k, a, raw, hk, ha, hraw⟩
  · rintro ⟨k, a, raw, hk, ha, hraw⟩
    simp [hk, ha, hraw]

theorem skipped_or_processed_of_not_badMode (cs : CameraStabSettingsData)
    (acc : Nat → Option ℚ) (i : Nat) (h : ¬ BadMode cs acc i) :
    Skipped cs acc i ∨ ∃ a, Processed cs acc i a := by
  cases hin : cs.Input i with
  | NONE => exact Or.inl (Or.inl hin)
  | ACCESSORY k =>
    cases ha : acc k with
    | none => exact Or.inl (Or.inr ⟨k, hin, ha⟩)
    | some a =>
      cases hm : cs.StabilizationMode i with
      | ATTITUDE => exact Or.inr ⟨a, k, hin, ha, Or.inl hm⟩
      | AXISLOCK => exact Or.inr ⟨a, k, hin, ha, Or.inr hm⟩
      | OTHER raw => exact absurd ⟨k, a, raw, hin, ha, hm⟩ h

theorem channelLoop_none_of_badMode (cs : CameraStabSettingsData) (acc : Nat → Option ℚ)
    (dT : ℚ) :
    ∀ (remaining start : Nat) (csd : CameraStab_data) (i : Nat),
      start ≤ i → i < start + remaining → BadMode cs acc i →
      channelLoop cs acc dT start remaining csd = none := by
  intro remaining
  induction remaining with
  | zero =>
    intro start csd i h1 h2 _
    omega
  | succ n ih =>
    intro start csd i h1 h2 hbad
    simp only [channelLoop]
    cases hb : channelBody cs acc dT start csd with
    | none => rfl
    | some c1 =>
      have hne : i ≠ start := by
        intro he
        subst he
        rw [(channelBody_none_iff cs acc dT i csd).mpr hbad] at hb
        cases hb
      exact ih (start + 1) c1 i (by omega) (by omega) hbad

theorem attitudeUpdated_eq_none_iff (H : Header) (ev : UAVObjEvent) (r : Readings)
    (csd : CameraStab_data) (hev : ev.obj = UAVObjHandle.AttitudeActual) :
    attitudeUpdated H ev r csd = none ↔
      ∃ i, i < H.INPUT_NUMELEM ∧ BadMode r.cameraStab r.AccessoryDesiredInstGet i := by
  constructor
  · intro h
    by_contra hno
    have hall : ∀ i, i < H.INPUT_NUMELEM →
        Skipped r.cameraStab r.AccessoryDesiredInstGet i ∨
          ∃ a, Processed r.cameraStab r.AccessoryDesiredInstGet i a :=
      fun i hi => skipped_or_processed_of_not_badMode _ _ i (fun hb => hno ⟨i, hi, hb⟩)
    obtain ⟨c, o, hc⟩ := attitudeUpdated_completes H ev r csd hev hall
    rw [h] at hc
    cases hc
  · rintro ⟨i, hi, hbad⟩
    rw [attitudeUpdated_eq H ev r csd hev]
    unfold loopOf
    rw [channelLoop_none_of_badMode _ _ _ H.INPUT_NUMELEM 0 _ i (Nat.zero_le i) (by omega) hbad]
    rfl

/-- C11: an update halts, writing no command, exactly when some channel below
the channel count has its source configured, its accessory instance available
and a stabilization mode outside Attitude and AxisLock; when no channel is in
that condition the update completes and writes its three commands. -/
theorem halt_iff_bad_mode (H : Header) (ev : UAVObjEvent) (r : Readings)
    (csd : CameraStab_data) (hev : ev.obj = UAVObjHandle.AttitudeActual) :
    (attitudeUpdated H ev r csd = none ↔
        ∃ i, i < H.INPUT_NUMELEM ∧ ∃ k a raw, r.cameraStab.Input i = InputSel.ACCESSORY k ∧
          r.AccessoryDesiredInstGet k = some a ∧
          r.cameraStab.StabilizationMode i = StabMode.OTHER raw) ∧
      ((∀ i, i < H.INPUT_NUMELEM → ∀ k a, r.cameraStab.Input i = InputSel.ACCESSORY k →
          r.AccessoryDesiredInstGet k = some a →
          r.cameraStab.StabilizationMode i = StabMode.ATTITUDE ∨
            r.cameraStab.StabilizationMode i = StabMode.AXISLOCK) →
        ∃ csd' outs, attitudeUpdated H ev r csd = some (csd', outs) ∧
          outs.map Prod.fst = [Axis.Roll, Axis.Pitch, Axis.Yaw]) := by
  refine ⟨attitudeUpdated_eq_none_iff H ev r csd hev, ?_⟩
  intro hvalid
  have hall : ∀ i, i < H.INPUT_NUMELEM →
      Skipped r.cameraStab r.AccessoryDesiredInstGet i ∨
        ∃ a, Processed r.cameraStab r.AccessoryDesiredInstGet i a := by
    intro i hi
    apply skipped_or_processed_of_not_badMode
    rintro ⟨k, a, raw, hk, ha, hraw⟩
    rcases hvalid i hi k a hk ha with hm | hm <;> rw [hm] at hraw <;> cases hraw
  obtain ⟨c, o, hc⟩ := attitudeUpdated_completes H ev r csd hev hall
  obtain ⟨_, ho⟩ := attitudeUpdated_some H ev r csd c o hev hc
  exact ⟨c, o, hc, by rw [ho, commandsOf_axes]⟩

/-- Instance of C11: with channel 0 driven by accessory instance 0 and the
stored mode value 7, the update halts. -/
theorem halt_iff_bad_mode_witness :
    attitudeEvent.obj = UAVObjHandle.AttitudeActual ∧
      attitudeUpdated stdHeader attitudeEvent
        (readingsOf (channel0Settings (StabMode.OTHER 7) 0) 10 1 0) (initialData 0) = none :=
  ⟨rfl,
    (halt_iff_bad_mode stdHeader attitudeEvent
      (readingsOf (channel0Settings (StabMode.OTHER 7) 0) 10 1 0) (initialData 0) rfl).1.mpr
      ⟨0, by decide, 0, 1, 7, rfl, rfl, rfl⟩⟩

/-- C12: a channel processed in AxisLock mode whose rate
`accessory_value * input_rate_scale` does not exceed `MaxAxisLockRate` in
absolute value keeps its raw input, and its filtered input is the result of the
low-pass step on that unchanged raw input. -/
theorem axisLock_hold (H : Header) (ev : UAVObjEvent) (r : Readings)
    (csd csd' : CameraStab_data) (outs : List (Axis × FloatVal))
    (hev : ev.obj = UAVObjHandle.AttitudeActual)
    (h : attitudeUpdated H ev r csd = some (csd', outs))
    (i : Nat) (hi : i < H.INPUT_NUMELEM) (a : ℚ)
    (hp : Processed r.cameraStab r.AccessoryDesiredInstGet i a)
    (hm : r.cameraStab.StabilizationMode i = StabMode.AXISLOCK)
    (hrate : |a * r.cameraStab.InputRate i| ≤ r.cameraStab.MaxAxisLockRate)
    (rt : Nat) (hrt : r.cameraStab.ResponseTime i = rt)
    (dT : ℚ) (hdT : timeDelta H r.thisSysTime csd.lastSysTime = dT) :
    csd'.inputs i = csd.inputs i ∧
      (rt = 0 → csd'.inputs_filtered i = csd.inputs i) ∧
      (rt ≠ 0 → csd'.inputs_filtered i =
        (rt : ℚ) / (rt + dT) * csd.inputs_filtered i + dT / (rt + dT) * csd.inputs i) := by
  obtain ⟨hl, _⟩ := attitudeUpdated_some H ev r csd csd' outs hev h
  obtain ⟨e1, e2⟩ := loopOf_processed H r csd csd' hl i hi a hp
  have hraw : rawAfter r.cameraStab a (timeDelta H r.thisSysTime csd.lastSysTime) i
      (csd.inputs i) = csd.inputs i := by
    simp only [rawAfter, hm, gt_iff_lt, if_neg (not_lt.mpr hrate)]
  rw [hraw] at e1 e2
  rw [hdT] at e2
  refine ⟨e1, ?_, ?_⟩
  · intro h0
    rw [e2]
    simp only [filteredAfter, hrt, h0, if_true]
  · intro h0
    rw [e2]
    simp only [filteredAfter, hrt, if_neg h0]

/-- Instance of C12: accessory value 1/100 gives the rate 1/2, below the
threshold 1; with response time 30 ms and 10 ms elapsed, raw input 3 is kept
and the filtered input 8 moves to the blend with it. -/
theorem axisLock_hold_witness :
    ∃ c o,
      attitudeUpdated stdHeader attitudeEvent
        (readingsOf (channel0Settings StabMode.AXISLOCK 30) 15 (1 / 100) 0) (flatData 5 3 8)
        = some (c, o) ∧
      c.inputs 0 = 3 ∧ c.inputs_filtered 0 = (30 : ℚ) / (30 + 10) * 8 + 10 / (30 + 10) * 3 := by
  obtain ⟨c, o, h⟩ := channel0_completes StabMode.AXISLOCK 30 15 (1 / 100) 0 (flatData 5 3 8)
    (Or.inr rfl)
  have hw := axisLock_hold stdHeader attitudeEvent _ _ c o rfl h 0 (by decide) (1 / 100)
    (channel0_processed _ _ _ _ _ (Or.inr rfl)) rfl
    (by norm_num [readingsOf, channel0Settings, abs_of_pos]) 30 rfl 10
    (by simp [timeDelta, readingsOf, flatData, stdHeader])
  exact ⟨c, o, h, hw.1, by simpa [flatData] using hw.2.2 (by decide)⟩

/-- C13: after a completed update the stored tick count is the tick count read
in that update, whether or not it advanced and whatever the channels did. -/
theorem lastSysTime_updated (H : Header) (ev : UAVObjEvent) (r : Readings)
    (csd csd' : CameraStab_data) (outs : List (Axis × FloatVal))
    (hev : ev.obj = UAVObjHandle.AttitudeActual)
    (h : attitudeUpdated H ev r csd = some (csd', outs)) :
    csd'.lastSysTime = r.thisSysTime := by
  obtain ⟨hl, _⟩ := attitudeUpdated_some H ev r csd csd' outs hev h
  exact loopOf_lastSysTime H r csd csd' hl

/-- Instance of C13: an update at tick 40 from a state whose last tick is 50
(the count went backwards) stores 40. -/
theorem lastSysTime_updated_witness :
    ∃ c o,
      attitudeUpdated stdHeader attitudeEvent
        (readingsOf (channel0Settings StabMode.AXISLOCK 30) 40 1 0) (flatData 50 3 8)
        = some (c, o) ∧
      c.lastSysTime = 40 := by
  obtain ⟨c, o, h⟩ := channel0_completes StabMode.AXISLOCK 30 40 1 0 (flatData 50 3 8)
    (Or.inr rfl)
  exact ⟨c, o, h, lastSysTime_updated stdHeader attitudeEvent _ _ c o rfl h⟩

theorem loopOf_outside (H : Header) (r : Readings) (csd csd' : CameraStab_data)
    (h : loopOf H r csd = some csd') (i : Nat) (hi : H.INPUT_NUMELEM ≤ i) :
    csd'.inputs i = csd.inputs i ∧ csd'.inputs_filtered i = csd.inputs_filtered i := by
  obtain ⟨_, hframe, _⟩ := channelLoop_spec _ _ _ _ _ _ _ h
  exact hframe i (Or.inr (by omega))

theorem rawAfter_abs_le (cs : CameraStabSettingsData) (a dT : ℚ) (i : Nat) (x : ℚ)
    (ha : |a| ≤ 1) (hR : 0 ≤ cs.InputRange i) (hx : |x| ≤ cs.InputRange i) :
    |rawAfter cs a dT i x| ≤ cs.InputRange i := by
  unfold rawAfter
  split
  · rw [abs_mul, abs_of_nonneg hR]
    exact mul_le_of_le_one_left hR ha
  · split_ifs
    · exact abs_le.mpr (bound_rat_mem _ _ hR)
    · exact hx
  · exact hx

theorem filteredAfter_abs_le (cs : CameraStabSettingsData) (dT : ℚ) (i : Nat) (f x R : ℚ)
    (hd : 0 ≤ dT) (hf : |f| ≤ R) (hx : |x| ≤ R) :
    |filteredAfter cs dT i f x| ≤ R := by
  unfold filteredAfter
  split_ifs with h0
  · exact hx
  · have hr : (0 : ℚ) < (cs.ResponseTime i : ℚ) := by
      exact_mod_cast Nat.pos_of_ne_zero h0
    have hsum : (0 : ℚ) < (cs.ResponseTime i : ℚ) + dT := by linarith
    have hw1 : 0 ≤ (cs.ResponseTime i : ℚ) / ((cs.ResponseTime i : ℚ) + dT) :=
      div_nonneg hr.le hsum.le
    have hw2 : 0 ≤ dT / ((cs.ResponseTime i : ℚ) + dT) := div_nonneg hd hsum.le
    have hone : (cs.ResponseTime i : ℚ) / ((cs.ResponseTime i : ℚ) + dT) +
        dT / ((cs.ResponseTime i : ℚ) + dT) = 1 := by
      rw [← add_div, div_self hsum.ne']
    calc |(cs.ResponseTime i : ℚ) / ((cs.ResponseTime i : ℚ) + dT) * f +
            dT / ((cs.ResponseTime i : ℚ) + dT) * x|
        ≤ |(cs.ResponseTime i : ℚ) / ((cs.ResponseTime i : ℚ) + dT) * f| +
            |dT / ((cs.ResponseTime i : ℚ) + dT) * x| := abs_add _ _
      _ = (cs.ResponseTime i : ℚ) / ((cs.ResponseTime i : ℚ) + dT) * |f| +
            dT / ((cs.ResponseTime i : ℚ) + dT) * |x| := by
          rw [abs_mul, abs_mul, abs_of_nonneg hw1, abs_of_nonneg hw2]
      _ ≤ (cs.ResponseTime i : ℚ) / ((cs.ResponseTime i : ℚ) + dT) * R +
            dT / ((cs.ResponseTime i : ℚ) + dT) * R :=
          add_le_add (mul_le_mul_of_nonneg_left hf hw1) (mul_le_mul_of_nonneg_left hx hw2)
      _ = ((cs.ResponseTime i : ℚ) / ((cs.ResponseTime i : ℚ) + dT) +
            dT / ((cs.ResponseTime i : ℚ) + dT)) * R := by ring
      _ = R := by rw [hone, one_mul]

theorem attitudeUpdated_foreign (H : Header) (ev : UAVObjEvent) (r : Readings)
    (csd : CameraStab_data) (hev : ev.obj ≠ UAVObjHandle.AttitudeActual) :
    attitudeUpdated H ev r csd = some (csd, []) := by
  unfold attitudeUpdated
  rw [if_pos hev]

theorem range_step (H : Header) (ev : UAVObjEvent) (r : Readings)
    (csd csd' : CameraStab_data) (outs : List (Axis × FloatVal))
    (h : attitudeUpdated H ev r csd = some (csd', outs)) (i : Nat)
    (hR : 0 ≤ r.cameraStab.InputRange i)
    (hacc : ∀ k a, r.AccessoryDesiredInstGet k = some a → |a| ≤ 1)
    (hx : |csd.inputs i| ≤ r.cameraStab.InputRange i)
    (hf : |csd.inputs_filtered i| ≤ r.cameraStab.InputRange i) :
    |csd'.inputs i| ≤ r.cameraStab.InputRange i ∧
      |csd'.inputs_filtered i| ≤ r.cameraStab.InputRange i := by
  by_cases hev : ev.obj = UAVObjHandle.AttitudeActual
  · obtain ⟨hl, _⟩ := attitudeUpdated_some H ev r csd csd' outs hev h
    by_cases hi : i < H.INPUT_NUMELEM
    · have hnb : ¬ BadMode r.cameraStab r.AccessoryDesiredInstGet i := by
        intro hb
        rw [(attitudeUpdated_eq_none_iff H ev r csd hev).mpr ⟨i, hi, hb⟩] at h
        cases h
      rcases skipped_or_processed_of_not_badMode _ _ i hnb with hs | ⟨a, hp⟩
      · obtain ⟨e1, e2⟩ := loopOf_skipped H r csd csd' hl i hs
        rw [e1, e2]
        exact ⟨hx, hf⟩
      · obtain ⟨e1, e2⟩ := loopOf_processed H r csd csd' hl i hi a hp
        obtain ⟨k, _, hk, _⟩ := hp
        have hraw := rawAfter_abs_le r.cameraStab a
          (timeDelta H r.thisSysTime csd.lastSysTime) i (csd.inputs i) (hacc k a hk) hR hx
        rw [e1, e2]
        exact ⟨hraw, filteredAfter_abs_le _ _ _ _ _ _ (timeDelta_nonneg H _ _) hf hraw⟩
    · obtain ⟨e1, e2⟩ := loopOf_outside H r csd csd' hl i (not_lt.mp hi)
      rw [e1, e2]
      exact ⟨hx, hf⟩
  · rw [attitudeUpdated_foreign H ev r csd hev] at h
    cases h
    exact ⟨hx, hf⟩

/-- The range invariant in exact arithmetic (no rounding): under a fixed
configuration, for a channel whose input range is not
negative, with every fetched accessory value in `[-1, 1]`, starting from the
zeroed state, after any number of completed calls of the callback (whatever the
events, the modes, the availability of the accessories and the tick counts) the
raw input and the filtered input of the channel are within the input range in
absolute value. -/
theorem inputs_within_range (H : Header) (ev : Nat → UAVObjEvent) (r : Nat → Readings)
    (s : Nat → CameraStab_data) (outs : Nat → List (Axis × FloatVal))
    (cs : CameraStabSettingsData) (now : Nat)
    (hinit : s 0 = initialData now)
    (hrun : ∀ n, attitudeUpdated H (ev n) (r n) (s n) = some (s (n + 1), outs n))
    (hcfg : ∀ n, (r n).cameraStab = cs)
    (hacc : ∀ n k a, (r n).AccessoryDesiredInstGet k = some a → |a| ≤ 1)
    (i : Nat) (hR : 0 ≤ cs.InputRange i) (n : Nat) :
    |(s n).inputs i| ≤ cs.InputRange i ∧ |(s n).inputs_filtered i| ≤ cs.InputRange i := by
  induction n with
  | zero =>
    rw [hinit]
    simp only [initialData, abs_zero]
    exact ⟨hR, hR⟩
  | succ m ih =>
    have hstep := range_step H (ev m) (r m) (s m) (s (m + 1)) (outs m) (hrun m) i
    rw [hcfg m] at hstep
    exact hstep hR (hacc m) ih.1 ih.2

theorem sweepRun_succ (n : Nat) :
    sweepRun (n + 1) =
      match attitudeUpdated stdHeader attitudeEvent (sweepReadings n) (sweepRun n) with
      | some (c, _) => c
      | none => sweepRun n := rfl

theorem sweepRun_step (n : Nat) :
    attitudeUpdated stdHeader attitudeEvent (sweepReadings n) (sweepRun n) =
      some (sweepRun (n + 1), sweepOuts n) := by
  obtain ⟨c, o, h⟩ := channel0_completes StabMode.AXISLOCK 30 (1000 * (n + 1)) 1 0
    (sweepRun n) (Or.inr rfl)
  have h2 : attitudeUpdated stdHeader attitudeEvent (sweepReadings n) (sweepRun n) =
      some (c, o) := h
  have e1 : sweepRun (n + 1) = c := by
    rw [sweepRun_succ, h2]
  have e2 : sweepOuts n = o := by
    unfold sweepOuts
    rw [h2]
  rw [e1, e2, h2]

/-- Instance of `inputs_within_range`: in the second example run, which
integrates 50 per cycle
towards the input range 20, raw and filtered input of channel 0 are within 20
after five cycles. -/
theorem inputs_within_range_witness :
    |(sweepRun 5).inputs 0| ≤ 20 ∧ |(sweepRun 5).inputs_filtered 0| ≤ 20 := by
  have hacc : ∀ n k a, (sweepReadings n).AccessoryDesiredInstGet k = some a → |a| ≤ 1 := by
    intro n k a hk
    simp only [sweepReadings, readingsOf] at hk
    split_ifs at hk
    cases hk
    norm_num
  have hR : (0 : ℚ) ≤ (channel0Settings StabMode.AXISLOCK 30).InputRange 0 := by
    norm_num [channel0Settings]
  exact inputs_within_range stdHeader (fun _ => attitudeEvent) sweepReadings sweepRun
    sweepOuts (channel0Settings StabMode.AXISLOCK 30) 0 rfl sweepRun_step (fun _ => rfl)
    hacc 0 hR 5

theorem bound_add_sub (x d R : ℚ) (hx : |x| ≤ R) :
    |bound (x + d) R - x| ≤ |d| ∧ (0 ≤ d → x ≤ bound (x + d) R) ∧
      (d ≤ 0 → bound (x + d) R ≤ x) := by
  obtain ⟨h1, h2⟩ := abs_le.mp hx
  have h3 := neg_abs_le d
  have h4 := le_abs_self d
  rw [bound_rat]
  split_ifs with c1 c2
  · refine ⟨abs_le.mpr ⟨by linarith, by linarith⟩, fun _ => h2, fun hd => by linarith⟩
  · refine ⟨abs_le.mpr ⟨by linarith, by linarith⟩, fun hd => by linarith, fun _ => h1⟩
  · refine ⟨abs_le.mpr ⟨by linarith, by linarith⟩, fun hd => by linarith,
      fun hd => by linarith⟩

theorem timeDelta_div_le_deltaSeconds (H : Header) (t l : Nat) :
    timeDelta H t l / 1000 ≤ deltaSeconds H t l := by
  unfold timeDelta deltaSeconds SAMPLE_PERIOD_MS
  split_ifs
  · exact le_refl _
  · norm_num

/-- The slew limit in exact arithmetic (no rounding): for a channel processed in
AxisLock mode whose previous raw input is
within the input range, one update changes the raw input by at most
`|input_rate|` times the time the code integrates over, which is at most
`|input_rate|` times the elapsed seconds, and it does not move the raw input
against the sign of `input_rate`. -/
theorem axisLock_slew_limit (H : Header) (ev : UAVObjEvent) (r : Readings)
    (csd csd' : CameraStab_data) (outs : List (Axis × FloatVal))
    (hev : ev.obj = UAVObjHandle.AttitudeActual)
    (h : attitudeUpdated H ev r csd = some (csd', outs))
    (i : Nat) (hi : i < H.INPUT_NUMELEM) (a : ℚ)
    (hp : Processed r.cameraStab r.AccessoryDesiredInstGet i a)
    (hm : r.cameraStab.StabilizationMode i = StabMode.AXISLOCK)
    (hprev : |csd.inputs i| ≤ r.cameraStab.InputRange i) :
    |csd'.inputs i - csd.inputs i| ≤
        |a * r.cameraStab.InputRate i| * (timeDelta H r.thisSysTime csd.lastSysTime / 1000) ∧
      |csd'.inputs i - csd.inputs i| ≤
        |a * r.cameraStab.InputRate i| * deltaSeconds H r.thisSysTime csd.lastSysTime ∧
      (0 ≤ a * r.cameraStab.InputRate i → csd.inputs i ≤ csd'.inputs i) ∧
      (a * r.cameraStab.InputRate i ≤ 0 → csd'.inputs i ≤ csd.inputs i) := by
  obtain ⟨hl, _⟩ := attitudeUpdated_some H ev r csd csd' outs hev h
  obtain ⟨e1, _⟩ := loopOf_processed H r csd csd' hl i hi a hp
  have hd := timeDelta_nonneg H r.thisSysTime csd.lastSysTime
  have hd2 : 0 ≤ timeDelta H r.thisSysTime csd.lastSysTime / 1000 := by positivity
  have hle := timeDelta_div_le_deltaSeconds H r.thisSysTime csd.lastSysTime
  have hmono : |a * r.cameraStab.InputRate i| *
      (timeDelta H r.thisSysTime csd.lastSysTime / 1000) ≤
      |a * r.cameraStab.InputRate i| * deltaSeconds H r.thisSysTime csd.lastSysTime :=
    mul_le_mul_of_nonneg_left hle (abs_nonneg _)
  have hnn : 0 ≤ |a * r.cameraStab.InputRate i| *
      (timeDelta H r.thisSysTime csd.lastSysTime / 1000) :=
    mul_nonneg (abs_nonneg _) hd2
  simp only [rawAfter, hm] at e1
  split_ifs at e1 with hrate
  · obtain ⟨b1, b2, b3⟩ := bound_add_sub (csd.inputs i)
      (a * r.cameraStab.InputRate i * timeDelta H r.thisSysTime csd.lastSysTime / 1000)
      (r.cameraStab.InputRange i) hprev
    rw [← e1] at b1 b2 b3
    have habs : |a * r.cameraStab.InputRate i *
        timeDelta H r.thisSysTime csd.lastSysTime / 1000| =
        |a * r.cameraStab.InputRate i| *
          (timeDelta H r.thisSysTime csd.lastSysTime / 1000) := by
      rw [mul_div_assoc, abs_mul, abs_of_nonneg hd2]
    rw [habs] at b1
    refine ⟨b1, b1.trans hmono, ?_, ?_⟩
    · intro hpos
      apply b2
      rw [mul_div_assoc]
      exact mul_nonneg hpos hd2
    · intro hneg
      apply b3
      rw [mul_div_assoc]
      exact mul_nonpos_of_nonpos_of_nonneg hneg hd2
  · rw [e1, sub_self, abs_zero]
    exact ⟨hnn, hnn.trans hmono, fun _ => le_refl _, fun _ => le_refl _⟩

/-- Instance of `axisLock_slew_limit`: with rate -50 per second, 10 ms elapsed
and raw input 3
within the range 20, the raw input moves by at most 50 * (10 / 1000) and not
upwards. -/
theorem axisLock_slew_limit_witness :
    ∃ c o,
      attitudeUpdated stdHeader attitudeEvent
        (readingsOf (channel0Settings StabMode.AXISLOCK 30) 15 (-1) 0) (flatData 5 3 8)
        = some (c, o) ∧
      |c.inputs 0 - 3| ≤ 50 * (10 / 1000) ∧ c.inputs 0 ≤ 3 := by
  obtain ⟨c, o, h⟩ := channel0_completes StabMode.AXISLOCK 30 15 (-1) 0 (flatData 5 3 8)
    (Or.inr rfl)
  have hw := axisLock_slew_limit stdHeader attitudeEvent _ _ c o rfl h 0 (by decide) (-1)
    (channel0_processed _ _ _ _ _ (Or.inr rfl)) rfl
    (by norm_num [readingsOf, channel0Settings, flatData])
  refine ⟨c, o, h, ?_, ?_⟩
  · have h2 := hw.2.1
    norm_num [readingsOf, channel0Settings, flatData, deltaSeconds, stdHeader] at h2
    linarith
  · exact hw.2.2.2 (by norm_num [readingsOf, channel0Settings])

theorem accessoryOf_none_skipped (cs : CameraStabSettingsData) (acc : Nat → Option ℚ)
    (i : Nat) (h : accessoryOf cs acc i = none) : Skipped cs acc i := by
  unfold accessoryOf at h
  cases hin : cs.Input i with
  | NONE => exact Or.inl hin
  | ACCESSORY k =>
    rw [hin] at h
    exact Or.inr ⟨k, hin, h⟩

theorem accessoryOf_some_processed (cs : CameraStabSettingsData) (acc : Nat → Option ℚ)
    (i : Nat) (a : ℚ) (h : accessoryOf cs acc i = some a) (hnb : ¬ BadMode cs acc i) :
    Processed cs acc i a := by
  unfold accessoryOf at h
  cases hin : cs.Input i with
  | NONE =>
    rw [hin] at h
    cases h
  | ACCESSORY k =>
    rw [hin] at h
    cases hm : cs.StabilizationMode i with
    | ATTITUDE => exact ⟨k, hin, h, Or.inl hm⟩
    | AXISLOCK => exact ⟨k, hin, h, Or.inr hm⟩
    | OTHER raw => exact absurd ⟨k, a, raw, hin, h, hm⟩ hnb

theorem rawAfter_congr (cs1 cs2 : CameraStabSettingsData) (a dT : ℚ) (i : Nat) (x : ℚ)
    (hmode : cs1.StabilizationMode i = cs2.StabilizationMode i)
    (hrange : cs1.InputRange i = cs2.InputRange i)
    (hrate : cs1.InputRate i = cs2.InputRate i)
    (hmax : cs1.MaxAxisLockRate = cs2.MaxAxisLockRate) :
    rawAfter cs1 a dT i x = rawAfter cs2 a dT i x := by
  unfold rawAfter
  rw [hmode, hrange, hrate, hmax]

theorem filteredAfter_congr (cs1 cs2 : CameraStabSettingsData) (dT : ℚ) (i : Nat) (f x : ℚ)
    (hrt : cs1.ResponseTime i = cs2.ResponseTime i) :
    filteredAfter cs1 dT i f x = filteredAfter cs2 dT i f x := by
  unfold filteredAfter
  rw [hrt]

/-- C16: two completed updates that agree, for a channel `i`, on the previous
raw and filtered input, on the accessory value obtained for the channel (or its
absence), on the configuration entries the channel uses (mode, input range,
input rate, response time and the `MaxAxisLockRate` threshold) and on the time
delta leave the same raw and filtered input for the channel, whatever the
state, the settings and the accessory values of the other channels are. -/
theorem channel_independence (H : Header) (ev : UAVObjEvent) (r1 r2 : Readings)
    (c1 c2 c1' c2' : CameraStab_data) (o1 o2 : List (Axis × FloatVal))
    (hev : ev.obj = UAVObjHandle.AttitudeActual)
    (h1 : attitudeUpdated H ev r1 c1 = some (c1', o1))
    (h2 : attitudeUpdated H ev r2 c2 = some (c2', o2))
    (i : Nat)
    (hraw : c1.inputs i = c2.inputs i)
    (hfilt : c1.inputs_filtered i = c2.inputs_filtered i)
    (hacc : accessoryOf r1.cameraStab r1.AccessoryDesiredInstGet i =
      accessoryOf r2.cameraStab r2.AccessoryDesiredInstGet i)
    (hmode : r1.cameraStab.StabilizationMode i = r2.cameraStab.StabilizationMode i)
    (hrange : r1.cameraStab.InputRange i = r2.cameraStab.InputRange i)
    (hrate : r1.cameraStab.InputRate i = r2.cameraStab.InputRate i)
    (hrt : r1.cameraStab.ResponseTime i = r2.cameraStab.ResponseTime i)
    (hmax : r1.cameraStab.MaxAxisLockRate = r2.cameraStab.MaxAxisLockRate)
    (hdT : timeDelta H r1.thisSysTime c1.lastSysTime =
      timeDelta H r2.thisSysTime c2.lastSysTime) :
    c1'.inputs i = c2'.inputs i ∧ c1'.inputs_filtered i = c2'.inputs_filtered i := by
  obtain ⟨hl1, _⟩ := attitudeUpdated_some H ev r1 c1 c1' o1 hev h1
  obtain ⟨hl2, _⟩ := attitudeUpdated_some H ev r2 c2 c2' o2 hev h2
  by_cases hi : i < H.INPUT_NUMELEM
  · have hnb1 : ¬ BadMode r1.cameraStab r1.AccessoryDesiredInstGet i := by
      intro hb
      rw [(attitudeUpdated_eq_none_iff H ev r1 c1 hev).mpr ⟨i, hi, hb⟩] at h1
      cases h1
    have hnb2 : ¬ BadMode r2.cameraStab r2.AccessoryDesiredInstGet i := by
      intro hb
      rw [(attitudeUpdated_eq_none_iff H ev r2 c2 hev).mpr ⟨i, hi, hb⟩] at h2
      cases h2
    cases ha : accessoryOf r1.cameraStab r1.AccessoryDesiredInstGet i with
    | none =>
      obtain ⟨e1, e2⟩ := loopOf_skipped H r1 c1 c1' hl1 i (accessoryOf_none_skipped _ _ i ha)
      obtain ⟨f1, f2⟩ := loopOf_skipped H r2 c2 c2' hl2 i
        (accessoryOf_none_skipped _ _ i (hacc ▸ ha))
      rw [e1, e2, f1, f2]
      exact ⟨hraw, hfilt⟩
    | some a =>
      obtain ⟨e1, e2⟩ := loopOf_processed H r1 c1 c1' hl1 i hi a
        (accessoryOf_some_processed _ _ i a ha hnb1)
      obtain ⟨f1, f2⟩ := loopOf_processed H r2 c2 c2' hl2 i hi a
        (accessoryOf_some_processed _ _ i a (hacc ▸ ha) hnb2)
      rw [e1, e2, f1, f2, hdT, hraw, hfilt,
        rawAfter_congr r1.cameraStab r2.cameraStab a _ i _ hmode hrange hrate hmax,
        filteredAfter_congr r1.cameraStab r2.cameraStab _ i _ _ hrt]
      exact ⟨rfl, rfl⟩
  · obtain ⟨e1, e2⟩ := loopOf_outside H r1 c1 c1' hl1 i (not_lt.mp hi)
    obtain ⟨f1, f2⟩ := loopOf_outside H r2 c2 c2' hl2 i (not_lt.mp hi)
    rw [e1, e2, f1, f2]
    exact ⟨hraw, hfilt⟩

/-- Instance of C16: an update with only channel 0 driven and an update with a
second driven channel, other ranges and another state on channels 1 and 2 end
with the same raw and filtered input on channel 0. -/
theorem channel_independence_witness :
    ∃ c o d p,
      attitudeUpdated stdHeader attitudeEvent
        (readingsOf (channel0Settings StabMode.AXISLOCK 30) 15 1 0) (flatData 5 3 8)
        = some (c, o) ∧
      attitudeUpdated stdHeader attitudeEvent (readingsOf twoChannelSettings 100 1 7)
        unevenData = some (d, p) ∧
      c.inputs 0 = d.inputs 0 ∧ c.inputs_filtered 0 = d.inputs_filtered 0 := by
  obtain ⟨c, o, h1⟩ := channel0_completes StabMode.AXISLOCK 30 15 1 0 (flatData 5 3 8)
    (Or.inr rfl)
  have hall : ∀ i, i < stdHeader.INPUT_NUMELEM →
      Skipped (readingsOf twoChannelSettings 100 1 7).cameraStab
          (readingsOf twoChannelSettings 100 1 7).AccessoryDesiredInstGet i ∨
        ∃ a, Processed (readingsOf twoChannelSettings 100 1 7).cameraStab
          (readingsOf twoChannelSettings 100 1 7).AccessoryDesiredInstGet i a := by
    intro i hi
    have hi3 : i < 3 := hi
    interval_cases i
    · exact Or.inr ⟨1, 0, rfl, rfl, Or.inr rfl⟩
    · exact Or.inr ⟨1, 0, rfl, rfl, Or.inl rfl⟩
    · exact Or.inl (Or.inl rfl)
  obtain ⟨d, p, h2⟩ := attitudeUpdated_completes stdHeader attitudeEvent
    (readingsOf twoChannelSettings 100 1 7) unevenData rfl hall
  exact ⟨c, o, d, p, h1, h2,
    channel_independence stdHeader attitudeEvent _ _ _ _ c d o p rfl h1 h2 0 rfl rfl rfl rfl
      rfl rfl rfl rfl (by simp [timeDelta, readingsOf, flatData, unevenData, stdHeader])⟩

theorem roundEven_of_near (y : ℚ) (n : ℤ) (h : |y - n| < 1 / 2) : roundEven y = n := by
  obtain ⟨h1, h2⟩ := abs_lt.mp h
  unfold roundEven
  by_cases hy : (n : ℚ) ≤ y
  · have hf : ⌊y⌋ = n := Int.floor_eq_iff.mpr ⟨hy, by linarith⟩
    rw [hf, if_pos (by linarith)]
  · have hf : ⌊y⌋ = n - 1 := Int.floor_eq_iff.mpr ⟨by push_cast; linarith, by push_cast; linarith⟩
    rw [hf]
    have h3 : ¬ (y - ((n - 1 : ℤ) : ℚ) < 1 / 2) := by push_cast; linarith
    have h4 : 1 / 2 < y - ((n - 1 : ℤ) : ℚ) := by push_cast; linarith
    rw [if_neg h3, if_pos h4]
    ring

theorem roundEven_intCast (n : ℤ) : roundEven (n : ℚ) = n :=
  roundEven_of_near _ n (by simp)

theorem roundEven_sub_abs_le (y : ℚ) : |(roundEven y : ℚ) - y| ≤ 1 / 2 := by
  have h1 := Int.floor_le y
  have h2 := Int.lt_floor_add_one y
  unfold roundEven
  split_ifs with c1 c2 c3
  · rw [abs_le]; constructor <;> linarith
  · rw [abs_le]; push_cast; constructor <;> linarith
  · rw [abs_le]; constructor <;> linarith
  · rw [abs_le]; push_cast; constructor <;> linarith

theorem roundEven_mono {y z : ℚ} (h : y ≤ z) : roundEven y ≤ roundEven z := by
  have hfl : ⌊y⌋ ≤ ⌊z⌋ := Int.floor_mono h
  have hy1 : roundEven y ≤ ⌊y⌋ + 1 := by
    unfold roundEven; split_ifs <;> omega
  have hz0 : ⌊z⌋ ≤ roundEven z := by
    unfold roundEven; split_ifs <;> omega
  rcases hfl.lt_or_eq with hlt | heq
  · omega
  · unfold roundEven
    rw [heq]
    have hyz : y - ⌊z⌋ ≤ z - ⌊z⌋ := by linarith
    split_ifs <;> first | omega | linarith

theorem two_zpow_pos (z : ℤ) : (0 : ℚ) < 2 ^ z := zpow_pos (by norm_num) z

theorem zpow_log_le (x : ℚ) (hx : 0 < x) : (2 : ℚ) ^ Int.log 2 x ≤ x := by
  have h := Int.zpow_log_le_self (b := 2) (r := x) (by norm_num) hx
  exact_mod_cast h

theorem lt_zpow_log_succ (x : ℚ) : x < (2 : ℚ) ^ (Int.log 2 x + 1) := by
  have h := Int.lt_zpow_succ_log_self (b := 2) (by norm_num) x
  exact_mod_cast h

theorem log_eq_of_bounds (x : ℚ) (e : ℤ) (hx : 0 < x) (h1 : (2 : ℚ) ^ e ≤ x)
    (h2 : x < (2 : ℚ) ^ (e + 1)) : Int.log 2 x = e := by
  have a1 : e ≤ Int.log 2 x :=
    (Int.zpow_le_iff_le_log (b := 2) (by norm_num) hx).mp (by exact_mod_cast h1)
  have a2 : Int.log 2 x < e + 1 :=
    (Int.lt_zpow_iff_log_lt (b := 2) (by norm_num) hx).mp (by exact_mod_cast h2)
  omega

theorem ulpExp_of_normal (x : ℚ) (h : -126 ≤ Int.log 2 x) : ulpExp x = Int.log 2 x - 23 := by
  unfold ulpExp
  rw [max_eq_left h]

theorem ulpExp_of_subnormal (x : ℚ) (h : Int.log 2 x < -126) : ulpExp x = -149 := by
  unfold ulpExp
  rw [max_eq_right h.le]
  norm_num

theorem zpow_sub_23 (e : ℤ) : (2 : ℚ) ^ (e - 23) = 2 ^ e / 2 ^ 23 := by
  rw [zpow_sub₀ (by norm_num : (2 : ℚ) ≠ 0)]
  norm_num

theorem zpow_neg_149 : (2 : ℚ) ^ (-149 : ℤ) = 1 / 2 ^ 149 := by
  rw [zpow_neg, one_div]
  norm_cast

theorem roundMag_err (x : ℚ) : |roundMag x - x| ≤ 2 ^ ulpExp x / 2 := by
  have hq := two_zpow_pos (ulpExp x)
  have h := roundEven_sub_abs_le (x / 2 ^ ulpExp x)
  have e : roundMag x - x = ((roundEven (x / 2 ^ ulpExp x) : ℚ) - x / 2 ^ ulpExp x) *
      2 ^ ulpExp x := by
    unfold roundMag
    field_simp
  rw [e, abs_mul, abs_of_pos hq]
  calc |(roundEven (x / 2 ^ ulpExp x) : ℚ) - x / 2 ^ ulpExp x| * 2 ^ ulpExp x
      ≤ 1 / 2 * 2 ^ ulpExp x := mul_le_mul_of_nonneg_right h hq.le
    _ = 2 ^ ulpExp x / 2 := by ring

theorem roundMag_nonneg (x : ℚ) (hx : 0 < x) : 0 ≤ roundMag x := by
  have hq := two_zpow_pos (ulpExp x)
  unfold roundMag
  apply mul_nonneg _ hq.le
  have h0 : (0 : ℚ) ≤ x / 2 ^ ulpExp x := (div_pos hx hq).le
  have := roundEven_mono h0
  rw [show (0 : ℚ) = ((0 : ℤ) : ℚ) by norm_num, roundEven_intCast] at this
  exact_mod_cast this

theorem roundMag_ge_zpow (x : ℚ) (hx : 0 < x) (hn : -126 ≤ Int.log 2 x) :
    (2 : ℚ) ^ Int.log 2 x ≤ roundMag x := by
  have hq := two_zpow_pos (Int.log 2 x - 23)
  have e : ((2 ^ 23 : ℤ) : ℚ) * (2 : ℚ) ^ (Int.log 2 x - 23) = 2 ^ Int.log 2 x := by
    rw [zpow_sub_23]
    push_cast
    field_simp
    norm_num
    ring
  unfold roundMag
  rw [ulpExp_of_normal x hn]
  have h1 : ((2 ^ 23 : ℤ) : ℚ) ≤ x / 2 ^ (Int.log 2 x - 23) := by
    rw [le_div_iff₀ hq, e]
    exact zpow_log_le x hx
  have h2 := roundEven_mono h1
  rw [roundEven_intCast] at h2
  have h3 : ((2 ^ 23 : ℤ) : ℚ) ≤ (roundEven (x / 2 ^ (Int.log 2 x - 23)) : ℚ) := by
    exact_mod_cast h2
  calc (2 : ℚ) ^ Int.log 2 x = ((2 ^ 23 : ℤ) : ℚ) * 2 ^ (Int.log 2 x - 23) := e.symm
    _ ≤ _ := mul_le_mul_of_nonneg_right h3 hq.le

theorem roundMag_le_zpow (x : ℚ) :
    roundMag x ≤ (2 : ℚ) ^ (ulpExp x + 24) := by
  have hq := two_zpow_pos (ulpExp x)
  unfold roundMag
  have hlog : Int.log 2 x + 1 ≤ ulpExp x + 24 := by
    unfold ulpExp
    have := le_max_left (Int.log 2 x) (-126)
    omega
  have hx2 : x < (2 : ℚ) ^ (ulpExp x + 24) :=
    lt_of_lt_of_le (lt_zpow_log_succ x) (zpow_le_zpow_right₀ (by norm_num) hlog)
  have h1 : x / 2 ^ ulpExp x ≤ ((2 ^ 24 : ℤ) : ℚ) := by
    rw [div_le_iff₀ hq]
    push_cast
    rw [zpow_add₀ (by norm_num : (2 : ℚ) ≠ 0)] at hx2
    have : (2 : ℚ) ^ (24 : ℤ) = 2 ^ 24 := by norm_cast
    rw [this] at hx2
    linarith
  have h2 := roundEven_mono h1
  rw [roundEven_intCast] at h2
  have h3 : (roundEven (x / 2 ^ ulpExp x) : ℚ) ≤ ((2 ^ 24 : ℤ) : ℚ) := by exact_mod_cast h2
  calc (roundEven (x / 2 ^ ulpExp x) : ℚ) * 2 ^ ulpExp x
      ≤ ((2 ^ 24 : ℤ) : ℚ) * 2 ^ ulpExp x := mul_le_mul_of_nonneg_right h3 hq.le
    _ = (2 : ℚ) ^ (ulpExp x + 24) := by
        rw [zpow_add₀ (by norm_num : (2 : ℚ) ≠ 0)]
        push_cast
        have : (2 : ℚ) ^ (24 : ℤ) = 2 ^ 24 := by norm_cast
        rw [this]
        ring

theorem ulpExp_mono {x y : ℚ} (hx : 0 < x) (h : x ≤ y) : ulpExp x ≤ ulpExp y := by
  unfold ulpExp
  have := Int.log_mono_right (b := 2) hx h
  exact sub_le_sub_right (max_le_max this (le_refl _)) 23

theorem roundMag_mono {x y : ℚ} (hx : 0 < x) (h : x ≤ y) : roundMag x ≤ roundMag y := by
  have hy : 0 < y := lt_of_lt_of_le hx h
  rcases (ulpExp_mono hx h).lt_or_eq with hlt | heq
  · have hn : -126 ≤ Int.log 2 y := by
      by_contra hc
      have h1 := ulpExp_of_subnormal y (not_le.mp hc)
      have h2 : -149 ≤ ulpExp x := by
        unfold ulpExp
        have := le_max_right (Int.log 2 x) (-126)
        omega
      omega
    have h3 : ulpExp x + 24 ≤ Int.log 2 y := by
      have := ulpExp_of_normal y hn
      omega
    calc roundMag x ≤ (2 : ℚ) ^ (ulpExp x + 24) := roundMag_le_zpow x
      _ ≤ (2 : ℚ) ^ Int.log 2 y := zpow_le_zpow_right₀ (by norm_num) h3
      _ ≤ roundMag y := roundMag_ge_zpow y hy hn
  · unfold roundMag
    rw [heq]
    have hq := two_zpow_pos (ulpExp y)
    have h1 : x / 2 ^ ulpExp y ≤ y / 2 ^ ulpExp y := div_le_div_of_nonneg_right h hq.le
    have h2 : (roundEven (x / 2 ^ ulpExp y) : ℚ) ≤ (roundEven (y / 2 ^ ulpExp y) : ℚ) := by
      exact_mod_cast roundEven_mono h1
    exact mul_le_mul_of_nonneg_right h2 hq.le

theorem ulp_half_le (x : ℚ) (hx : 0 < x) :
    (2 : ℚ) ^ ulpExp x / 2 ≤ x / 2 ^ 24 + 1 / 2 ^ 150 ∧
      (2 : ℚ) ^ ulpExp x / 2 ≤ roundMag x / 2 ^ 24 + 1 / 2 ^ 150 := by
  by_cases hn : -126 ≤ Int.log 2 x
  · rw [ulpExp_of_normal x hn, zpow_sub_23]
    have h1 := zpow_log_le x hx
    have h2 := roundMag_ge_zpow x hx hn
    have e : (2 : ℚ) ^ Int.log 2 x / 2 ^ 23 / 2 = 2 ^ Int.log 2 x / 2 ^ 24 := by
      rw [div_div]
      norm_num
    rw [e]
    have h24 : (0 : ℚ) < 2 ^ 24 := by norm_num
    have h150 : (0 : ℚ) < 1 / 2 ^ 150 := by positivity
    constructor
    · have := div_le_div_of_nonneg_right h1 h24.le
      linarith
    · have := div_le_div_of_nonneg_right h2 h24.le
      linarith
  · rw [ulpExp_of_subnormal x (not_le.mp hn), zpow_neg_149]
    have h24 : (0 : ℚ) < 2 ^ 24 := by norm_num
    have e : (1 : ℚ) / 2 ^ 149 / 2 = 1 / 2 ^ 150 := by norm_num
    rw [e]
    have h3 := roundMag_nonneg x hx
    constructor
    · have : 0 ≤ x / 2 ^ 24 := by positivity
      linarith
    · have : 0 ≤ roundMag x / 2 ^ 24 := by positivity
      linarith

theorem round32_zero : round32 0 = 0 := by
  unfold round32
  rw [if_pos rfl]

theorem round32_of_pos (x : ℚ) (hx : 0 < x) : round32 x = roundMag x := by
  unfold round32
  rw [if_neg hx.ne', if_pos hx]

theorem round32_of_neg (x : ℚ) (hx : x < 0) : round32 x = -roundMag (-x) := by
  unfold round32
  rw [if_neg hx.ne, if_neg (not_lt.mpr hx.le)]

theorem round32_neg (x : ℚ) : round32 (-x) = -round32 x := by
  rcases lt_trichotomy x 0 with h | h | h
  · rw [round32_of_neg x h, round32_of_pos (-x) (by linarith), neg_neg]
  · subst h
    rw [neg_zero, round32_zero, neg_zero]
  · rw [round32_of_pos x h, round32_of_neg (-x) (by linarith), neg_neg]

theorem round32_nonneg (x : ℚ) (hx : 0 ≤ x) : 0 ≤ round32 x := by
  rcases hx.lt_or_eq with h | h
  · rw [round32_of_pos x h]
    exact roundMag_nonneg x h
  · rw [← h, round32_zero]

theorem round32_nonpos (x : ℚ) (hx : x ≤ 0) : round32 x ≤ 0 := by
  have := round32_nonneg (-x) (by linarith)
  rw [round32_neg] at this
  linarith

theorem round32_mono {x y : ℚ} (h : x ≤ y) : round32 x ≤ round32 y := by
  rcases lt_trichotomy x 0 with hx | hx | hx
  · rcases lt_or_le y 0 with hy | hy
    · rw [round32_of_neg x hx, round32_of_neg y hy]
      have := roundMag_mono (x := -y) (y := -x) (by linarith) (by linarith)
      linarith
    · exact le_trans (round32_nonpos x hx.le) (round32_nonneg y hy)
  · subst hx
    rw [round32_zero]
    exact round32_nonneg y h
  · rw [round32_of_pos x hx, round32_of_pos y (lt_of_lt_of_le hx h)]
    exact roundMag_mono hx h

theorem round32_abs (x : ℚ) : |round32 x| = round32 |x| := by
  rcases le_or_lt 0 x with h | h
  · rw [abs_of_nonneg h, abs_of_nonneg (round32_nonneg x h)]
  · rw [abs_of_neg h, round32_neg, abs_of_nonpos (round32_nonpos x h.le)]

theorem round32_err (x : ℚ) :
    |round32 x - x| ≤ |x| / 2 ^ 24 + 1 / 2 ^ 150 ∧
      |round32 x - x| ≤ |round32 x| / 2 ^ 24 + 1 / 2 ^ 150 := by
  rcases lt_trichotomy x 0 with hx | hx | hx
  · rw [round32_of_neg x hx]
    have h1 := roundMag_err (-x)
    have h2 := ulp_half_le (-x) (by linarith)
    have e : |-roundMag (-x) - x| = |roundMag (-x) - -x| := by
      rw [← abs_neg]
      congr 1
      ring
    rw [e, abs_neg, abs_of_neg hx, abs_of_nonneg (roundMag_nonneg (-x) (by linarith))]
    exact ⟨h1.trans h2.1, h1.trans h2.2⟩
  · subst hx
    rw [round32_zero]
    norm_num
  · rw [round32_of_pos x hx]
    have h1 := roundMag_err x
    have h2 := ulp_half_le x hx
    rw [abs_of_pos hx, abs_of_nonneg (roundMag_nonneg x hx)]
    exact ⟨h1.trans h2.1, h1.trans h2.2⟩

/-- Evaluation of `round32` at a positive number of the normal range: with
`2 ^ e ≤ x < 2 ^ (e + 1)` and `n` the integer nearest to `x / 2 ^ (e - 23)`, the
result is `n * 2 ^ (e - 23)`. -/
theorem round32_eval (x : ℚ) (e n : ℤ) (hx : 0 < x) (he : -126 ≤ e)
    (h1 : (2 : ℚ) ^ e ≤ x) (h2 : x < (2 : ℚ) ^ (e + 1))
    (hn : |x / 2 ^ (e - 23) - n| < 1 / 2) : round32 x = n * 2 ^ (e - 23) := by
  have hlog := log_eq_of_bounds x e hx h1 h2
  rw [round32_of_pos x hx]
  unfold roundMag
  rw [ulpExp_of_normal x (by omega), hlog, roundEven_of_near _ n hn]

theorem ulpExp_ge (x : ℚ) : -149 ≤ ulpExp x := by
  unfold ulpExp
  have := le_max_right (Int.log 2 x) (-126)
  omega

/-- A positive number `m * 2 ^ k` with `m` below `2 ^ 24` and `k` not below
`-149` is a binary32 number: rounding returns it. -/
theorem roundMag_of_grid (m k : ℤ) (hm : 0 < m) (hm2 : m < 2 ^ 24) (hk : -149 ≤ k) :
    roundMag ((m : ℚ) * 2 ^ k) = (m : ℚ) * 2 ^ k := by
  have hx : (0 : ℚ) < (m : ℚ) * 2 ^ k := mul_pos (by exact_mod_cast hm) (two_zpow_pos k)
  have hlt : (m : ℚ) * 2 ^ k < (2 : ℚ) ^ (k + 24) := by
    rw [zpow_add₀ (by norm_num : (2 : ℚ) ≠ 0), mul_comm ((2 : ℚ) ^ k)]
    have h24 : (2 : ℚ) ^ (24 : ℤ) = ((2 ^ 24 : ℤ) : ℚ) := by norm_cast
    rw [h24]
    exact mul_lt_mul_of_pos_right (by exact_mod_cast hm2) (two_zpow_pos k)
  have hlog : Int.log 2 ((m : ℚ) * 2 ^ k) < k + 24 :=
    (Int.lt_zpow_iff_log_lt (b := 2) (by norm_num) hx).mp (by exact_mod_cast hlt)
  have hle : ulpExp ((m : ℚ) * 2 ^ k) ≤ k := by
    unfold ulpExp
    have : max (Int.log 2 ((m : ℚ) * 2 ^ k)) (-126) ≤ k + 23 := max_le (by omega) (by omega)
    omega
  obtain ⟨j, hj⟩ := Int.eq_ofNat_of_zero_le (sub_nonneg.mpr hle)
  have hk' : k = ulpExp ((m : ℚ) * 2 ^ k) + j := by omega
  have hdiv : (m : ℚ) * 2 ^ k / 2 ^ ulpExp ((m : ℚ) * 2 ^ k) = ((m * 2 ^ j : ℤ) : ℚ) := by
    have hq := two_zpow_pos (ulpExp ((m : ℚ) * 2 ^ k))
    rw [div_eq_iff hq.ne']
    nth_rewrite 1 [hk']
    rw [zpow_add₀ (by norm_num : (2 : ℚ) ≠ 0), zpow_natCast]
    push_cast
    ring
  unfold roundMag
  rw [hdiv, roundEven_intCast, ← hdiv]
  have hq := two_zpow_pos (ulpExp ((m : ℚ) * 2 ^ k))
  field_simp

theorem round32_of_grid (m k : ℤ) (hm2 : |m| < 2 ^ 24) (hk : -149 ≤ k) :
    round32 ((m : ℚ) * 2 ^ k) = (m : ℚ) * 2 ^ k := by
  rcases lt_trichotomy m 0 with h | h | h
  · have hx : (m : ℚ) * 2 ^ k < 0 := mul_neg_of_neg_of_pos (by exact_mod_cast h) (two_zpow_pos k)
    rw [round32_of_neg _ hx]
    have e : -((m : ℚ) * 2 ^ k) = ((-m : ℤ) : ℚ) * 2 ^ k := by push_cast; ring
    rw [e, roundMag_of_grid (-m) k (by omega) (by rw [abs_of_neg h] at hm2; exact hm2) hk]
    push_cast
    ring
  · subst h
    simp [round32_zero]
  · have hx : 0 < (m : ℚ) * 2 ^ k := mul_pos (by exact_mod_cast h) (two_zpow_pos k)
    rw [round32_of_pos _ hx]
    exact roundMag_of_grid m k h (by rw [abs_of_pos h] at hm2; exact hm2) hk

theorem round32_natCast (n : ℕ) (hn : n < 2 ^ 24) : round32 (n : ℚ) = n := by
  have h := round32_of_grid (n : ℤ) 0 (by rw [abs_of_nonneg (by positivity)]; exact_mod_cast hn)
    (by norm_num)
  simpa using h

theorem roundMag_idem (x : ℚ) (hx : 0 < x) : round32 (roundMag x) = roundMag x := by
  have hq := two_zpow_pos (ulpExp x)
  have hm0 : 0 ≤ roundEven (x / 2 ^ ulpExp x) := by
    have h0 : (0 : ℚ) ≤ x / 2 ^ ulpExp x := (div_pos hx hq).le
    have := roundEven_mono h0
    rw [show (0 : ℚ) = ((0 : ℤ) : ℚ) by norm_num, roundEven_intCast] at this
    exact this
  have hm1 : roundEven (x / 2 ^ ulpExp x) ≤ 2 ^ 24 := by
    have hlog : Int.log 2 x + 1 ≤ ulpExp x + 24 := by
      unfold ulpExp
      have := le_max_left (Int.log 2 x) (-126)
      omega
    have hx2 : x < (2 : ℚ) ^ (ulpExp x + 24) :=
      lt_of_lt_of_le (lt_zpow_log_succ x) (zpow_le_zpow_right₀ (by norm_num) hlog)
    have h1 : x / 2 ^ ulpExp x ≤ ((2 ^ 24 : ℤ) : ℚ) := by
      rw [div_le_iff₀ hq]
      push_cast
      rw [zpow_add₀ (by norm_num : (2 : ℚ) ≠ 0)] at hx2
      have : (2 : ℚ) ^ (24 : ℤ) = 2 ^ 24 := by norm_cast
      rw [this] at hx2
      linarith
    have h2 := roundEven_mono h1
    rw [roundEven_intCast] at h2
    exact h2
  unfold roundMag
  rcases hm1.lt_or_eq with hlt | heq
  · exact round32_of_grid _ _ (by rw [abs_of_nonneg hm0]; exact hlt) (ulpExp_ge x)
  · rw [heq]
    have e : ((2 ^ 24 : ℤ) : ℚ) * 2 ^ ulpExp x = ((2 ^ 23 : ℤ) : ℚ) * 2 ^ (ulpExp x + 1) := by
      rw [zpow_add₀ (by norm_num : (2 : ℚ) ≠ 0)]
      push_cast
      ring
    rw [e]
    exact round32_of_grid _ _ (by norm_num) (by have := ulpExp_ge x; omega)

theorem round32_idem (x : ℚ) : round32 (round32 x) = round32 x := by
  rcases lt_trichotomy x 0 with h | h | h
  · rw [round32_of_neg x h, round32_neg, roundMag_idem (-x) (by linarith)]
  · subst h
    rw [round32_zero, round32_zero]
  · rw [round32_of_pos x h, roundMag_idem x h]

theorem lowPass32_lastSysTime (cs : CameraStabSettingsData) (dT : ℚ) (i : Nat)
    (csd : CameraStab_data) : (lowPass32 cs dT i csd).lastSysTime = csd.lastSysTime := by
  simp only [lowPass32]
  split_ifs <;> rfl

theorem lowPass32_inputs (cs : CameraStabSettingsData) (dT : ℚ) (i : Nat)
    (csd : CameraStab_data) : (lowPass32 cs dT i csd).inputs = csd.inputs := by
  simp only [lowPass32]
  split_ifs <;> rfl

theorem lowPass32_filtered_same (cs : CameraStabSettingsData) (dT : ℚ) (i : Nat)
    (csd : CameraStab_data) :
    (lowPass32 cs dT i csd).inputs_filtered i =
      filteredAfter32 cs dT i (csd.inputs_filtered i) (csd.inputs i) := by
  simp only [lowPass32, filteredAfter32]
  by_cases h : round32 (cs.ResponseTime i : ℚ) = 0
  · simp [h]
  · simp [h]

theorem lowPass32_filtered_other (cs : CameraStabSettingsData) (dT : ℚ) (i j : Nat)
    (csd : CameraStab_data) (hj : j ≠ i) :
    (lowPass32 cs dT i csd).inputs_filtered j = csd.inputs_filtered j := by
  simp only [lowPass32]
  split_ifs <;> simp [Function.update_noteq hj]

theorem channelBody32_other (cs : CameraStabSettingsData) (acc : Nat → Option ℚ) (dT : ℚ)
    (i j : Nat) (csd c1 : CameraStab_data) (h : channelBody32 cs acc dT i csd = some c1)
    (hj : j ≠ i) :
    c1.inputs j = csd.inputs j ∧ c1.inputs_filtered j = csd.inputs_filtered j := by
  unfold channelBody32 at h
  split at h
  · cases h; exact ⟨rfl, rfl⟩
  · split at h
    · cases h; exact ⟨rfl, rfl⟩
    · split at h
      · cases h
        simp [lowPass32_inputs, lowPass32_filtered_other _ _ _ _ _ hj,
          Function.update_noteq hj]
      · simp only at h
        split_ifs at h
        · cases h
          simp [lowPass32_inputs, lowPass32_filtered_other _ _ _ _ _ hj,
            Function.update_noteq hj]
        · cases h
          simp [lowPass32_inputs, lowPass32_filtered_other _ _ _ _ _ hj]
      · cases h

theorem channelBody32_lastSysTime (cs : CameraStabSettingsData) (acc : Nat → Option ℚ)
    (dT : ℚ) (i : Nat) (csd c1 : CameraStab_data)
    (h : channelBody32 cs acc dT i csd = some c1) : c1.lastSysTime = csd.lastSysTime := by
  unfold channelBody32 at h
  split at h
  · cases h; rfl
  · split at h
    · cases h; rfl
    · split at h
      · cases h; simp [lowPass32_lastSysTime]
      · simp only at h
        split_ifs at h <;> cases h <;> simp [lowPass32_lastSysTime]
      · cases h

theorem channelBody32_skipped (cs : CameraStabSettingsData) (acc : Nat → Option ℚ) (dT : ℚ)
    (i : Nat) (csd : CameraStab_data) (h : Skipped cs acc i) :
    channelBody32 cs acc dT i csd = some csd := by
  unfold channelBody32
  rcases h with h | ⟨k, hk, ha⟩
  · simp [h]
  · simp [hk, ha]

theorem channelBody32_processed (cs : CameraStabSettingsData) (acc : Nat → Option ℚ)
    (dT : ℚ) (i : Nat) (a : ℚ) (csd : CameraStab_data) (h : Processed cs acc i a) :
    ∃ c1, channelBody32 cs acc dT i csd = some c1 ∧
      c1.inputs i = rawAfter32 cs a dT i (csd.inputs i) ∧
      c1.inputs_filtered i =
        filteredAfter32 cs dT i (csd.inputs_filtered i)
          (rawAfter32 cs a dT i (csd.inputs i)) := by
  obtain ⟨k, hk, ha, hm⟩ := h
  unfold channelBody32 rawAfter32
  rcases hm with hm | hm
  · simp [hk, ha, hm, lowPass32_inputs, lowPass32_filtered_same]
  · simp only [hk, ha, hm]
    split_ifs with h1
    all_goals simp [lowPass32_inputs, lowPass32_filtered_same]

theorem channelLoop32_spec (cs : CameraStabSettingsData) (acc : Nat → Option ℚ) (dT : ℚ) :
    ∀ (remaining start : Nat) (csd csd' : CameraStab_data),
      channelLoop32 cs acc dT start remaining csd = some csd' →
      csd'.lastSysTime = csd.lastSysTime ∧
      (∀ i, (i < start ∨ start + remaining ≤ i) →
        csd'.inputs i = csd.inputs i ∧ csd'.inputs_filtered i = csd.inputs_filtered i) ∧
      (∀ i, start ≤ i → i < start + remaining →
        ∃ c0 c1, c0.inputs i = csd.inputs i ∧ c0.inputs_filtered i = csd.inputs_filtered i ∧
          channelBody32 cs acc dT i c0 = some c1 ∧
          c1.inputs i = csd'.inputs i ∧ c1.inputs_filtered i = csd'.inputs_filtered i) := by
  intro remaining
  induction remaining with
  | zero =>
    intro start csd csd' h
    simp only [channelLoop32, Option.some.injEq] at h
    subst h
    refine ⟨rfl, fun i _ => ⟨rfl, rfl⟩, fun i h1 h2 => ?_⟩
    omega
  | succ n ih =>
    intro start csd csd' h
    simp only [channelLoop32] at h
    cases hb : channelBody32 cs acc dT start csd with
    | none => simp [hb] at h
    | some c1 =>
      simp only [hb] at h
      obtain ⟨ht, hframe, hstep⟩ := ih (start + 1) c1 csd' h
      refine ⟨?_, ?_, ?_⟩
      · rw [ht, channelBody32_lastSysTime cs acc dT start csd c1 hb]
      · intro i hi
        have hne : i ≠ start := by omega
        have h1 := hframe i (by omega)
        have h2 := channelBody32_other cs acc dT start i csd c1 hb hne
        exact ⟨h1.1.trans h2.1, h1.2.trans h2.2⟩
      · intro i hlo hhi
        by_cases hi : i = start
        · subst hi
          have h1 := hframe i (Or.inl (Nat.lt_succ_self i))
          exact ⟨csd, c1, rfl, rfl, hb, h1.1.symm, h1.2.symm⟩
        · obtain ⟨c0, c2, e1, e2, e3, e4, e5⟩ := hstep i (by omega) (by omega)
          have h2 := channelBody32_other cs acc dT start i csd c1 hb hi
          exact ⟨c0, c2, e1.trans h2.1, e2.trans h2.2, e3, e4, e5⟩

theorem channelLoop32_completes (cs : CameraStabSettingsData) (acc : Nat → Option ℚ)
    (dT : ℚ) :
    ∀ (remaining start : Nat) (csd : CameraStab_data),
      (∀ i, start ≤ i → i < start + remaining →
        Skipped cs acc i ∨ ∃ a, Processed cs acc i a) →
      ∃ csd', channelLoop32 cs acc dT start remaining csd = some csd' := by
  intro remaining
  induction remaining with
  | zero =>
    intro start csd _
    exact ⟨csd, rfl⟩
  | succ n ih =>
    intro start csd hall
    have hb : ∃ c1, channelBody32 cs acc dT start csd = some c1 := by
      rcases hall start (le_refl _) (by omega) with hs | ⟨a, hp⟩
      · exact ⟨csd, channelBody32_skipped cs acc dT start csd hs⟩
      · obtain ⟨c1, e, _⟩ := channelBody32_processed cs acc dT start a csd hp
        exact ⟨c1, e⟩
    obtain ⟨c1, hc1⟩ := hb
    obtain ⟨c2, hc2⟩ := ih (start + 1) c1 (fun i h1 h2 => hall i (by omega) (by omega))
    refine ⟨c2, ?_⟩
    simp only [channelLoop32, hc1]
    exact hc2

theorem stateUpdate32_processed (H : Header) (r : Readings) (csd csd' : CameraStab_data)
    (h : stateUpdate32 H r csd = some csd') (i : Nat) (hi : i < H.INPUT_NUMELEM) (a : ℚ)
    (hp : Processed r.cameraStab r.AccessoryDesiredInstGet i a) :
    csd'.inputs i =
        rawAfter32 r.cameraStab a (timeDelta32 H r.thisSysTime csd.lastSysTime) i
          (csd.inputs i) ∧
      csd'.inputs_filtered i =
        filteredAfter32 r.cameraStab (timeDelta32 H r.thisSysTime csd.lastSysTime) i
          (csd.inputs_filtered i)
          (rawAfter32 r.cameraStab a (timeDelta32 H r.thisSysTime csd.lastSysTime) i
            (csd.inputs i)) := by
  obtain ⟨_, _, hstep⟩ := channelLoop32_spec _ _ _ _ _ _ _ h
  obtain ⟨c0, c1, e1, e2, e3, e4, e5⟩ := hstep i (Nat.zero_le i) (by omega)
  obtain ⟨c2, f1, f2, f3⟩ := channelBody32_processed r.cameraStab r.AccessoryDesiredInstGet
    (timeDelta32 H r.thisSysTime csd.lastSysTime) i a c0 hp
  rw [e3] at f1
  cases f1
  rw [← e4, ← e5, f2, f3, e1, e2]
  exact ⟨rfl, rfl⟩

theorem stateUpdate32_skipped (H : Header) (r : Readings) (csd csd' : CameraStab_data)
    (h : stateUpdate32 H r csd = some csd') (i : Nat)
    (hs : Skipped r.cameraStab r.AccessoryDesiredInstGet i) :
    csd'.inputs i = csd.inputs i ∧ csd'.inputs_filtered i = csd.inputs_filtered i := by
  obtain ⟨_, hframe, hstep⟩ := channelLoop32_spec _ _ _ _ _ _ _ h
  by_cases hi : i < H.INPUT_NUMELEM
  · obtain ⟨c0, c1, e1, e2, e3, e4, e5⟩ := hstep i (Nat.zero_le i) (by omega)
    rw [channelBody32_skipped _ _ _ _ _ hs] at e3
    cases e3
    exact ⟨e4.symm.trans e1, e5.symm.trans e2⟩
  · exact hframe i (Or.inr (by omega))

theorem stateUpdate32_outside (H : Header) (r : Readings) (csd csd' : CameraStab_data)
    (h : stateUpdate32 H r csd = some csd') (i : Nat) (hi : H.INPUT_NUMELEM ≤ i) :
    csd'.inputs i = csd.inputs i ∧ csd'.inputs_filtered i = csd.inputs_filtered i := by
  obtain ⟨_, hframe, _⟩ := channelLoop32_spec _ _ _ _ _ _ _ h
  exact hframe i (Or.inr (by omega))

theorem stateUpdate32_lastSysTime (H : Header) (r : Readings) (csd csd' : CameraStab_data)
    (h : stateUpdate32 H r csd = some csd') : csd'.lastSysTime = r.thisSysTime := by
  obtain ⟨ht, _, _⟩ := channelLoop32_spec _ _ _ _ _ _ _ h
  exact ht

theorem stateUpdate32_completes (H : Header) (r : Readings) (csd : CameraStab_data)
    (hall : ∀ i, i < H.INPUT_NUMELEM →
      Skipped r.cameraStab r.AccessoryDesiredInstGet i ∨
        ∃ a, Processed r.cameraStab r.AccessoryDesiredInstGet i a) :
    ∃ csd', stateUpdate32 H r csd = some csd' :=
  channelLoop32_completes r.cameraStab r.AccessoryDesiredInstGet
    (timeDelta32 H r.thisSysTime csd.lastSysTime) H.INPUT_NUMELEM 0
    { csd with lastSysTime := r.thisSysTime } (fun i _ h2 => hall i (by omega))

theorem channel0_completes32 (m : StabMode) (rt now : Nat) (a att : ℚ) (csd : CameraStab_data)
    (hm : m = StabMode.ATTITUDE ∨ m = StabMode.AXISLOCK) :
    ∃ csd', stateUpdate32 stdHeader (readingsOf (channel0Settings m rt) now a att) csd
      = some csd' := by
  apply stateUpdate32_completes
  intro i _
  by_cases hi : i = 0
  · subst hi
    exact Or.inr ⟨a, channel0_processed m rt now a att hm⟩
  · exact Or.inl (Or.inl (by simp [readingsOf, channel0Settings, hi]))

theorem timeDelta32_nonneg (H : Header) (t l : Nat) : 0 ≤ timeDelta32 H t l := by
  unfold timeDelta32 SAMPLE_PERIOD_MS
  split_ifs
  · exact round32_nonneg _ (Nat.cast_nonneg _)
  · exact round32_nonneg _ (by norm_num)

theorem timeDelta32_idem (H : Header) (t l : Nat) :
    round32 (timeDelta32 H t l) = timeDelta32 H t l := by
  unfold timeDelta32
  split_ifs <;> exact round32_idem _

theorem round32_one : round32 1 = 1 := by
  have := round32_natCast 1 (by norm_num)
  simpa using this

/-- Rounding analysis of the low-pass blend: with the response time `A ≥ 1` and
the time delta `D ≥ 0` binary32 numbers, the two computed weights lie in
`[0, 1]`, their sum is within `2 ^ (-22) + 2 ^ (-148)` of 1, and the computed
blend is within `max |f| |x| / 2 ^ 21 + 2 ^ (-148)` of the exact blend. -/
theorem blend32_near (A D f x : ℚ) (hA1 : 1 ≤ A) (hA : round32 A = A) (hD0 : 0 ≤ D)
    (hD : round32 D = D) :
    0 ≤ round32 (A / round32 (A + D)) ∧ round32 (A / round32 (A + D)) ≤ 1 ∧
      0 ≤ round32 (D / round32 (A + D)) ∧ round32 (D / round32 (A + D)) ≤ 1 ∧
      |round32 (A / round32 (A + D)) + round32 (D / round32 (A + D)) - 1| ≤
        1 / 2 ^ 22 + 1 / 2 ^ 148 ∧
      |round32 (round32 (round32 (A / round32 (A + D)) * f)
          + round32 (round32 (D / round32 (A + D)) * x))
        - (A / (A + D) * f + D / (A + D) * x)| ≤ max |f| |x| / 2 ^ 21 + 1 / 2 ^ 148 := by
  have hS : 1 ≤ A + D := by linarith
  have hS0 : 0 < A + D := by linarith
  have hsA : A ≤ round32 (A + D) := by
    have := round32_mono (show A ≤ A + D by linarith)
    rwa [hA] at this
  have hsD : D ≤ round32 (A + D) := by
    have := round32_mono (show D ≤ A + D by linarith)
    rwa [hD] at this
  have hes := (round32_err (A + D)).1
  rw [abs_of_pos hS0] at hes
  generalize round32 (A + D) = s at hsA hsD hes ⊢
  have hs0 : 0 < s := by linarith
  have hAs0 : 0 ≤ A / s := div_nonneg (by linarith) hs0.le
  have hAs1 : A / s ≤ 1 := (div_le_one hs0).mpr hsA
  have hDs0 : 0 ≤ D / s := div_nonneg hD0 hs0.le
  have hDs1 : D / s ≤ 1 := (div_le_one hs0).mpr hsD
  have hrel : |(A + D) - s| / (A + D) ≤ 1 / 2 ^ 24 + 1 / 2 ^ 150 := by
    rw [div_le_iff₀ hS0, abs_sub_comm]
    have h150 : (0 : ℚ) ≤ 1 / 2 ^ 150 := by positivity
    have : (1 : ℚ) / 2 ^ 150 ≤ 1 / 2 ^ 150 * (A + D) := le_mul_of_one_le_right h150 hS
    linarith
  have hrel0 : 0 ≤ |(A + D) - s| / (A + D) := div_nonneg (abs_nonneg _) hS0.le
  have hqA : |A / s - A / (A + D)| ≤ 1 / 2 ^ 24 + 1 / 2 ^ 150 := by
    have key : A / s - A / (A + D) = A / s * (((A + D) - s) / (A + D)) := by
      field_simp
      ring
    rw [key, abs_mul, abs_of_nonneg hAs0, abs_div, abs_of_pos hS0]
    calc A / s * (|(A + D) - s| / (A + D)) ≤ 1 * (|(A + D) - s| / (A + D)) :=
          mul_le_mul_of_nonneg_right hAs1 hrel0
      _ ≤ 1 / 2 ^ 24 + 1 / 2 ^ 150 := by rw [one_mul]; exact hrel
  have hqD : |D / s - D / (A + D)| ≤ 1 / 2 ^ 24 + 1 / 2 ^ 150 := by
    have key : D / s - D / (A + D) = D / s * (((A + D) - s) / (A + D)) := by
      field_simp
      ring
    rw [key, abs_mul, abs_of_nonneg hDs0, abs_div, abs_of_pos hS0]
    calc D / s * (|(A + D) - s| / (A + D)) ≤ 1 * (|(A + D) - s| / (A + D)) :=
          mul_le_mul_of_nonneg_right hDs1 hrel0
      _ ≤ 1 / 2 ^ 24 + 1 / 2 ^ 150 := by rw [one_mul]; exact hrel
  have hW1a : 0 ≤ round32 (A / s) := round32_nonneg _ hAs0
  have hW1b : round32 (A / s) ≤ 1 := by
    have := round32_mono hAs1
    rwa [round32_one] at this
  have hW2a : 0 ≤ round32 (D / s) := round32_nonneg _ hDs0
  have hW2b : round32 (D / s) ≤ 1 := by
    have := round32_mono hDs1
    rwa [round32_one] at this
  have heW1 := (round32_err (A / s)).1
  rw [abs_of_nonneg hAs0] at heW1
  have heW2 := (round32_err (D / s)).1
  rw [abs_of_nonneg hDs0] at heW2
  generalize round32 (A / s) = W1 at hW1a hW1b heW1 ⊢
  generalize round32 (D / s) = W2 at hW2a hW2b heW2 ⊢
  have hd1 : |W1 - A / (A + D)| ≤ 2 / 2 ^ 24 + 2 / 2 ^ 150 := by
    have : W1 - A / (A + D) = (W1 - A / s) + (A / s - A / (A + D)) := by ring
    rw [this]
    have h24 : A / s / 2 ^ 24 ≤ 1 / 2 ^ 24 := div_le_div_of_nonneg_right hAs1 (by norm_num)
    calc |(W1 - A / s) + (A / s - A / (A + D))| ≤ |W1 - A / s| + |A / s - A / (A + D)| :=
          abs_add _ _
      _ ≤ 2 / 2 ^ 24 + 2 / 2 ^ 150 := by linarith
  have hd2 : |W2 - D / (A + D)| ≤ 2 / 2 ^ 24 + 2 / 2 ^ 150 := by
    have : W2 - D / (A + D) = (W2 - D / s) + (D / s - D / (A + D)) := by ring
    rw [this]
    have h24 : D / s / 2 ^ 24 ≤ 1 / 2 ^ 24 := div_le_div_of_nonneg_right hDs1 (by norm_num)
    calc |(W2 - D / s) + (D / s - D / (A + D))| ≤ |W2 - D / s| + |D / s - D / (A + D)| :=
          abs_add _ _
      _ ≤ 2 / 2 ^ 24 + 2 / 2 ^ 150 := by linarith
  have hw1 : 0 ≤ A / (A + D) := div_nonneg (by linarith) hS0.le
  have hw2 : 0 ≤ D / (A + D) := div_nonneg hD0 hS0.le
  have hwsum : A / (A + D) + D / (A + D) = 1 := by
    rw [← add_div, div_self hS0.ne']
  generalize A / (A + D) = w1 at hd1 hw1 hwsum ⊢
  generalize D / (A + D) = w2 at hd2 hw2 hwsum ⊢
  refine ⟨hW1a, hW1b, hW2a, hW2b, ?_, ?_⟩
  · have : W1 + W2 - 1 = (W1 - w1) + (W2 - w2) := by rw [← hwsum]; ring
    rw [this]
    calc |(W1 - w1) + (W2 - w2)| ≤ |W1 - w1| + |W2 - w2| := abs_add _ _
      _ ≤ 1 / 2 ^ 22 + 1 / 2 ^ 148 := by
          have e1 : (1 : ℚ) / 2 ^ 22 = 4 / 2 ^ 24 := by norm_num
          have e2 : (1 : ℚ) / 2 ^ 148 = 4 / 2 ^ 150 := by norm_num
          rw [e1, e2]
          linarith
  · have hfM : |f| ≤ max |f| |x| := le_max_left _ _
    have hxM : |x| ≤ max |f| |x| := le_max_right _ _
    have hM0 : 0 ≤ max |f| |x| := le_trans (abs_nonneg f) hfM
    generalize max |f| |x| = M at hfM hxM hM0 ⊢
    have ht1 := (round32_err (W1 * f)).1
    have ht2 := (round32_err (W2 * x)).1
    have hW1f : |W1 * f| ≤ M := by
      rw [abs_mul, abs_of_nonneg hW1a]
      calc W1 * |f| ≤ 1 * |f| := mul_le_mul_of_nonneg_right hW1b (abs_nonneg f)
        _ ≤ M := by rw [one_mul]; exact hfM
    have hW2x : |W2 * x| ≤ M := by
      rw [abs_mul, abs_of_nonneg hW2a]
      calc W2 * |x| ≤ 1 * |x| := mul_le_mul_of_nonneg_right hW2b (abs_nonneg x)
        _ ≤ M := by rw [one_mul]; exact hxM
    have hp1 : |W1 * f - w1 * f| ≤ (2 / 2 ^ 24 + 2 / 2 ^ 150) * M := by
      rw [← sub_mul, abs_mul]
      exact mul_le_mul hd1 hfM (abs_nonneg f) (by positivity)
    have hp2 : |W2 * x - w2 * x| ≤ (2 / 2 ^ 24 + 2 / 2 ^ 150) * M := by
      rw [← sub_mul, abs_mul]
      exact mul_le_mul hd2 hxM (abs_nonneg x) (by positivity)
    have hB : |w1 * f + w2 * x| ≤ M := by
      calc |w1 * f + w2 * x| ≤ |w1 * f| + |w2 * x| := abs_add _ _
        _ = w1 * |f| + w2 * |x| := by
            rw [abs_mul, abs_mul, abs_of_nonneg hw1, abs_of_nonneg hw2]
        _ ≤ w1 * M + w2 * M :=
            add_le_add (mul_le_mul_of_nonneg_left hfM hw1) (mul_le_mul_of_nonneg_left hxM hw2)
        _ = M := by rw [← add_mul, hwsum, one_mul]
    generalize round32 (W1 * f) = t1 at ht1 ⊢
    generalize round32 (W2 * x) = t2 at ht2 ⊢
    have h24 : (0 : ℚ) < 2 ^ 24 := by norm_num
    have ha1 : |W1 * f| / 2 ^ 24 ≤ M / 2 ^ 24 := div_le_div_of_nonneg_right hW1f h24.le
    have ha2 : |W2 * x| / 2 ^ 24 ≤ M / 2 ^ 24 := div_le_div_of_nonneg_right hW2x h24.le
    have hT : |(t1 + t2) - (w1 * f + w2 * x)| ≤
        2 * (M / 2 ^ 24) + 2 * (1 / 2 ^ 150) + 2 * ((2 / 2 ^ 24 + 2 / 2 ^ 150) * M) := by
      have : (t1 + t2) - (w1 * f + w2 * x) =
          (t1 - W1 * f) + (W1 * f - w1 * f) + ((t2 - W2 * x) + (W2 * x - w2 * x)) := by ring
      rw [this]
      calc |(t1 - W1 * f) + (W1 * f - w1 * f) + ((t2 - W2 * x) + (W2 * x - w2 * x))|
          ≤ |(t1 - W1 * f) + (W1 * f - w1 * f)| + |(t2 - W2 * x) + (W2 * x - w2 * x)| :=
            abs_add _ _
        _ ≤ (|t1 - W1 * f| + |W1 * f - w1 * f|) + (|t2 - W2 * x| + |W2 * x - w2 * x|) :=
            add_le_add (abs_add _ _) (abs_add _ _)
        _ ≤ _ := by linarith
    have hTabs : |t1 + t2| ≤ M +
        (2 * (M / 2 ^ 24) + 2 * (1 / 2 ^ 150) + 2 * ((2 / 2 ^ 24 + 2 / 2 ^ 150) * M)) := by
      have : t1 + t2 = (w1 * f + w2 * x) + ((t1 + t2) - (w1 * f + w2 * x)) := by ring
      rw [this]
      calc |(w1 * f + w2 * x) + ((t1 + t2) - (w1 * f + w2 * x))|
          ≤ |w1 * f + w2 * x| + |(t1 + t2) - (w1 * f + w2 * x)| := abs_add _ _
        _ ≤ _ := add_le_add hB hT
    have hnew := (round32_err (t1 + t2)).1
    generalize round32 (t1 + t2) = new at hnew ⊢
    have hat : |t1 + t2| / 2 ^ 24 ≤ (M +
        (2 * (M / 2 ^ 24) + 2 * (1 / 2 ^ 150) + 2 * ((2 / 2 ^ 24 + 2 / 2 ^ 150) * M))) / 2 ^ 24 :=
      div_le_div_of_nonneg_right hTabs h24.le
    have : new - (w1 * f + w2 * x) = (new - (t1 + t2)) + ((t1 + t2) - (w1 * f + w2 * x)) := by
      ring
    rw [this]
    calc |(new - (t1 + t2)) + ((t1 + t2) - (w1 * f + w2 * x))|
        ≤ |new - (t1 + t2)| + |(t1 + t2) - (w1 * f + w2 * x)| := abs_add _ _
      _ ≤ M / 2 ^ 21 + 1 / 2 ^ 148 := by
          norm_num at hnew hT hat ⊢
          linarith

theorem channelBody32_none_of_badMode (cs : CameraStabSettingsData) (acc : Nat → Option ℚ)
    (dT : ℚ) (i : Nat) (csd : CameraStab_data) (h : BadMode cs acc i) :
    channelBody32 cs acc dT i csd = none := by
  obtain ⟨k, a, raw, hk, ha, hraw⟩ := h
  unfold channelBody32
  simp [hk, ha, hraw]

theorem channelLoop32_none_of_badMode (cs : CameraStabSettingsData) (acc : Nat → Option ℚ)
    (dT : ℚ) :
    ∀ (remaining start : Nat) (csd : CameraStab_data) (i : Nat),
      start ≤ i → i < start + remaining → BadMode cs acc i →
      channelLoop32 cs acc dT start remaining csd = none := by
  intro remaining
  induction remaining with
  | zero =>
    intro start csd i h1 h2 _
    omega
  | succ n ih =>
    intro start csd i h1 h2 hbad
    simp only [channelLoop32]
    cases hb : channelBody32 cs acc dT start csd with
    | none => rfl
    | some c1 =>
      have hne : i ≠ start := by
        intro he
        subst he
        rw [channelBody32_none_of_badMode cs acc dT i csd hbad] at hb
        cases hb
      exact ih (start + 1) c1 i (by omega) (by omega) hbad

theorem stateUpdate32_not_badMode (H : Header) (r : Readings) (csd csd' : CameraStab_data)
    (h : stateUpdate32 H r csd = some csd') (i : Nat) (hi : i < H.INPUT_NUMELEM) :
    ¬ BadMode r.cameraStab r.AccessoryDesiredInstGet i := by
  intro hb
  unfold stateUpdate32 at h
  rw [channelLoop32_none_of_badMode _ _ _ H.INPUT_NUMELEM 0 _ i (Nat.zero_le i) (by omega) hb]
    at h
  cases h

theorem rawAfter32_abs_le (cs : CameraStabSettingsData) (a dT : ℚ) (i : Nat) (x : ℚ)
    (ha : |a| ≤ 1) (hR : 0 ≤ cs.InputRange i)
    (hR32 : round32 (cs.InputRange i) = cs.InputRange i) (hx : |x| ≤ cs.InputRange i) :
    |rawAfter32 cs a dT i x| ≤ cs.InputRange i := by
  unfold rawAfter32
  split
  · obtain ⟨a1, a2⟩ := abs_le.mp ha
    have h1 : a * cs.InputRange i ≤ cs.InputRange i := by nlinarith
    have h2 : -cs.InputRange i ≤ a * cs.InputRange i := by nlinarith
    have m1 := round32_mono h1
    have m2 := round32_mono h2
    rw [hR32] at m1
    rw [round32_neg, hR32] at m2
    exact abs_le.mpr ⟨m2, m1⟩
  · split_ifs
    · exact abs_le.mpr (bound_rat_mem _ _ hR)
    · exact hx
  · exact hx

theorem filteredAfter32_of_zero (cs : CameraStabSettingsData) (dT : ℚ) (i : Nat) (f x : ℚ)
    (h0 : cs.ResponseTime i = 0) : filteredAfter32 cs dT i f x = x := by
  unfold filteredAfter32
  rw [h0, Nat.cast_zero, round32_zero, if_pos rfl]

theorem range_step32 (H : Header) (r : Readings) (csd csd' : CameraStab_data)
    (h : stateUpdate32 H r csd = some csd') (i : Nat)
    (hR : 0 ≤ r.cameraStab.InputRange i)
    (hR32 : round32 (r.cameraStab.InputRange i) = r.cameraStab.InputRange i)
    (hacc : ∀ k a, r.AccessoryDesiredInstGet k = some a → |a| ≤ 1)
    (hx : |csd.inputs i| ≤ r.cameraStab.InputRange i)
    (hf : r.cameraStab.ResponseTime i = 0 →
      |csd.inputs_filtered i| ≤ r.cameraStab.InputRange i) :
    |csd'.inputs i| ≤ r.cameraStab.InputRange i ∧
      (r.cameraStab.ResponseTime i = 0 →
        |csd'.inputs_filtered i| ≤ r.cameraStab.InputRange i) := by
  by_cases hi : i < H.INPUT_NUMELEM
  · rcases skipped_or_processed_of_not_badMode _ _ i
      (stateUpdate32_not_badMode H r csd csd' h i hi) with hs | ⟨a, hp⟩
    · obtain ⟨e1, e2⟩ := stateUpdate32_skipped H r csd csd' h i hs
      rw [e1, e2]
      exact ⟨hx, hf⟩
    · obtain ⟨e1, e2⟩ := stateUpdate32_processed H r csd csd' h i hi a hp
      obtain ⟨k, _, hk, _⟩ := hp
      have hraw := rawAfter32_abs_le r.cameraStab a
        (timeDelta32 H r.thisSysTime csd.lastSysTime) i (csd.inputs i) (hacc k a hk) hR hR32 hx
      rw [e1, e2]
      refine ⟨hraw, fun h0 => ?_⟩
      rw [filteredAfter32_of_zero _ _ _ _ _ h0]
      exact hraw
  · obtain ⟨e1, e2⟩ := stateUpdate32_outside H r csd csd' h i (not_lt.mp hi)
    rw [e1, e2]
    exact ⟨hx, hf⟩

/-- C14, as amended: in binary32 arithmetic, under a fixed configuration, for a
channel whose input range is a non-negative binary32 number, with every fetched
accessory value in `[-1, 1]`, starting from the zeroed state, after any number
of completed updates the raw input of the channel is within the input range in
absolute value, and so is the filtered input when the response time of the
channel is 0. -/
theorem raw_within_range32 (H : Header) (r : Nat → Readings) (s : Nat → CameraStab_data)
    (cs : CameraStabSettingsData) (now : Nat)
    (hinit : s 0 = initialData now)
    (hrun : ∀ n, stateUpdate32 H (r n) (s n) = some (s (n + 1)))
    (hcfg : ∀ n, (r n).cameraStab = cs)
    (hacc : ∀ n k a, (r n).AccessoryDesiredInstGet k = some a → |a| ≤ 1)
    (i : Nat) (hR : 0 ≤ cs.InputRange i) (hR32 : round32 (cs.InputRange i) = cs.InputRange i)
    (n : Nat) :
    |(s n).inputs i| ≤ cs.InputRange i ∧
      (cs.ResponseTime i = 0 → |(s n).inputs_filtered i| ≤ cs.InputRange i) := by
  induction n with
  | zero =>
    rw [hinit]
    simp only [initialData, abs_zero]
    exact ⟨hR, fun _ => hR⟩
  | succ m ih =>
    have hstep := range_step32 H (r m) (s m) (s (m + 1)) (hrun m) i
    rw [hcfg m] at hstep
    exact hstep hR hR32 (hacc m) ih.1 ih.2

theorem slew32 (x ir dT R : ℚ) (hx : |x| ≤ R) (hx32 : round32 x = x) (hR32 : round32 R = R)
    (hdT : 0 ≤ dT) :
    |bound (round32 (x + round32 (round32 (ir * dT) / 1000))) R - x| ≤
        (1 + 1 / 2 ^ 24) ^ 2 * (|ir| * (dT / 1000)) + R / 2 ^ 24 + 1 / 2 ^ 148 ∧
      (0 ≤ ir → x ≤ bound (round32 (x + round32 (round32 (ir * dT) / 1000))) R) ∧
      (ir ≤ 0 → bound (round32 (x + round32 (round32 (ir * dT) / 1000))) R ≤ x) := by
  obtain ⟨x1, x2⟩ := abs_le.mp hx
  have hR0 : 0 ≤ R := le_trans (abs_nonneg x) hx
  have hp := (round32_err (ir * dT)).1
  have hpsign1 : 0 ≤ ir → 0 ≤ round32 (ir * dT) :=
    fun h => round32_nonneg _ (mul_nonneg h hdT)
  have hpsign2 : ir ≤ 0 → round32 (ir * dT) ≤ 0 :=
    fun h => round32_nonpos _ (mul_nonpos_of_nonpos_of_nonneg h hdT)
  have hpabs : |ir * dT| = |ir| * dT := by rw [abs_mul, abs_of_nonneg hdT]
  rw [hpabs] at hp
  generalize round32 (ir * dT) = p at hp hpsign1 hpsign2
  have hpb : |p| ≤ |ir| * dT + |ir| * dT / 2 ^ 24 + 1 / 2 ^ 150 := by
    have : p = (p - ir * dT) + ir * dT := by ring
    rw [this]
    calc |(p - ir * dT) + ir * dT| ≤ |p - ir * dT| + |ir * dT| := abs_add _ _
      _ ≤ _ := by rw [hpabs]; linarith
  have hd := (round32_err (p / 1000)).1
  have hdsign1 : 0 ≤ ir → 0 ≤ round32 (p / 1000) :=
    fun h => round32_nonneg _ (div_nonneg (hpsign1 h) (by norm_num))
  have hdsign2 : ir ≤ 0 → round32 (p / 1000) ≤ 0 :=
    fun h => round32_nonpos _ (div_nonpos_of_nonpos_of_nonneg (hpsign2 h) (by norm_num))
  have hp1000 : |p / 1000| = |p| / 1000 := by rw [abs_div]; norm_num
  rw [hp1000] at hd
  generalize round32 (p / 1000) = d at hd hdsign1 hdsign2
  have hdb : |d| ≤ (1 + 1 / 2 ^ 24) ^ 2 * (|ir| * (dT / 1000)) + 3 / 2 ^ 150 := by
    have : d = (d - p / 1000) + p / 1000 := by ring
    rw [this]
    have hnn : 0 ≤ |ir| * dT := mul_nonneg (abs_nonneg _) hdT
    calc |(d - p / 1000) + p / 1000| ≤ |d - p / 1000| + |p / 1000| := abs_add _ _
      _ ≤ _ := by
          rw [hp1000]
          norm_num at hd hpb ⊢
          linarith
  have hy := (round32_err (x + d)).2
  have hmono1 : 0 ≤ d → x ≤ round32 (x + d) := fun h => by
    have := round32_mono (show x ≤ x + d by linarith)
    rwa [hx32] at this
  have hmono2 : d ≤ 0 → round32 (x + d) ≤ x := fun h => by
    have := round32_mono (show x + d ≤ x by linarith)
    rwa [hx32] at this
  have hclampHi : R < round32 (x + d) → R < x + d := fun h => by
    by_contra hc
    have := round32_mono (not_lt.mp hc)
    rw [hR32] at this
    linarith
  have hclampLo : round32 (x + d) < -R → x + d < -R := fun h => by
    by_contra hc
    have := round32_mono (not_lt.mp hc)
    rw [round32_neg, hR32] at this
    linarith
  generalize round32 (x + d) = y at hy hmono1 hmono2 hclampHi hclampLo
  have hdle := le_abs_self d
  have hdge := neg_abs_le d
  rw [bound_rat]
  split_ifs with c1 c2
  · have := hclampHi c1
    refine ⟨?_, fun _ => x2, fun h => ?_⟩
    · rw [abs_of_nonneg (by linarith)]
      have h148 : (3 : ℚ) / 2 ^ 150 ≤ 1 / 2 ^ 148 := by norm_num
      have : 0 ≤ R / 2 ^ 24 := by positivity
      linarith
    · have := hmono2 (hdsign2 h)
      linarith
  · have := hclampLo c2
    refine ⟨?_, fun h => ?_, fun _ => x1⟩
    · rw [abs_of_nonpos (by linarith)]
      have h148 : (3 : ℚ) / 2 ^ 150 ≤ 1 / 2 ^ 148 := by norm_num
      have : 0 ≤ R / 2 ^ 24 := by positivity
      linarith
    · have := hmono1 (hdsign1 h)
      linarith
  · refine ⟨?_, fun h => hmono1 (hdsign1 h), fun h => hmono2 (hdsign2 h)⟩
    have hyR : |y| ≤ R := abs_le.mpr ⟨not_lt.mp c2, not_lt.mp c1⟩
    have hyR24 : |y| / 2 ^ 24 ≤ R / 2 ^ 24 := div_le_div_of_nonneg_right hyR (by norm_num)
    have : y - x = (y - (x + d)) + d := by ring
    rw [this]
    calc |(y - (x + d)) + d| ≤ |y - (x + d)| + |d| := abs_add _ _
      _ ≤ _ := by
          norm_num at hy hdb hyR24 ⊢
          linarith

/-- C15, as amended: in binary32 arithmetic, for a channel processed in AxisLock
mode whose previous raw input is a binary32 number within the input range (a
binary32 number too), with `ir` the computed input rate and `dT` the time
delta the code computes, one update changes the raw input by at most
`(1 + 2 ^ (-24)) ^ 2 * |ir| * dT / 1000 + input_range / 2 ^ 24 + 2 ^ (-148)`, and
it does not move the raw input against the sign of the input rate. -/
theorem axisLock_slew32 (H : Header) (r : Readings) (csd csd' : CameraStab_data)
    (h : stateUpdate32 H r csd = some csd')
    (i : Nat) (hi : i < H.INPUT_NUMELEM) (a : ℚ)
    (hp : Processed r.cameraStab r.AccessoryDesiredInstGet i a)
    (hm : r.cameraStab.StabilizationMode i = StabMode.AXISLOCK)
    (hprev : |csd.inputs i| ≤ r.cameraStab.InputRange i)
    (hx32 : round32 (csd.inputs i) = csd.inputs i)
    (hR32 : round32 (r.cameraStab.InputRange i) = r.cameraStab.InputRange i)
    (ir : ℚ) (hir : round32 (a * r.cameraStab.InputRate i) = ir)
    (dT : ℚ) (hdT : timeDelta32 H r.thisSysTime csd.lastSysTime = dT)
    (_hfin : |ir| * dT ≤ 2 ^ 126) :
    |csd'.inputs i - csd.inputs i| ≤
        (1 + 1 / 2 ^ 24) ^ 2 * (|ir| * (dT / 1000)) + r.cameraStab.InputRange i / 2 ^ 24 +
          1 / 2 ^ 148 ∧
      (0 ≤ a * r.cameraStab.InputRate i → csd.inputs i ≤ csd'.inputs i) ∧
      (a * r.cameraStab.InputRate i ≤ 0 → csd'.inputs i ≤ csd.inputs i) := by
  obtain ⟨e1, _⟩ := stateUpdate32_processed H r csd csd' h i hi a hp
  have hd0 : 0 ≤ dT := hdT ▸ timeDelta32_nonneg H _ _
  have hR0 : 0 ≤ r.cameraStab.InputRange i := le_trans (abs_nonneg _) hprev
  simp only [rawAfter32, hm, hir, hdT] at e1
  have hs1 : 0 ≤ a * r.cameraStab.InputRate i → 0 ≤ ir := fun h0 => hir ▸ round32_nonneg _ h0
  have hs2 : a * r.cameraStab.InputRate i ≤ 0 → ir ≤ 0 := fun h0 => hir ▸ round32_nonpos _ h0
  split_ifs at e1 with hrate
  · obtain ⟨b1, b2, b3⟩ := slew32 (csd.inputs i) ir dT (r.cameraStab.InputRange i) hprev hx32
      hR32 hd0
    rw [← e1] at b1 b2 b3
    exact ⟨b1, fun h0 => b2 (hs1 h0), fun h0 => b3 (hs2 h0)⟩
  · rw [e1, sub_self, abs_zero]
    refine ⟨?_, fun _ => le_refl _, fun _ => le_refl _⟩
    have h1 : 0 ≤ dT / 1000 := div_nonneg hd0 (by norm_num)
    have h2 : 0 ≤ |ir| * (dT / 1000) := mul_nonneg (abs_nonneg _) h1
    have h3 : 0 ≤ r.cameraStab.InputRange i / 2 ^ 24 := div_nonneg hR0 (by norm_num)
    have h4 : (0 : ℚ) ≤ 1 / 2 ^ 148 := by norm_num
    have h5 : (0 : ℚ) ≤ (1 + 1 / 2 ^ 24) ^ 2 := sq_nonneg _
    exact add_nonneg (add_nonneg (mul_nonneg h5 h2) h3) h4

theorem convex_between (w1 w2 f x : ℚ) (h1 : 0 ≤ w1) (h2 : 0 ≤ w2) (hs : w1 + w2 = 1) :
    min f x ≤ w1 * f + w2 * x ∧ w1 * f + w2 * x ≤ max f x := by
  constructor
  · calc min f x = (w1 + w2) * min f x := by rw [hs, one_mul]
      _ = w1 * min f x + w2 * min f x := by ring
      _ ≤ w1 * f + w2 * x :=
          add_le_add (mul_le_mul_of_nonneg_left (min_le_left f x) h1)
            (mul_le_mul_of_nonneg_left (min_le_right f x) h2)
  · calc w1 * f + w2 * x ≤ w1 * max f x + w2 * max f x :=
          add_le_add (mul_le_mul_of_nonneg_left (le_max_left f x) h1)
            (mul_le_mul_of_nonneg_left (le_max_right f x) h2)
      _ = (w1 + w2) * max f x := by ring
      _ = max f x := by rw [hs, one_mul]

theorem filteredAfter32_eq (cs : CameraStabSettingsData) (dT : ℚ) (i : Nat) (f x : ℚ)
    (rt : Nat) (hrt : cs.ResponseTime i = rt) (hpos : 0 < rt) (hrt24 : rt < 2 ^ 24) :
    filteredAfter32 cs dT i f x =
      round32 (round32 (round32 ((rt : ℚ) / round32 ((rt : ℚ) + dT)) * f)
        + round32 (round32 (dT / round32 ((rt : ℚ) + dT)) * x)) := by
  unfold filteredAfter32
  rw [hrt, round32_natCast rt hrt24]
  have hne : (rt : ℚ) ≠ 0 := by
    have : (0 : ℚ) < rt := by exact_mod_cast hpos
    exact this.ne'
  rw [if_neg hne]

/-- C9, as amended: in binary32 arithmetic, for a channel processed in a cycle
with response time `rt > 0`, the time delta is not negative, each of the two
computed weights lies in `[0, 1]`, their sum is within `2 ^ (-22) + 2 ^ (-148)`
of 1, the new filtered input is the rounded blend of the previous filtered input
and the cycle's raw input with these weights, and it lies between the smaller
and the larger of the two up to `max |filtered| |raw| / 2 ^ 21 + 2 ^ (-148)`. -/
theorem lowPass32_blend (H : Header) (r : Readings) (csd csd' : CameraStab_data)
    (h : stateUpdate32 H r csd = some csd')
    (i : Nat) (hi : i < H.INPUT_NUMELEM) (a : ℚ)
    (hp : Processed r.cameraStab r.AccessoryDesiredInstGet i a)
    (rt : Nat) (hrt : r.cameraStab.ResponseTime i = rt) (hpos : 0 < rt) (hrt24 : rt < 2 ^ 24)
    (dT : ℚ) (hdT : timeDelta32 H r.thisSysTime csd.lastSysTime = dT)
    (W1 W2 : ℚ) (hW1 : W1 = round32 ((rt : ℚ) / round32 ((rt : ℚ) + dT)))
    (hW2 : W2 = round32 (dT / round32 ((rt : ℚ) + dT)))
    (_hfin : max |csd.inputs_filtered i| |csd'.inputs i| ≤ 2 ^ 126) :
    0 ≤ dT ∧ 0 ≤ W1 ∧ W1 ≤ 1 ∧ 0 ≤ W2 ∧ W2 ≤ 1 ∧
      |W1 + W2 - 1| ≤ 1 / 2 ^ 22 + 1 / 2 ^ 148 ∧
      csd'.inputs_filtered i =
        round32 (round32 (W1 * csd.inputs_filtered i) + round32 (W2 * csd'.inputs i)) ∧
      min (csd.inputs_filtered i) (csd'.inputs i) -
          (max |csd.inputs_filtered i| |csd'.inputs i| / 2 ^ 21 + 1 / 2 ^ 148) ≤
        csd'.inputs_filtered i ∧
      csd'.inputs_filtered i ≤
        max (csd.inputs_filtered i) (csd'.inputs i) +
          (max |csd.inputs_filtered i| |csd'.inputs i| / 2 ^ 21 + 1 / 2 ^ 148) := by
  obtain ⟨e1, e2⟩ := stateUpdate32_processed H r csd csd' h i hi a hp
  rw [← e1, hdT, filteredAfter32_eq _ _ _ _ _ rt hrt hpos hrt24, ← hW1, ← hW2] at e2
  have hd : 0 ≤ dT := hdT ▸ timeDelta32_nonneg H _ _
  have hD32 : round32 dT = dT := hdT ▸ timeDelta32_idem H _ _
  have hA1 : (1 : ℚ) ≤ rt := by exact_mod_cast hpos
  obtain ⟨b1, b2, b3, b4, b5, b6⟩ := blend32_near (rt : ℚ) dT (csd.inputs_filtered i)
    (csd'.inputs i) hA1 (round32_natCast rt hrt24) hd hD32
  rw [← hW1, ← hW2, ← e2] at b6
  rw [← hW1] at b1 b2
  rw [← hW2] at b3 b4
  rw [← hW1, ← hW2] at b5
  have hS0 : (0 : ℚ) < rt + dT := by linarith
  obtain ⟨c1, c2⟩ := convex_between ((rt : ℚ) / (rt + dT)) (dT / (rt + dT))
    (csd.inputs_filtered i) (csd'.inputs i) (div_nonneg (by linarith) hS0.le)
    (div_nonneg hd hS0.le) (by rw [← add_div, div_self hS0.ne'])
  obtain ⟨d1, d2⟩ := abs_le.mp b6
  exact ⟨hd, b1, b2, b3, b4, b5, e2, by linarith, by linarith⟩

/-- C8, as amended: in binary32 arithmetic, over successive completed cycles that
process a channel with response time `rt > 0`, the same time delta `dT` and the
raw input held at `x`, the filtered input satisfies the recurrence
`f (n+1) - x = rt/(rt+dT) * (f n - x)` up to the rounding error
`max |f n| |x| / 2 ^ 21 + 2 ^ (-148)`, and its distance to `x` after a cycle is
at most `rt/(rt+dT)` times the distance before plus that error. -/
theorem lowPass32_recurrence (H : Header) (r : Nat → Readings) (s : Nat → CameraStab_data)
    (hrun : ∀ n, stateUpdate32 H (r n) (s n) = some (s (n + 1)))
    (i : Nat) (hi : i < H.INPUT_NUMELEM) (a : Nat → ℚ)
    (hp : ∀ n, Processed (r n).cameraStab (r n).AccessoryDesiredInstGet i (a n))
    (rt : Nat) (hpos : 0 < rt) (hrt24 : rt < 2 ^ 24)
    (hrt : ∀ n, (r n).cameraStab.ResponseTime i = rt)
    (dT : ℚ) (hdT : ∀ n, timeDelta32 H (r n).thisSysTime (s n).lastSysTime = dT)
    (x : ℚ) (hraw : ∀ n, (s (n + 1)).inputs i = x)
    (n : Nat) (_hfin : max |(s n).inputs_filtered i| |x| ≤ 2 ^ 126) :
    |((s (n + 1)).inputs_filtered i - x) -
          (rt : ℚ) / (rt + dT) * ((s n).inputs_filtered i - x)| ≤
        max |(s n).inputs_filtered i| |x| / 2 ^ 21 + 1 / 2 ^ 148 ∧
      |(s (n + 1)).inputs_filtered i - x| ≤
        (rt : ℚ) / (rt + dT) * |(s n).inputs_filtered i - x| +
          (max |(s n).inputs_filtered i| |x| / 2 ^ 21 + 1 / 2 ^ 148) := by
  obtain ⟨e1, e2⟩ := stateUpdate32_processed H (r n) (s n) (s (n + 1)) (hrun n) i hi (a n)
    (hp n)
  rw [← e1, hdT n, hraw n, filteredAfter32_eq _ _ _ _ _ rt (hrt n) hpos hrt24] at e2
  have hd : 0 ≤ dT := hdT n ▸ timeDelta32_nonneg H _ _
  have hD32 : round32 dT = dT := hdT n ▸ timeDelta32_idem H _ _
  have hA1 : (1 : ℚ) ≤ rt := by exact_mod_cast hpos
  obtain ⟨_, _, _, _, _, b6⟩ := blend32_near (rt : ℚ) dT ((s n).inputs_filtered i) x hA1
    (round32_natCast rt hrt24) hd hD32
  rw [← e2] at b6
  have hS0 : (0 : ℚ) < rt + dT := by linarith
  have hk0 : 0 ≤ (rt : ℚ) / (rt + dT) := div_nonneg (by linarith) hS0.le
  have hrec : ((s (n + 1)).inputs_filtered i - x) -
      (rt : ℚ) / (rt + dT) * ((s n).inputs_filtered i - x) =
      (s (n + 1)).inputs_filtered i -
        ((rt : ℚ) / (rt + dT) * (s n).inputs_filtered i + dT / (rt + dT) * x) := by
    have hsum : (rt : ℚ) / (rt + dT) + dT / (rt + dT) = 1 := by
      rw [← add_div, div_self hS0.ne']
    have hw2 : dT / (rt + dT) = 1 - (rt : ℚ) / (rt + dT) := by linarith
    rw [hw2]
    ring
  rw [← hrec] at b6
  refine ⟨b6, ?_⟩
  have : (s (n + 1)).inputs_filtered i - x =
      (((s (n + 1)).inputs_filtered i - x) -
        (rt : ℚ) / (rt + dT) * ((s n).inputs_filtered i - x)) +
      (rt : ℚ) / (rt + dT) * ((s n).inputs_filtered i - x) := by ring
  rw [this]
  calc |(((s (n + 1)).inputs_filtered i - x) -
          (rt : ℚ) / (rt + dT) * ((s n).inputs_filtered i - x)) +
          (rt : ℚ) / (rt + dT) * ((s n).inputs_filtered i - x)|
      ≤ |((s (n + 1)).inputs_filtered i - x) -
          (rt : ℚ) / (rt + dT) * ((s n).inputs_filtered i - x)| +
        |(rt : ℚ) / (rt + dT) * ((s n).inputs_filtered i - x)| := abs_add _ _
    _ ≤ _ := by
        rw [abs_mul, abs_of_nonneg hk0]
        linarith

theorem roundEven_of_half (y : ℚ) (n : ℤ) (h : y = n + 1 / 2) :
    roundEven y = if n % 2 = 0 then n else n + 1 := by
  have hf : ⌊y⌋ = n := Int.floor_eq_iff.mpr ⟨by rw [h]; linarith, by rw [h]; linarith⟩
  have h1 : ¬ (y - (n : ℚ) < 1 / 2) := by rw [h]; norm_num
  have h2 : ¬ (1 / 2 < y - (n : ℚ)) := by rw [h]; norm_num
  unfold roundEven
  rw [hf, if_neg h1, if_neg h2]

/-- Evaluation of `round32` at a positive number of the normal range that lies
half way between two neighbouring binary32 numbers, the lower one with the even
last digit `n`: the result is the lower one. -/
theorem round32_eval_half_even (x : ℚ) (e n : ℤ) (hx : 0 < x) (he : -126 ≤ e)
    (h1 : (2 : ℚ) ^ e ≤ x) (h2 : x < (2 : ℚ) ^ (e + 1))
    (hn : x / 2 ^ (e - 23) = n + 1 / 2) (hev : n % 2 = 0) :
    round32 x = n * 2 ^ (e - 23) := by
  have hlog := log_eq_of_bounds x e hx h1 h2
  rw [round32_of_pos x hx]
  unfold roundMag
  rw [ulpExp_of_normal x (by omega), hlog, roundEven_of_half _ n hn, if_pos hev]

/-- Evaluation of `round32` at a positive number of the normal range that lies
half way between two neighbouring binary32 numbers, the lower one with the odd
last digit `n`: the result is the upper one. -/
theorem round32_eval_half_odd (x : ℚ) (e n : ℤ) (hx : 0 < x) (he : -126 ≤ e)
    (h1 : (2 : ℚ) ^ e ≤ x) (h2 : x < (2 : ℚ) ^ (e + 1))
    (hn : x / 2 ^ (e - 23) = n + 1 / 2) (hod : n % 2 = 1) :
    round32 x = (n + 1) * 2 ^ (e - 23) := by
  have hlog := log_eq_of_bounds x e hx h1 h2
  have hne : ¬ (n % 2 = 0) := by omega
  rw [round32_of_pos x hx]
  unfold roundMag
  rw [ulpExp_of_normal x (by omega), hlog, roundEven_of_half _ n hn, if_neg hne]
  push_cast
  ring

/-- C9, refuted as stated in binary32 arithmetic: with response time 22 ms, one
millisecond elapsed, previous filtered input 20 and the cycle's raw input 20,
the new filtered input is 10485761/524288, above the larger of the two. -/
theorem lowPass32_exceeds_max :
    ∃ c, stateUpdate32 stdHeader (readingsOf (channel0Settings StabMode.ATTITUDE 22) 1 1 0)
        (flatData 0 20 20) = some c ∧
      c.inputs 0 = 20 ∧ c.inputs_filtered 0 = 10485761 / 524288 ∧
      max ((flatData 0 20 20).inputs_filtered 0) (c.inputs 0) < c.inputs_filtered 0 := by
  have e0 : round32 (1) = 1 := by
    rw [round32_eval (1) (0) 8388608 (by norm_num) (by norm_num) (by norm_num)
      (by norm_num) (by norm_num [abs_lt])]
    norm_num
  have e1 : round32 (20) = 20 := by
    rw [round32_eval (20) (4) 10485760 (by norm_num) (by norm_num) (by norm_num)
      (by norm_num) (by norm_num [abs_lt])]
    norm_num
  have e2 : round32 (22) = 22 := by
    rw [round32_eval (22) (4) 11534336 (by norm_num) (by norm_num) (by norm_num)
      (by norm_num) (by norm_num [abs_lt])]
    norm_num
  have e3 : round32 (23) = 23 := by
    rw [round32_eval (23) (4) 12058624 (by norm_num) (by norm_num) (by norm_num)
      (by norm_num) (by norm_num [abs_lt])]
    norm_num
  have e4 : round32 (22 / 23) = 4011943 / 4194304 := by
    rw [round32_eval (22 / 23) (-1) 16047772 (by norm_num) (by norm_num) (by norm_num)
      (by norm_num) (by norm_num [abs_lt])]
    norm_num
  have e5 : round32 (1 / 23) = 11671107 / 268435456 := by
    rw [round32_eval (1 / 23) (-5) 11671107 (by norm_num) (by norm_num) (by norm_num)
      (by norm_num) (by norm_num [abs_lt])]
    norm_num
  have e6 : round32 (20059715 / 1048576) = 5014929 / 262144 := by
    rw [round32_eval_half_odd (20059715 / 1048576) (4) 10029857 (by norm_num) (by norm_num)
      (by norm_num) (by norm_num) (by norm_num) (by norm_num)]
    norm_num
  have e7 : round32 (58355535 / 67108864) = 3647221 / 4194304 := by
    rw [round32_eval (58355535 / 67108864) (-1) 14588884 (by norm_num) (by norm_num) (by norm_num)
      (by norm_num) (by norm_num [abs_lt])]
    norm_num
  have e8 : round32 (83886085 / 4194304) = 10485761 / 524288 := by
    rw [round32_eval (83886085 / 4194304) (4) 10485761 (by norm_num) (by norm_num) (by norm_num)
      (by norm_num) (by norm_num [abs_lt])]
    norm_num
  obtain ⟨c, h⟩ := channel0_completes32 StabMode.ATTITUDE 22 1 1 0 (flatData 0 20 20)
    (Or.inl rfl)
  obtain ⟨r1, r2⟩ := stateUpdate32_processed stdHeader _ _ c h 0 (by decide) 1
    (channel0_processed StabMode.ATTITUDE 22 1 1 0 (Or.inl rfl))
  have hraw : c.inputs 0 = 20 := by
    rw [r1]
    norm_num [rawAfter32, readingsOf, channel0Settings, e0, e1, e2, e3, e4, e5, e6, e7, e8]
  have hfilt : c.inputs_filtered 0 = 10485761 / 524288 := by
    rw [r2]
    norm_num [filteredAfter32, rawAfter32, timeDelta32, readingsOf, channel0Settings, flatData,
      stdHeader, e0, e1, e2, e3, e4, e5, e6, e7, e8]
  refine ⟨c, h, hraw, hfilt, ?_⟩
  rw [hraw, hfilt]
  norm_num [flatData]

/-- Instance of C9 as amended: in the update above (response time 22 ms, one
millisecond elapsed, filtered and raw input 20) the new filtered input is at
most the larger of the two plus the rounding allowance. -/
theorem lowPass32_blend_witness :
    ∃ c, stateUpdate32 stdHeader (readingsOf (channel0Settings StabMode.ATTITUDE 22) 1 1 0)
        (flatData 0 20 20) = some c ∧
      c.inputs_filtered 0 ≤
        max ((flatData 0 20 20).inputs_filtered 0) (c.inputs 0) +
          (max |(flatData 0 20 20).inputs_filtered 0| |c.inputs 0| / 2 ^ 21 + 1 / 2 ^ 148) := by
  have e20 : round32 20 = 20 := by
    have := round32_natCast 20 (by norm_num)
    simpa using this
  obtain ⟨c, h⟩ := channel0_completes32 StabMode.ATTITUDE 22 1 1 0 (flatData 0 20 20)
    (Or.inl rfl)
  obtain ⟨r1, _⟩ := stateUpdate32_processed stdHeader _ _ c h 0 (by decide) 1
    (channel0_processed StabMode.ATTITUDE 22 1 1 0 (Or.inl rfl))
  have hraw : c.inputs 0 = 20 := by
    rw [r1]
    norm_num [rawAfter32, readingsOf, channel0Settings, e20]
  exact ⟨c, h,
    (lowPass32_blend stdHeader _ _ c h 0 (by decide) 1
      (channel0_processed StabMode.ATTITUDE 22 1 1 0 (Or.inl rfl)) 22 rfl (by decide)
      (by norm_num) _ rfl _ _ rfl rfl
      (by rw [hraw]; norm_num [flatData])).2.2.2.2.2.2.2.2⟩

/-- C8, refuted as stated in binary32 arithmetic: with response time 18 ms, 100 ms
per cycle and the raw input held at 20, the filtered input goes from
5242879/262144 (below 20) to 20 and then to 10485761/524288 (above 20): it
crosses the raw input, its distance to the raw input grows again, and the next
cycle leaves it at 10485761/524288: that value, not the raw input, is a fixed
point of the step. -/
theorem lowPass32_crosses :
    ∃ c1 c2 c3,
      stateUpdate32 stdHeader (readingsOf (channel0Settings StabMode.ATTITUDE 18) 100 1 0)
        (flatData 0 20 (5242879 / 262144)) = some c1 ∧
      stateUpdate32 stdHeader (readingsOf (channel0Settings StabMode.ATTITUDE 18) 200 1 0)
        c1 = some c2 ∧
      stateUpdate32 stdHeader (readingsOf (channel0Settings StabMode.ATTITUDE 18) 300 1 0)
        c2 = some c3 ∧
      c1.inputs 0 = 20 ∧ c2.inputs 0 = 20 ∧ c3.inputs 0 = 20 ∧
      c1.inputs_filtered 0 = 20 ∧ c2.inputs_filtered 0 = 10485761 / 524288 ∧
      (flatData 0 20 (5242879 / 262144)).inputs_filtered 0 < 20 ∧ 20 < c2.inputs_filtered 0 ∧
      |c1.inputs_filtered 0 - 20| < |c2.inputs_filtered 0 - 20| ∧
      c3.inputs_filtered 0 = c2.inputs_filtered 0 := by
  have e0 : round32 (100) = 100 := by
    rw [round32_eval (100) (6) 13107200 (by norm_num) (by norm_num) (by norm_num)
      (by norm_num) (by norm_num [abs_lt])]
    norm_num
  have e1 : round32 (20) = 20 := by
    rw [round32_eval (20) (4) 10485760 (by norm_num) (by norm_num) (by norm_num)
      (by norm_num) (by norm_num [abs_lt])]
    norm_num
  have e2 : round32 (18) = 18 := by
    rw [round32_eval (18) (4) 9437184 (by norm_num) (by norm_num) (by norm_num)
      (by norm_num) (by norm_num [abs_lt])]
    norm_num
  have e3 : round32 (118) = 118 := by
    rw [round32_eval (118) (6) 15466496 (by norm_num) (by norm_num) (by norm_num)
      (by norm_num) (by norm_num [abs_lt])]
    norm_num
  have e4 : round32 (9 / 59) = 10236945 / 67108864 := by
    rw [round32_eval (9 / 59) (-3) 10236945 (by norm_num) (by norm_num) (by norm_num)
      (by norm_num) (by norm_num [abs_lt])]
    norm_num
  have e5 : round32 (50 / 59) = 3554495 / 4194304 := by
    rw [round32_eval (50 / 59) (-1) 14217980 (by norm_num) (by norm_num) (by norm_num)
      (by norm_num) (by norm_num [abs_lt])]
    norm_num
  have e6 : round32 (53671063964655 / 17592186044416) = 12796179 / 4194304 := by
    rw [round32_eval (53671063964655 / 17592186044416) (1) 12796179 (by norm_num) (by norm_num) (by norm_num)
      (by norm_num) (by norm_num [abs_lt])]
    norm_num
  have e7 : round32 (17772475 / 1048576) = 4443119 / 262144 := by
    rw [round32_eval_half_odd (17772475 / 1048576) (4) 8886237 (by norm_num) (by norm_num)
      (by norm_num) (by norm_num) (by norm_num) (by norm_num)]
    norm_num
  have e8 : round32 (83886083 / 4194304) = 20 := by
    rw [round32_eval (83886083 / 4194304) (4) 10485760 (by norm_num) (by norm_num) (by norm_num)
      (by norm_num) (by norm_num [abs_lt])]
    norm_num
  have e9 : round32 (51184725 / 16777216) = 12796181 / 4194304 := by
    rw [round32_eval (51184725 / 16777216) (1) 12796181 (by norm_num) (by norm_num) (by norm_num)
      (by norm_num) (by norm_num [abs_lt])]
    norm_num
  have e10 : round32 (83886085 / 4194304) = 10485761 / 524288 := by
    rw [round32_eval (83886085 / 4194304) (4) 10485761 (by norm_num) (by norm_num) (by norm_num)
      (by norm_num) (by norm_num [abs_lt])]
    norm_num
  have e11 : round32 (107342158640145 / 35184372088832) = 6398091 / 2097152 := by
    rw [round32_eval (107342158640145 / 35184372088832) (1) 12796182 (by norm_num) (by norm_num) (by norm_num)
      (by norm_num) (by norm_num [abs_lt])]
    norm_num
  have e12 : round32 (41943043 / 2097152) = 10485761 / 524288 := by
    rw [round32_eval (41943043 / 2097152) (4) 10485761 (by norm_num) (by norm_num) (by norm_num)
      (by norm_num) (by norm_num [abs_lt])]
    norm_num
  obtain ⟨c1, h1⟩ := channel0_completes32 StabMode.ATTITUDE 18 100 1 0
    (flatData 0 20 (5242879 / 262144)) (Or.inl rfl)
  obtain ⟨c2, h2⟩ := channel0_completes32 StabMode.ATTITUDE 18 200 1 0 c1 (Or.inl rfl)
  obtain ⟨c3, h3⟩ := channel0_completes32 StabMode.ATTITUDE 18 300 1 0 c2 (Or.inl rfl)
  obtain ⟨r1, r2⟩ := stateUpdate32_processed stdHeader _ _ c1 h1 0 (by decide) 1
    (channel0_processed StabMode.ATTITUDE 18 100 1 0 (Or.inl rfl))
  obtain ⟨q1, q2⟩ := stateUpdate32_processed stdHeader _ _ c2 h2 0 (by decide) 1
    (channel0_processed StabMode.ATTITUDE 18 200 1 0 (Or.inl rfl))
  obtain ⟨p1, p2⟩ := stateUpdate32_processed stdHeader _ _ c3 h3 0 (by decide) 1
    (channel0_processed StabMode.ATTITUDE 18 300 1 0 (Or.inl rfl))
  have hl1 : c1.lastSysTime = 100 := stateUpdate32_lastSysTime stdHeader _ _ c1 h1
  have hl2 : c2.lastSysTime = 200 := stateUpdate32_lastSysTime stdHeader _ _ c2 h2
  have hraw1 : c1.inputs 0 = 20 := by
    rw [r1]
    norm_num [rawAfter32, readingsOf, channel0Settings, e0, e1, e2, e3, e4, e5, e6, e7, e8, e9, e10, e11, e12]
  have hfilt1 : c1.inputs_filtered 0 = 20 := by
    rw [r2]
    norm_num [filteredAfter32, rawAfter32, timeDelta32, readingsOf, channel0Settings, flatData,
      stdHeader, e0, e1, e2, e3, e4, e5, e6, e7, e8, e9, e10, e11, e12]
  have hraw2 : c2.inputs 0 = 20 := by
    rw [q1]
    norm_num [rawAfter32, readingsOf, channel0Settings, e0, e1, e2, e3, e4, e5, e6, e7, e8, e9, e10, e11, e12]
  have hfilt2 : c2.inputs_filtered 0 = 10485761 / 524288 := by
    rw [q2, hl1, hfilt1]
    norm_num [filteredAfter32, rawAfter32, timeDelta32, readingsOf, channel0Settings,
      stdHeader, e0, e1, e2, e3, e4, e5, e6, e7, e8, e9, e10, e11, e12]
  have hraw3 : c3.inputs 0 = 20 := by
    rw [p1]
    norm_num [rawAfter32, readingsOf, channel0Settings, e0, e1, e2, e3, e4, e5, e6, e7, e8, e9, e10, e11, e12]
  have hfilt3 : c3.inputs_filtered 0 = 10485761 / 524288 := by
    rw [p2, hl2, hfilt2]
    norm_num [filteredAfter32, rawAfter32, timeDelta32, readingsOf, channel0Settings,
      stdHeader, e0, e1, e2, e3, e4, e5, e6, e7, e8, e9, e10, e11, e12]
  refine ⟨c1, c2, c3, h1, h2, h3, hraw1, hraw2, hraw3, hfilt1, hfilt2, ?_, ?_, ?_, ?_⟩
  · norm_num [flatData]
  · rw [hfilt2]
    norm_num
  · rw [hfilt1, hfilt2]
    norm_num [abs_of_pos]
  · rw [hfilt3, hfilt2]

/-- C14, refuted as stated in binary32 arithmetic: from the zeroed state, with
fixed settings (Attitude mode, input range 20, response time 2 ms), accessory
value 1 and updates at the ticks 1000, 2000 and 3000, the filtered input is
10464831 / 524288, then 10485719 / 524288, then 10485761 / 524288, which is above the input range. -/
theorem filtered32_leaves_range :
    ∃ c1 c2 c3,
      stateUpdate32 stdHeader (readingsOf (channel0Settings StabMode.ATTITUDE 2) 1000 1 0)
        (initialData 0) = some c1 ∧
      stateUpdate32 stdHeader (readingsOf (channel0Settings StabMode.ATTITUDE 2) 2000 1 0)
        c1 = some c2 ∧
      stateUpdate32 stdHeader (readingsOf (channel0Settings StabMode.ATTITUDE 2) 3000 1 0)
        c2 = some c3 ∧
      c3.inputs_filtered 0 = 10485761 / 524288 ∧
      (channel0Settings StabMode.ATTITUDE 2).InputRange 0 < |c3.inputs_filtered 0| := by
  have e0 : round32 (1000) = 1000 := by
    rw [round32_eval (1000) (9) 16384000 (by norm_num) (by norm_num) (by norm_num)
      (by norm_num) (by norm_num [abs_lt])]
    norm_num
  have e1 : round32 (20) = 20 := by
    rw [round32_eval (20) (4) 10485760 (by norm_num) (by norm_num) (by norm_num)
      (by norm_num) (by norm_num [abs_lt])]
    norm_num
  have e2 : round32 (2) = 2 := by
    rw [round32_eval (2) (1) 8388608 (by norm_num) (by norm_num) (by norm_num)
      (by norm_num) (by norm_num [abs_lt])]
    norm_num
  have e3 : round32 (1002) = 1002 := by
    rw [round32_eval (1002) (9) 16416768 (by norm_num) (by norm_num) (by norm_num)
      (by norm_num) (by norm_num [abs_lt])]
    norm_num
  have e4 : round32 (1 / 501) = 8572789 / 4294967296 := by
    rw [round32_eval (1 / 501) (-9) 8572789 (by norm_num) (by norm_num) (by norm_num)
      (by norm_num) (by norm_num [abs_lt])]
    norm_num
  have e5 : round32 (500 / 501) = 16743729 / 16777216 := by
    rw [round32_eval (500 / 501) (-1) 16743729 (by norm_num) (by norm_num) (by norm_num)
      (by norm_num) (by norm_num [abs_lt])]
    norm_num
  have e6 : round32 (83718645 / 4194304) = 10464831 / 524288 := by
    rw [round32_eval (83718645 / 4194304) (4) 10464831 (by norm_num) (by norm_num) (by norm_num)
      (by norm_num) (by norm_num [abs_lt])]
    norm_num
  have e7 : round32 (10464831 / 524288) = 10464831 / 524288 := by
    rw [round32_eval (10464831 / 524288) (4) 10464831 (by norm_num) (by norm_num) (by norm_num)
      (by norm_num) (by norm_num [abs_lt])]
    norm_num
  have e8 : round32 (89712788083659 / 2251799813685248) = 5347299 / 134217728 := by
    rw [round32_eval (89712788083659 / 2251799813685248) (-5) 10694598 (by norm_num) (by norm_num) (by norm_num)
      (by norm_num) (by norm_num [abs_lt])]
    norm_num
  have e9 : round32 (2684344035 / 134217728) = 10485719 / 524288 := by
    rw [round32_eval (2684344035 / 134217728) (4) 10485719 (by norm_num) (by norm_num) (by norm_num)
      (by norm_num) (by norm_num [abs_lt])]
    norm_num
  have e10 : round32 (89891856500291 / 2251799813685248) = 1339493 / 33554432 := by
    rw [round32_eval (89891856500291 / 2251799813685248) (-5) 10715944 (by norm_num) (by norm_num) (by norm_num)
      (by norm_num) (by norm_num [abs_lt])]
    norm_num
  have e11 : round32 (671088677 / 33554432) = 10485761 / 524288 := by
    rw [round32_eval (671088677 / 33554432) (4) 10485761 (by norm_num) (by norm_num) (by norm_num)
      (by norm_num) (by norm_num [abs_lt])]
    norm_num
  obtain ⟨c1, h1⟩ := channel0_completes32 StabMode.ATTITUDE 2 1000 1 0 (initialData 0)
    (Or.inl rfl)
  obtain ⟨c2, h2⟩ := channel0_completes32 StabMode.ATTITUDE 2 2000 1 0 c1 (Or.inl rfl)
  obtain ⟨c3, h3⟩ := channel0_completes32 StabMode.ATTITUDE 2 3000 1 0 c2 (Or.inl rfl)
  obtain ⟨_, r2⟩ := stateUpdate32_processed stdHeader _ _ c1 h1 0 (by decide) 1
    (channel0_processed StabMode.ATTITUDE 2 1000 1 0 (Or.inl rfl))
  obtain ⟨_, q2⟩ := stateUpdate32_processed stdHeader _ _ c2 h2 0 (by decide) 1
    (channel0_processed StabMode.ATTITUDE 2 2000 1 0 (Or.inl rfl))
  obtain ⟨_, p2⟩ := stateUpdate32_processed stdHeader _ _ c3 h3 0 (by decide) 1
    (channel0_processed StabMode.ATTITUDE 2 3000 1 0 (Or.inl rfl))
  have hl1 : c1.lastSysTime = 1000 := stateUpdate32_lastSysTime stdHeader _ _ c1 h1
  have hl2 : c2.lastSysTime = 2000 := stateUpdate32_lastSysTime stdHeader _ _ c2 h2
  have hfilt1 : c1.inputs_filtered 0 = 10464831 / 524288 := by
    rw [r2]
    norm_num [filteredAfter32, rawAfter32, timeDelta32, readingsOf, channel0Settings,
      initialData, stdHeader, round32_zero, e0, e1, e2, e3, e4, e5, e6, e7, e8, e9, e10, e11]
  have hfilt2 : c2.inputs_filtered 0 = 10485719 / 524288 := by
    rw [q2, hl1, hfilt1]
    norm_num [filteredAfter32, rawAfter32, timeDelta32, readingsOf, channel0Settings,
      stdHeader, e0, e1, e2, e3, e4, e5, e6, e7, e8, e9, e10, e11]
  have hfilt3 : c3.inputs_filtered 0 = 10485761 / 524288 := by
    rw [p2, hl2, hfilt2]
    norm_num [filteredAfter32, rawAfter32, timeDelta32, readingsOf, channel0Settings,
      stdHeader, e0, e1, e2, e3, e4, e5, e6, e7, e8, e9, e10, e11]
  refine ⟨c1, c2, c3, h1, h2, h3, hfilt3, ?_⟩
  rw [hfilt3]
  norm_num [channel0Settings, abs_of_pos]

/-- C15, refuted as stated in binary32 arithmetic: with raw input 0, input rate
50 per second and one millisecond elapsed, the update moves the raw input to
13421773 / 268435456, by more than 50 * (1 / 1000). -/
theorem axisLock32_exceeds_slew :
    ∃ c, stateUpdate32 stdHeader (readingsOf (channel0Settings StabMode.AXISLOCK 0) 1 1 0)
        (flatData 0 0 0) = some c ∧
      c.inputs 0 = 13421773 / 268435456 ∧
      |(1 : ℚ) * (channel0Settings StabMode.AXISLOCK 0).InputRate 0| *
          deltaSeconds stdHeader 1 0 < |c.inputs 0 - (flatData 0 0 0).inputs 0| := by
  have e0 : round32 (1) = 1 := by
    rw [round32_eval (1) (0) 8388608 (by norm_num) (by norm_num) (by norm_num)
      (by norm_num) (by norm_num [abs_lt])]
    norm_num
  have e1 : round32 (50) = 50 := by
    rw [round32_eval (50) (5) 13107200 (by norm_num) (by norm_num) (by norm_num)
      (by norm_num) (by norm_num [abs_lt])]
    norm_num
  have e2 : round32 (1 / 20) = 13421773 / 268435456 := by
    rw [round32_eval (1 / 20) (-5) 13421773 (by norm_num) (by norm_num) (by norm_num)
      (by norm_num) (by norm_num [abs_lt])]
    norm_num
  have e3 : round32 (13421773 / 268435456) = 13421773 / 268435456 := by
    rw [round32_eval (13421773 / 268435456) (-5) 13421773 (by norm_num) (by norm_num) (by norm_num)
      (by norm_num) (by norm_num [abs_lt])]
    norm_num
  obtain ⟨c, h⟩ := channel0_completes32 StabMode.AXISLOCK 0 1 1 0 (flatData 0 0 0)
    (Or.inr rfl)
  obtain ⟨r1, _⟩ := stateUpdate32_processed stdHeader _ _ c h 0 (by decide) 1
    (channel0_processed StabMode.AXISLOCK 0 1 1 0 (Or.inr rfl))
  have hraw : c.inputs 0 = 13421773 / 268435456 := by
    rw [r1]
    norm_num [rawAfter32, timeDelta32, readingsOf, channel0Settings, flatData, stdHeader,
      bound_rat, e0, e1, e2, e3]
  refine ⟨c, h, hraw, ?_⟩
  rw [hraw]
  norm_num [channel0Settings, deltaSeconds, stdHeader, flatData, abs_of_pos]

theorem decayRun32_succ (n : Nat) :
    decayRun32 (n + 1) =
      match stateUpdate32 stdHeader (decayReadings n) (decayRun32 n) with
      | some c => c
      | none => decayRun32 n := rfl

theorem decayRun32_step (n : Nat) :
    stateUpdate32 stdHeader (decayReadings n) (decayRun32 n) = some (decayRun32 (n + 1)) := by
  obtain ⟨c, h⟩ := channel0_completes32 StabMode.ATTITUDE 10 (10 * (n + 1)) 0 0 (decayRun32 n)
    (Or.inl rfl)
  have h2 : stateUpdate32 stdHeader (decayReadings n) (decayRun32 n) = some c := h
  have e1 : decayRun32 (n + 1) = c := by
    rw [decayRun32_succ, h2]
  rw [e1, h2]

theorem decayRun32_lastSysTime (n : Nat) : (decayRun32 n).lastSysTime = 10 * n := by
  cases n with
  | zero => rfl
  | succ m => exact stateUpdate32_lastSysTime stdHeader _ _ _ (decayRun32_step m)

theorem decayRun32_timeDelta (n : Nat) :
    timeDelta32 stdHeader (decayReadings n).thisSysTime (decayRun32 n).lastSysTime = 10 := by
  rw [decayRun32_lastSysTime]
  have h1 : 10 * (n + 1) > 10 * n := by omega
  have h2 : (10 * (n + 1) - 10 * n) / 1 = 10 := by omega
  have h3 := round32_natCast 10 (by norm_num)
  simp only [timeDelta32, decayReadings, readingsOf, stdHeader, if_pos h1, h2]
  simpa using h3

theorem decayRun32_raw (n : Nat) : (decayRun32 (n + 1)).inputs 0 = 0 := by
  obtain ⟨e1, _⟩ := stateUpdate32_processed stdHeader (decayReadings n) (decayRun32 n)
    (decayRun32 (n + 1)) (decayRun32_step n) 0 (by decide) 0
    (channel0_processed StabMode.ATTITUDE 10 (10 * (n + 1)) 0 0 (Or.inl rfl))
  rw [e1]
  simp [rawAfter32, decayReadings, readingsOf, channel0Settings, round32_zero]

/-- Instance of C8 as amended: in the first example run in binary32 arithmetic
(response time 10 ms, 10 ms per cycle, raw input held at 0, filtered input
starting at 1) the first cycle follows the recurrence with factor 10/(10+10)
up to the rounding allowance. -/
theorem lowPass32_recurrence_witness :
    |((decayRun32 1).inputs_filtered 0 - 0) - (10 : ℚ) / (10 + 10) * (1 - 0)| ≤
      max |(1 : ℚ)| |0| / 2 ^ 21 + 1 / 2 ^ 148 :=
  (lowPass32_recurrence stdHeader decayReadings decayRun32 decayRun32_step 0 (by decide)
    (fun _ => 0)
    (fun n => channel0_processed StabMode.ATTITUDE 10 (10 * (n + 1)) 0 0 (Or.inl rfl))
    10 (by decide) (by norm_num) (fun _ => rfl) 10 decayRun32_timeDelta 0 decayRun32_raw
    0 (by norm_num [decayRun32, flatData])).1

theorem stepOr32_of_some (r : Readings) (csd c : CameraStab_data)
    (h : stateUpdate32 stdHeader r csd = some c) : stepOr32 r csd = c := by
  unfold stepOr32
  rw [h]

theorem sweepRun32_succ (n : Nat) :
    sweepRun32 (n + 1) = stepOr32 (sweepReadings n) (sweepRun32 n) := rfl

theorem sweepRun32_step (n : Nat) :
    stateUpdate32 stdHeader (sweepReadings n) (sweepRun32 n) = some (sweepRun32 (n + 1)) := by
  obtain ⟨c, h⟩ := channel0_completes32 StabMode.AXISLOCK 30 (1000 * (n + 1)) 1 0
    (sweepRun32 n) (Or.inr rfl)
  have h2 : stateUpdate32 stdHeader (sweepReadings n) (sweepRun32 n) = some c := h
  have e1 : sweepRun32 (n + 1) = c :=
    (sweepRun32_succ n).trans (stepOr32_of_some _ _ c h2)
  rw [e1, h2]

/-- Instance of C14 as amended: in the second example run in binary32
arithmetic, which integrates 50 per cycle towards the input range 20, the raw
input of channel 0 is within 20 after five cycles. -/
theorem raw_within_range32_witness : |(sweepRun32 5).inputs 0| ≤ 20 := by
  have hacc : ∀ n k a, (sweepReadings n).AccessoryDesiredInstGet k = some a → |a| ≤ 1 := by
    intro n k a hk
    simp only [sweepReadings, readingsOf] at hk
    split_ifs at hk
    cases hk
    norm_num
  have hR : (0 : ℚ) ≤ (channel0Settings StabMode.AXISLOCK 30).InputRange 0 := by
    norm_num [channel0Settings]
  have hR32 : round32 ((channel0Settings StabMode.AXISLOCK 30).InputRange 0) =
      (channel0Settings StabMode.AXISLOCK 30).InputRange 0 := by
    have := round32_natCast 20 (by norm_num)
    simpa [channel0Settings] using this
  exact (raw_within_range32 stdHeader sweepReadings sweepRun32
    (channel0Settings StabMode.AXISLOCK 30) 0 rfl sweepRun32_step (fun _ => rfl)
    hacc 0 hR hR32 5).1

/-- Instance of C15 as amended: in binary32 arithmetic, with the computed rate
-50 per second, 10 ms elapsed and raw input 3 within the range 20, the raw input
moves by at most the rounded step plus the rounding allowance, and not
upwards. -/
theorem axisLock_slew32_witness :
    ∃ c, stateUpdate32 stdHeader (readingsOf (channel0Settings StabMode.AXISLOCK 30) 15 (-1) 0)
        (flatData 5 3 8) = some c ∧
      |c.inputs 0 - 3| ≤
        (1 + 1 / 2 ^ 24) ^ 2 * (50 * (10 / 1000)) + 20 / 2 ^ 24 + 1 / 2 ^ 148 ∧
      c.inputs 0 ≤ 3 := by
  have e3 : round32 3 = 3 := by
    have := round32_natCast 3 (by norm_num)
    simpa using this
  have e10 : round32 10 = 10 := by
    have := round32_natCast 10 (by norm_num)
    simpa using this
  have e20 : round32 20 = 20 := by
    have := round32_natCast 20 (by norm_num)
    simpa using this
  have e50 : round32 50 = 50 := by
    have := round32_natCast 50 (by norm_num)
    simpa using this
  obtain ⟨c, h⟩ := channel0_completes32 StabMode.AXISLOCK 30 15 (-1) 0 (flatData 5 3 8)
    (Or.inr rfl)
  have hw := axisLock_slew32 stdHeader _ _ c h 0 (by decide) (-1)
    (channel0_processed StabMode.AXISLOCK 30 15 (-1) 0 (Or.inr rfl)) rfl
    (by norm_num [readingsOf, channel0Settings, flatData])
    (by simpa [flatData] using e3)
    (by simpa [readingsOf, channel0Settings] using e20)
    (-50) (by norm_num [readingsOf, channel0Settings, round32_neg, e50])
    10 (by norm_num [timeDelta32, readingsOf, flatData, stdHeader, e10])
    (by norm_num)
  refine ⟨c, h, ?_, ?_⟩
  · have h1 := hw.1
    norm_num [readingsOf, channel0Settings, flatData] at h1 ⊢
    exact h1
  · have h2 := hw.2.2 (by norm_num [readingsOf, channel0Settings])
    simpa [flatData] using h2

end CameraStab
